import Mathlib

/-!
# Basic-Vulkan: the Wavefront OBJ loader and the materialization of its meshes

A shallow embedding of `load_simple_wavefront_obj` (src/src/load_model_obj.cpp), of
the data model of `cw1/simple_model.hpp` and of the part of `main` that hands the
meshes to the device (src/cw1/main.cpp), followed by theorems about the model the
loader returns and about what the materialization does with it.

Conventions of the embedding

* `std::vector` and `rapidobj::Array` are lists, `std::size_t` is `Nat` (the
  sizes that occur are container sizes), `int` values are `Int`.
* A `float` is carried by its bit pattern; the loader only copies floats.
* The function returns `Except Fault SimpleModel`.  `Fault.loadError` is the
  thrown `lut::Error`.  A failed `assert` and an unchecked read outside a
  container (`operator[]`) have no defined result in C++; they are the two other
  faults, and no model is returned through them.
* `rapidobj::ParseFile`, `rapidobj::Triangulate` and the iteration order of
  `std::unordered_set` belong to libraries outside the repository; they are the
  fields of `Env`.
-/

namespace BasicVulkan

/-- A `float`, carried by its bit pattern. -/
structure float where
  bits : Nat
deriving DecidableEq, Repr

/-- The ways in which a call can end without returning a value. -/
inductive Fault where
  /-- The `lut::Error` thrown at line 21, with its message. -/
  | loadError (message : String)
  /-- An `assert` at the given source line failed. -/
  | assertFailed (line : Nat)
  /-- An unchecked `operator[]` read outside its container. -/
  | outOfRange
deriving DecidableEq, Repr

/-! ## rapidobj data (the parts the loader reads) -/

namespace rapidobj

/-- The `rapidobj::Index` of one face vertex. -/
structure Index where
  position_index : Int
  texcoord_index : Int
  normal_index : Int
deriving DecidableEq, Repr

/-- The `rapidobj::Mesh` of a shape: one `Index` per face vertex, one material id per face. -/
structure Mesh where
  indices : List Index
  material_ids : List Int
deriving DecidableEq, Repr

/-- A `rapidobj::Shape`. -/
structure Shape where
  name : String
  mesh : Mesh
deriving DecidableEq, Repr

/-- A `rapidobj::Material`; `diffuse` holds `diffuse[0]`, `diffuse[1]`, `diffuse[2]`. -/
structure Material where
  name : String
  diffuse : float × float × float
  diffuse_texname : String
deriving DecidableEq, Repr

/-- The `rapidobj::Attributes` pools. -/
structure Attributes where
  positions : List float
  texcoords : List float
deriving DecidableEq, Repr

/-- A `rapidobj::Error`: the value of `code` and the text of `code.message()`.
`bool(error)` is `code ≠ 0`. -/
structure Error where
  code : Int
  message : String
deriving DecidableEq, Repr

/-- A `rapidobj::Result`. -/
structure Result where
  attributes : Attributes
  shapes : List Shape
  materials : List Material
  error : Error
deriving DecidableEq, Repr

end rapidobj

/-! ## cw1/simple_model.hpp -/

/-- A `glm::vec3`. -/
structure vec3 where
  x : float
  y : float
  z : float
deriving DecidableEq, Repr

/-- A `glm::vec2`. -/
structure vec2 where
  x : float
  y : float
deriving DecidableEq, Repr

structure SimpleMaterialInfo where
  materialName : String
  diffuseColor : vec3
  diffuseTexturePath : String
deriving DecidableEq, Repr

structure SimpleMeshInfo where
  meshName : String
  materialIndex : Nat
  textured : Bool
  vertexStartIndex : Nat
  vertexCount : Nat
deriving DecidableEq, Repr

/-- The member `SimpleModel::dataTextured`. -/
structure Data_ where
  positions : List vec3
  texcoords : List vec2
deriving DecidableEq, Repr

/-- The member `SimpleModel::dataUntextured`. -/
structure Data2_ where
  positions : List vec3
deriving DecidableEq, Repr

structure SimpleModel where
  modelSourcePath : String
  materials : List SimpleMaterialInfo
  meshes : List SimpleMeshInfo
  dataTextured : Data_
  dataUntextured : Data2_
deriving DecidableEq, Repr

/-! ## The libraries around the loader -/

/-- What the loader takes from outside the repository.

`iterate earlier emplaced` is the order in which a range-for visits
`activeMaterials` when `emplaced` is the sequence of values passed to `emplace`
since the last `clear()` and `earlier` are the sequences of the shapes before
(the set object is reused, so its bucket layout may depend on them).  The
standard only promises that every element is visited once. -/
structure Env where
  ParseFile : String → rapidobj.Result
  Triangulate : rapidobj.Result → rapidobj.Result
  iterate : List (List Nat) → List Nat → List Nat
  iterate_nodup : ∀ earlier emplaced, (iterate earlier emplaced).Nodup
  mem_iterate : ∀ earlier emplaced x, x ∈ iterate earlier emplaced ↔ x ∈ emplaced

/-! ## Control flow and conversions -/

/-- A loop over `xs` threading a state, left at the first fault. -/
def foldE {σ α : Type} (f : σ → α → Except Fault σ) : σ → List α → Except Fault σ
  | s, [] => .ok s
  | s, a :: as =>
    match f s a with
    | .ok s' => foldE f s' as
    | .error e => .error e

/-- The loop `for( std::size_t i = 0; i < n; ++i )`. -/
def forLoop {σ : Type} (n : Nat) (body : Nat → σ → Except Fault σ) (s : σ) : Except Fault σ :=
  foldE (fun s i => body i s) s (List.range n)

/-- The call `s.empty()` of a `std::string`. -/
def empty (s : String) : Bool := decide (s = "")

/-- The conversion `std::size_t(v)` of an `int` (64-bit `size_t`). -/
def toSizeT (v : Int) : Nat := (v % 2 ^ 64).toNat

/-- The conversion `int(n)` of a `std::size_t` (32-bit two's complement `int`). -/
def toInt (n : Nat) : Int := ((n : Int) + 2 ^ 31) % 2 ^ 32 - 2 ^ 31

/-- The element index `index*stride + k` computed in `int` and used as a `size_t`
subscript: defined when the `int` arithmetic does not overflow and the value is
not negative. -/
def subscript (index : Int) (stride k : Nat) : Option Nat :=
  let v := index * stride + k
  if 0 ≤ v ∧ v < 2 ^ 31 then some v.toNat else none

/-- The read `pool[index*stride + k]` through the unchecked `operator[]`. -/
def readPool (pool : List float) (index : Int) (stride k : Nat) : Option float :=
  match subscript index stride k with
  | some j => pool[j]?
  | none => none

/-- Lines 129-133: the `glm::vec3` built from the position pool. -/
def resolvePosition (attributes : rapidobj.Attributes) (idx : rapidobj.Index) : Option vec3 :=
  match readPool attributes.positions idx.position_index 3 0,
        readPool attributes.positions idx.position_index 3 1,
        readPool attributes.positions idx.position_index 3 2 with
  | some x, some y, some z => some ⟨x, y, z⟩
  | _, _, _ => none

/-- Lines 137-140: the `glm::vec2` built from the texcoord pool. -/
def resolveTexcoord (attributes : rapidobj.Attributes) (idx : rapidobj.Index) : Option vec2 :=
  match readPool attributes.texcoords idx.texcoord_index 2 0,
        readPool attributes.texcoords idx.texcoord_index 2 1 with
  | some x, some y => some ⟨x, y⟩
  | _, _ => none

/-! ## Lines 18-36: the error message and the path prefix -/

/-- Modelled from the spec: the message of a `lut::Error` built from a printf-style
format and its string arguments (labutils/error.hpp is not among the sources); each
`%s` is replaced by the next argument, as the format
`Unable to load OBJ file '<path>': <message>` of the spec says. -/
def formatMessage : List Char → List String → List Char
  | [], _ => []
  | [c], _ => [c]
  | c :: d :: rest, args =>
    if c = '%' ∧ d = 's' then
      match args with
      | a :: args => a.data ++ formatMessage rest args
      | [] => formatMessage rest []
    else c :: formatMessage (d :: rest) args

/-- The call `std::strrchr( s, c )`: the offset of the last `c` in `s`, if there is one. -/
def strrchr : List Char → Char → Option Nat
  | [], _ => none
  | x :: xs, c =>
    match strrchr xs c with
    | some i => some (i + 1)
    | none => if x = c then some 0 else none

/-- Lines 30-36: the directory part of `aPath`, its last `/` included. -/
def pathPrefix (aPath : String) : String :=
  match strrchr aPath.data '/' with
  | some pathEnd => String.mk (aPath.data.take (pathEnd + 1))
  | none => ""

/-! ## Lines 44-55: materials -/

/-- The body of the loop over `result.materials`. -/
def materialInfo (pfx : String) (mat : rapidobj.Material) : SimpleMaterialInfo :=
  { materialName := mat.name
    diffuseColor := ⟨mat.diffuse.1, mat.diffuse.2.1, mat.diffuse.2.2⟩
    diffuseTexturePath := if !empty mat.diffuse_texname then pfx ++ mat.diffuse_texname else "" }

/-! ## Lines 70-155: meshes -/

/-- Lines 80-86: one turn of the scan loop; `emplaced` are the values passed to
`activeMaterials.emplace` so far, in order. -/
def scanVertex (shape : rapidobj.Shape) (materialCount : Nat) (i : Nat) (emplaced : List Nat) :
    Except Fault (List Nat) :=
  let faceId := i / 3
  if faceId < shape.mesh.material_ids.length then
    match shape.mesh.material_ids[faceId]? with
    | none => .error .outOfRange
    | some matId =>
      if matId < toInt materialCount then .ok (emplaced ++ [toSizeT matId])
      else .error (.assertFailed 85)
  else .error (.assertFailed 82)

/-- Lines 76-87: the values passed to `activeMaterials.emplace` for a shape, in order. -/
def scanMaterials (shape : rapidobj.Shape) (materialCount : Nat) : Except Fault (List Nat) :=
  forLoop shape.mesh.indices.length (scanVertex shape materialCount) []

/-- Lines 98-106: the vector `*opos`, chosen by `textured`. -/
def opos (textured : Bool) (ret : SimpleModel) : List vec3 :=
  if textured then ret.dataTextured.positions else ret.dataUntextured.positions

/-- The call `opos->emplace_back( v )`. -/
def oposEmplace (textured : Bool) (v : vec3) (ret : SimpleModel) : SimpleModel :=
  if textured then
    { ret with dataTextured := { ret.dataTextured with positions := ret.dataTextured.positions ++ [v] } }
  else
    { ret with dataUntextured := { positions := ret.dataUntextured.positions ++ [v] } }

/-- The call `otex->emplace_back( t )`; `otex` points into `dataTextured`. -/
def otexEmplace (t : vec2) (ret : SimpleModel) : SimpleModel :=
  { ret with dataTextured := { ret.dataTextured with texcoords := ret.dataTextured.texcoords ++ [t] } }

/-- Lines 121-141: one turn of the extraction loop. -/
def extractVertex (result : rapidobj.Result) (shape : rapidobj.Shape) (matId : Nat)
    (textured : Bool) (i : Nat) (ret : SimpleModel) : Except Fault SimpleModel :=
  let faceId := i / 3
  match shape.mesh.material_ids[faceId]? with
  | none => .error .outOfRange
  | some faceMatInt =>
    let faceMat := toSizeT faceMatInt
    if faceMat ≠ matId then .ok ret
    else
      match shape.mesh.indices[i]? with
      | none => .error .outOfRange
      | some idx =>
        match resolvePosition result.attributes idx with
        | none => .error .outOfRange
        | some v =>
          let ret := oposEmplace textured v ret
          if textured then
            match resolveTexcoord result.attributes idx with
            | none => .error .outOfRange
            | some t => .ok (otexEmplace t ret)
          else .ok ret

/-- Lines 98-153: the body of the loop over `activeMaterials`; `activeCount` is
`activeMaterials.size()`. -/
def extractMaterial (result : rapidobj.Result) (shape : rapidobj.Shape) (activeCount : Nat)
    (ret : SimpleModel) (matId : Nat) : Except Fault SimpleModel :=
  match ret.materials[matId]? with
  | none => .error .outOfRange
  | some material =>
    let textured : Bool := !empty material.diffuseTexturePath
    let meshName :=
      if 1 = activeCount then shape.name else shape.name ++ "::" ++ material.materialName
    let firstVertex := (opos textured ret).length
    if !textured || firstVertex == ret.dataTextured.texcoords.length then
      match forLoop shape.mesh.indices.length (extractVertex result shape matId textured) ret with
      | .error e => .error e
      | .ok ret =>
        let vertexCount := (opos textured ret).length - firstVertex
        if !textured || vertexCount == ret.dataTextured.texcoords.length - firstVertex then
          .ok { ret with meshes := ret.meshes ++
                  [{ meshName := meshName, materialIndex := matId, textured := textured,
                     vertexStartIndex := firstVertex, vertexCount := vertexCount }] }
        else .error (.assertFailed 145)
    else .error (.assertFailed 117)

/-- The loader between two shapes: the model under construction and what
`activeMaterials` held before each `clear()` so far. -/
structure LoaderState where
  ret : SimpleModel
  cleared : List (List Nat)
deriving DecidableEq, Repr

/-- Lines 73-154: the body of the loop over `result.shapes`. -/
def processShape (env : Env) (result : rapidobj.Result) (st : LoaderState)
    (shape : rapidobj.Shape) : Except Fault LoaderState :=
  match scanMaterials shape st.ret.materials.length with
  | .error e => .error e
  | .ok emplaced =>
    let activeMaterials := env.iterate st.cleared emplaced
    match foldE (extractMaterial result shape activeMaterials.length) st.ret activeMaterials with
    | .error e => .error e
    | .ok ret => .ok { ret := ret, cleared := st.cleared ++ [emplaced] }

/-- Lines 27-55: the triangulated parser result. -/
def triangulated (env : Env) (aPath : String) : rapidobj.Result :=
  env.Triangulate (env.ParseFile aPath)

/-- Lines 29-70: the state in which the loop over the shapes is entered. -/
def initialState (env : Env) (aPath : String) : LoaderState :=
  { ret :=
      { modelSourcePath := aPath
        materials := (triangulated env aPath).materials.map (materialInfo (pathPrefix aPath))
        meshes := []
        dataTextured := { positions := [], texcoords := [] }
        dataUntextured := { positions := [] } }
    cleared := [] }

/-- The loader stopped after the first `k` shapes. -/
def stateAfterShapes (env : Env) (aPath : String) (k : Nat) : Except Fault LoaderState :=
  foldE (processShape env (triangulated env aPath)) (initialState env aPath)
    ((triangulated env aPath).shapes.take k)

/-- The function `load_simple_wavefront_obj`.  The path is a string, so the
`assert( aPath )` of line 16 holds. -/
def load_simple_wavefront_obj (env : Env) (aPath : String) : Except Fault SimpleModel :=
  if (env.ParseFile aPath).error.code ≠ 0 then
    .error (.loadError (String.mk (formatMessage "Unable to load OBJ file \x27%s\x27: %s".data
      [aPath, (env.ParseFile aPath).error.message])))
  else
    match foldE (processShape env (triangulated env aPath)) (initialState env aPath)
        (triangulated env aPath).shapes with
    | .error e => .error e
    | .ok st => .ok st.ret


/-! ## cw1/main.cpp: the materialization of the meshes

Lines 292-355 (the loop over `meshes.meshes`), 387-395 (the loading of the
textures) and 1579-1843 (`create_textured_mesh`, `create_coloured_mesh`).

The loop is part of `main` and runs on the model that the loader returned.  Sums of
`std::size_t` values such as `start + meshSize` are sums of offsets into containers
and are taken in `Nat`, and so are the byte sizes `aVertCount * 3 * sizeof(float)`:
they are the sizes of arrays that the caller holds in memory.  The conversion to
`std::uint32_t` is taken modulo `2 ^ 32`.
Vulkan, VMA and labutils are outside the sources: what they answer is given by a
`Device`. -/

/-- What leaves the materialization instead of a value. -/
inductive Thrown where
  /-- The `std::out_of_range` thrown by `std::vector::at`. -/
  | out_of_range
  /-- A `lut::Error`, with its message. -/
  | error (message : String)
  /-- A read outside an array through `operator[]` or `memcpy`, with no defined result. -/
  | undefined
deriving DecidableEq, Repr

/-- A `labutils::Buffer`: the size it was created with and the floats copied into it. -/
structure Buffer where
  size : Nat
  contents : List float
deriving DecidableEq, Repr

structure ColorizedMesh where
  positions : Buffer
  colors : Buffer
  vertexCount : Nat
deriving DecidableEq, Repr

structure ColouredMeshDetails where
  positions : List float
  colours : List float
  vertexCount : Nat
deriving DecidableEq, Repr

structure TexturedMesh where
  positions : Buffer
  texcoords : Buffer
  vertexCount : Nat
deriving DecidableEq, Repr

structure TexturedMeshDetails where
  positions : List float
  texCoords : List float
  vertexCount : Nat
deriving DecidableEq, Repr

/-- A `lut::Image`, as the handle that the device gave. -/
structure Image where
  handle : Nat
deriving DecidableEq, Repr

/-- What Vulkan, VMA and labutils answer during one call of `create_textured_mesh` or
`create_coloured_mesh`, in the order of the calls: the `lut::Error` of the first
`lut::create_buffer` that fails, the `VkResult` of the two `vmaMapMemory`, the
`lut::Error` of the first of `lut::create_fence`, `lut::create_command_pool` and
`lut::alloc_command_buffer` that fails, and the `VkResult` of the four Vulkan calls
that follow.  `VK_SUCCESS` is 0. -/
structure UploadAnswers where
  create_buffer : Option String
  mapPositions : Int
  mapSecond : Int
  create_sync : Option String
  vkBeginCommandBuffer : Int
  vkEndCommandBuffer : Int
  vkQueueSubmit : Int
  vkWaitForFences : Int
deriving DecidableEq, Repr

/-- The graphics device and the libraries in front of it: `upload n` are the answers
during the creation call made after `n` earlier ones, `to_string` is
`lut::to_string` on a `VkResult`, and `load_image_texture2d n path` is the outcome of
the call of `lut::load_image_texture2d` made after `n` earlier ones. -/
structure Device where
  upload : Nat → UploadAnswers
  to_string : Int → String
  load_image_texture2d : Nat → String → Except String Image

/-- The `lut::Error` built from a format and its string arguments. -/
def lutError (format : String) (args : List String) : Thrown :=
  .error (String.mk (formatMessage format.data args))

/-- Lines 1579-1711: `create_textured_mesh`, as the creation call made after `n`
earlier ones.  `sizeof(float)` is 4; each `memcpy` reads its whole size from the array
it is given. -/
def create_textured_mesh (dev : Device) (n : Nat) (aPositions aTexCoords : List float)
    (aVertCount : Nat) : Except Thrown TexturedMesh :=
  let posSize := aVertCount * 3 * 4
  let texSize := aVertCount * 2 * 4
  match (dev.upload n).create_buffer with
  | some message => .error (.error message)
  | none =>
    if (dev.upload n).mapPositions ≠ 0 then
      .error (lutError "Mapping memory for writing\nvmaMapMemory() returned %s"
        [dev.to_string (dev.upload n).mapPositions])
    else if aPositions.length * 4 < posSize then .error .undefined
    else if (dev.upload n).mapSecond ≠ 0 then
      .error (lutError "Mapping memory for writing\nvmaMapMemory() returned %s"
        [dev.to_string (dev.upload n).mapSecond])
    else if aTexCoords.length * 4 < texSize then .error .undefined
    else
      match (dev.upload n).create_sync with
      | some message => .error (.error message)
      | none =>
        if (dev.upload n).vkBeginCommandBuffer ≠ 0 then
          .error (lutError "Beginning command buffer recording\nvkBeginCommandBuffer() returned %s"
            [dev.to_string (dev.upload n).vkBeginCommandBuffer])
        else if (dev.upload n).vkEndCommandBuffer ≠ 0 then
          .error (lutError "Ending command buffer recording\nvkEndCommandBuffer() returned %s"
            [dev.to_string (dev.upload n).vkEndCommandBuffer])
        else if (dev.upload n).vkQueueSubmit ≠ 0 then
          .error (lutError "Submitting commands\nvkQueueSubmit() returned %s"
            [dev.to_string (dev.upload n).vkQueueSubmit])
        else if (dev.upload n).vkWaitForFences ≠ 0 then
          .error (lutError "Waiting for upload to complete\nvkWaitForFences() returned %s"
            [dev.to_string (dev.upload n).vkWaitForFences])
        else
          .ok { positions := { size := posSize, contents := aPositions.take (posSize / 4) }
                texcoords := { size := texSize, contents := aTexCoords.take (texSize / 4) }
                vertexCount := aVertCount % 2 ^ 32 }

/-- Lines 1713-1843: `create_coloured_mesh`, as the creation call made after `n`
earlier ones. -/
def create_coloured_mesh (dev : Device) (n : Nat) (aPositions aColor : List float)
    (aVertCount : Nat) : Except Thrown ColorizedMesh :=
  let posSize := aVertCount * 3 * 4
  let colSize := aVertCount * 3 * 4
  match (dev.upload n).create_buffer with
  | some message => .error (.error message)
  | none =>
    if (dev.upload n).mapPositions ≠ 0 then
      .error (lutError "Mapping memory for writing\nvmaMapMemory() returned %s"
        [dev.to_string (dev.upload n).mapPositions])
    else if aPositions.length * 4 < posSize then .error .undefined
    else if (dev.upload n).mapSecond ≠ 0 then
      .error (lutError "Mapping memory for writing\nvmaMapMemory() returned %s"
        [dev.to_string (dev.upload n).mapSecond])
    else if aColor.length * 4 < colSize then .error .undefined
    else
      match (dev.upload n).create_sync with
      | some message => .error (.error message)
      | none =>
        if (dev.upload n).vkBeginCommandBuffer ≠ 0 then
          .error (lutError "Beginning command buffer recording\nvkBeginCommandBuffer() returned %s"
            [dev.to_string (dev.upload n).vkBeginCommandBuffer])
        else if (dev.upload n).vkEndCommandBuffer ≠ 0 then
          .error (lutError "Ending command buffer recording\nvkEndCommandBuffer() returned %s"
            [dev.to_string (dev.upload n).vkEndCommandBuffer])
        else if (dev.upload n).vkQueueSubmit ≠ 0 then
          .error (lutError "Submitting commands\nvkQueueSubmit() returned %s"
            [dev.to_string (dev.upload n).vkQueueSubmit])
        else if (dev.upload n).vkWaitForFences ≠ 0 then
          .error (lutError "Waiting for upload to complete\nvkWaitForFences() returned %s"
            [dev.to_string (dev.upload n).vkWaitForFences])
        else
          .ok { positions := { size := posSize, contents := aPositions.take (posSize / 4) }
                colors := { size := colSize, contents := aColor.take (colSize / 4) }
                vertexCount := aVertCount % 2 ^ 32 }

/-- The loop `for (size_t i = start; i < start + meshSize; i++)`, with `meshSize` turns
left and left at the first exception. -/
def spanLoop {σ : Type} (body : Nat → σ → Except Thrown σ) : Nat → Nat → σ → Except Thrown σ
  | _, 0, s => .ok s
  | i, meshSize + 1, s =>
    match body i s with
    | .error e => .error e
    | .ok s' => spanLoop body (i + 1) meshSize s'

/-- The call `v.at(i)` of a `std::vector`. -/
def vectorAt {α : Type} (v : List α) (i : Nat) : Except Thrown α :=
  match v[i]? with
  | some x => .ok x
  | none => .error .out_of_range

/-- Lines 313-320: one turn of the loop of a textured mesh. -/
def texturedVertex (meshes : SimpleModel) (i : Nat) (meshDetails : TexturedMeshDetails) :
    Except Thrown TexturedMeshDetails :=
  match vectorAt meshes.dataTextured.positions i with
  | .error e => .error e
  | .ok p =>
    match vectorAt meshes.dataTextured.texcoords i with
    | .error e => .error e
    | .ok t =>
      .ok { meshDetails with
            positions := meshDetails.positions ++ [p.x, p.y, p.z]
            texCoords := meshDetails.texCoords ++ [t.x, t.y] }

/-- Lines 309-324: the arrays of a textured mesh. -/
def gatherTextured (meshes : SimpleModel) (mesh : SimpleMeshInfo) :
    Except Thrown TexturedMeshDetails :=
  match spanLoop (texturedVertex meshes) mesh.vertexStartIndex mesh.vertexCount
      { positions := [], texCoords := [], vertexCount := 0 } with
  | .error e => .error e
  | .ok meshDetails => .ok { meshDetails with vertexCount := mesh.vertexCount }

/-- Lines 338-346: one turn of the loop of a coloured mesh; `diffuseColor.r`, `.g`
and `.b` are the components `x`, `y` and `z`. -/
def colouredVertex (meshes : SimpleModel) (mesh : SimpleMeshInfo) (i : Nat)
    (meshDetails : ColouredMeshDetails) : Except Thrown ColouredMeshDetails :=
  match vectorAt meshes.dataUntextured.positions i with
  | .error e => .error e
  | .ok p =>
    match meshes.materials[mesh.materialIndex]? with
    | none => .error .undefined
    | some material =>
      .ok { meshDetails with
            positions := meshDetails.positions ++ [p.x, p.y, p.z]
            colours := meshDetails.colours ++
              [material.diffuseColor.x, material.diffuseColor.y, material.diffuseColor.z] }

/-- Lines 334-349: the arrays of a coloured mesh. -/
def gatherColoured (meshes : SimpleModel) (mesh : SimpleMeshInfo) :
    Except Thrown ColouredMeshDetails :=
  match spanLoop (colouredVertex meshes mesh) mesh.vertexStartIndex mesh.vertexCount
      { positions := [], colours := [], vertexCount := 0 } with
  | .error e => .error e
  | .ok meshDetails => .ok { meshDetails with vertexCount := mesh.vertexCount }

/-- A call of the backend, with the arrays and the count handed to it. -/
inductive BackendCall where
  | textured (meshDetails : TexturedMeshDetails)
  | coloured (meshDetails : ColouredMeshDetails)
deriving DecidableEq, Repr

/-- The three vectors that `main` fills (lines 296-300), and the calls of
`create_textured_mesh` and `create_coloured_mesh` made so far, in order.  An entry of
`meshMaterial` is a pointer to the characters of a path that the model owns. -/
structure Materialization where
  colouredMeshes : List ColorizedMesh
  meshMaterial : List String
  texturedMeshes : List TexturedMesh
  calls : List BackendCall
deriving DecidableEq, Repr

/-- Lines 304-353: the body of the loop over `meshes.meshes`.  The result is the state
in which the body is left and the exception that leaves it, if there is one. -/
def materializeMesh (dev : Device) (meshes : SimpleModel) (run : Materialization)
    (mesh : SimpleMeshInfo) : Materialization × Option Thrown :=
  if mesh.textured then
    match gatherTextured meshes mesh with
    | .error e => (run, some e)
    | .ok meshDetails =>
      match meshes.materials[mesh.materialIndex]? with
      | none => (run, some .undefined)
      | some material =>
        let called : Materialization :=
          { run with
            meshMaterial := run.meshMaterial ++ [material.diffuseTexturePath]
            calls := run.calls ++ [.textured meshDetails] }
        match create_textured_mesh dev run.calls.length meshDetails.positions
            meshDetails.texCoords meshDetails.vertexCount with
        | .error e => (called, some e)
        | .ok texMesh =>
          ({ called with texturedMeshes := called.texturedMeshes ++ [texMesh] }, none)
  else
    match gatherColoured meshes mesh with
    | .error e => (run, some e)
    | .ok meshDetails =>
      let called : Materialization := { run with calls := run.calls ++ [.coloured meshDetails] }
      match create_coloured_mesh dev run.calls.length meshDetails.positions
          meshDetails.colours meshDetails.vertexCount with
      | .error e => (called, some e)
      | .ok colorMesh =>
        ({ called with colouredMeshes := called.colouredMeshes ++ [colorMesh] }, none)

/-- Lines 302-355: the loop over the meshes, left at the first exception. -/
def materializeLoop (dev : Device) (meshes : SimpleModel) :
    List SimpleMeshInfo → Materialization → Materialization × Option Thrown
  | [], run => (run, none)
  | mesh :: rest, run =>
    match materializeMesh dev meshes run mesh with
    | (run', none) => materializeLoop dev meshes rest run'
    | (run', some e) => (run', some e)

/-- Lines 296-355 as they are left: the vectors and the calls made, and the exception
on its way to the `catch` of `main` if there is one. -/
def materializeRun (dev : Device) (meshes : SimpleModel) : Materialization × Option Thrown :=
  materializeLoop dev meshes meshes.meshes
    { colouredMeshes := [], meshMaterial := [], texturedMeshes := [], calls := [] }

/-- Lines 296-355 for the code that follows them: the vectors when the loop ends, or
the exception, which takes the vectors with it. -/
def materialize (dev : Device) (meshes : SimpleModel) : Except Thrown Materialization :=
  match materializeRun dev meshes with
  | (run, none) => .ok run
  | (_, some e) => .error e

/-- Lines 391-395: the turns of the loop over the textures from `i` on, `count` of
them; `loaded` holds the images loaded and the paths passed to
`lut::load_image_texture2d` so far, in order. -/
def loadTexturesFrom (dev : Device) (run : Materialization) :
    Nat → Nat → List Image × List String → (List Image × List String) × Option Thrown
  | _, 0, loaded => (loaded, none)
  | i, count + 1, loaded =>
    match run.meshMaterial[i]? with
    | none => (loaded, some .undefined)
    | some path =>
      match dev.load_image_texture2d loaded.2.length path with
      | .error message => ((loaded.1, loaded.2 ++ [path]), some (.error message))
      | .ok image => loadTexturesFrom dev run (i + 1) count (loaded.1 ++ [image], loaded.2 ++ [path])

/-- Lines 388-395: the loading of the textures, one turn for each `i` below
`texturedMeshes.size()`. -/
def loadTextures (dev : Device) (run : Materialization) :
    (List Image × List String) × Option Thrown :=
  loadTexturesFrom dev run 0 run.texturedMeshes.length ([], [])

/-! ## cw1/main.cpp: the user state, the key callback and the camera update

Lines 112-136 (`EInputState`, `UserState`), 742-789 (`glfw_callback_key_press`) and
817-864 (`update_user_state`).

GLFW and glm are outside the sources.  The values of the GLFW macros that the
callback compares with are the fields of `Glfw`; the float arithmetic and the glm
functions that the camera update calls are the fields of `Glm`.  The code only
combines their results, so they are carried and never computed here. -/

/-- The enumeration `EInputState`. -/
inductive EInputState where
  | forward
  | backward
  | strafeLeft
  | strafeRight
  | levitate
  | sink
  | fast
  | slow
  | mousing
  | max
deriving DecidableEq, Repr

/-- The conversion `std::size_t( e )` of an enumerator. -/
def EInputState.toSizeT : EInputState → Nat
  | .forward => 0
  | .backward => 1
  | .strafeLeft => 2
  | .strafeRight => 3
  | .levitate => 4
  | .sink => 5
  | .fast => 6
  | .slow => 7
  | .mousing => 8
  | .max => 9

/-- The index `std::size_t( e )` into `inputMap`, for an enumerator below `max`. -/
def slot (e : EInputState) (h : e.toSizeT < EInputState.max.toSizeT) :
    Fin EInputState.max.toSizeT :=
  ⟨e.toSizeT, h⟩

/-- A `glm::mat4`: its sixteen floats, column by column. -/
structure mat4 where
  entries : List float
deriving DecidableEq, Repr

/-- The struct `UserState`; `inputMap` is an array of `std::size_t(EInputState::max)`
elements. -/
structure UserState where
  inputMap : Fin EInputState.max.toSizeT → Bool
  mouseX : float
  mouseY : float
  previousX : float
  previousY : float
  wasMousing : Bool
  camera2world : mat4

/-- The assignment `inputMap[i] = value`. -/
def UserState.setInput (state : UserState) (i : Fin EInputState.max.toSizeT) (value : Bool) :
    UserState :=
  { state with inputMap := fun j => if j = i then value else state.inputMap j }

/-- The values of the macros of GLFW/glfw3.h that the key callback compares with.  The
key macros of the `switch` are its case labels, which C++ requires to be pairwise
different; the three actions are different values. -/
structure Glfw where
  GLFW_RELEASE : Int
  GLFW_PRESS : Int
  GLFW_REPEAT : Int
  GLFW_KEY_ESCAPE : Int
  GLFW_KEY_W : Int
  GLFW_KEY_S : Int
  GLFW_KEY_A : Int
  GLFW_KEY_D : Int
  GLFW_KEY_E : Int
  GLFW_KEY_Q : Int
  GLFW_KEY_LEFT_SHIFT : Int
  GLFW_KEY_RIGHT_SHIFT : Int
  GLFW_KEY_LEFT_CONTROL : Int
  GLFW_KEY_RIGHT_CONTROL : Int
  labels_nodup : [GLFW_KEY_W, GLFW_KEY_S, GLFW_KEY_A, GLFW_KEY_D, GLFW_KEY_E, GLFW_KEY_Q,
    GLFW_KEY_LEFT_SHIFT, GLFW_KEY_RIGHT_SHIFT, GLFW_KEY_LEFT_CONTROL,
    GLFW_KEY_RIGHT_CONTROL].Nodup
  press_ne_release : GLFW_PRESS ≠ GLFW_RELEASE
  repeat_ne_release : GLFW_REPEAT ≠ GLFW_RELEASE

/-- What the callbacks reach of a `GLFWwindow`: the flag that
`glfwSetWindowShouldClose` sets and the pointer that `glfwGetWindowUserPointer`
returns, with the `UserState` it points to (`none` is the null pointer). -/
structure GLFWwindow where
  shouldClose : Bool
  userPointer : Option UserState

/-- Lines 742-789: `glfw_callback_key_press`.  The window after the call, or the
failed `assert( state )` of line 751. -/
def glfw_callback_key_press (glfw : Glfw) (aWindow : GLFWwindow) (aKey _aScanCode aAction
    _aModifierFlags : Int) : Except Fault GLFWwindow :=
  let aWindow : GLFWwindow :=
    if glfw.GLFW_KEY_ESCAPE = aKey ∧ glfw.GLFW_PRESS = aAction then
      { aWindow with shouldClose := true }
    else aWindow
  match aWindow.userPointer with
  | none => .error (.assertFailed 751)
  | some state =>
    let isReleased : Bool := decide (glfw.GLFW_RELEASE = aAction)
    let state : UserState :=
      if aKey = glfw.GLFW_KEY_W then
        state.setInput (slot .forward (by decide)) (!isReleased)
      else if aKey = glfw.GLFW_KEY_S then
        state.setInput (slot .backward (by decide)) (!isReleased)
      else if aKey = glfw.GLFW_KEY_A then
        state.setInput (slot .strafeLeft (by decide)) (!isReleased)
      else if aKey = glfw.GLFW_KEY_D then
        state.setInput (slot .strafeRight (by decide)) (!isReleased)
      else if aKey = glfw.GLFW_KEY_E then
        state.setInput (slot .levitate (by decide)) (!isReleased)
      else if aKey = glfw.GLFW_KEY_Q then
        state.setInput (slot .sink (by decide)) (!isReleased)
      else if aKey = glfw.GLFW_KEY_LEFT_SHIFT ∨ aKey = glfw.GLFW_KEY_RIGHT_SHIFT then
        state.setInput (slot .fast (by decide)) (!isReleased)
      else if aKey = glfw.GLFW_KEY_LEFT_CONTROL ∨ aKey = glfw.GLFW_KEY_RIGHT_CONTROL then
        state.setInput (slot .slow (by decide)) (!isReleased)
      else state
    .ok { aWindow with userPointer := some state }

/-- The float arithmetic and the glm functions that `update_user_state` calls:
`a * b`, `a - b` and `-a` on `float`, `a * b` on `glm::mat4`, `glm::rotate( angle,
axis )` and `glm::translate( v )`. -/
structure Glm where
  mul : float → float → float
  sub : float → float → float
  neg : float → float
  matMul : mat4 → mat4 → mat4
  rotate : float → vec3 → mat4
  translate : vec3 → mat4

namespace cfg

/-- The constant `0.01f`, units per second. -/
def kCameraBaseSpeed : float := ⟨0x3c23d70a⟩

/-- The constant `2.f`. -/
def kCameraFastMult : float := ⟨0x40000000⟩

/-- The constant `0.05f`. -/
def kCameraSlowMult : float := ⟨0x3d4ccccd⟩

/-- The constant `0.01f`, radians per pixel. -/
def kCameraMouseSensitivity : float := ⟨0x3c23d70a⟩

end cfg

/-- The literal `0.f`. -/
def zero_f : float := ⟨0⟩

/-- The literal `1.f`. -/
def one_f : float := ⟨0x3f800000⟩

/-- Lines 821-845: the mouse look of `update_user_state`. -/
def mouseLook (glm : Glm) (aState : UserState) : UserState :=
  if aState.inputMap (slot .mousing (by decide)) then
    let aState : UserState :=
      if aState.wasMousing then
        let sens := cfg.kCameraMouseSensitivity
        let dx := glm.mul sens (glm.sub aState.mouseX aState.previousX)
        let dy := glm.mul sens (glm.sub aState.mouseY aState.previousY)
        let cam := glm.matMul aState.camera2world (glm.rotate (glm.neg dy) ⟨one_f, zero_f, zero_f⟩)
        let cam := glm.matMul cam (glm.rotate (glm.neg dx) ⟨zero_f, one_f, zero_f⟩)
        { aState with camera2world := cam }
      else aState
    { aState with previousX := aState.mouseX, previousY := aState.mouseY, wasMousing := true }
  else
    { aState with wasMousing := false }

/-- Lines 847-863: the movement of `update_user_state`, applied to the camera `cam`. -/
def movement (glm : Glm) (aState : UserState) (aElapsedTime : float) (cam : mat4) : mat4 :=
  let move :=
    glm.mul (glm.mul (glm.mul aElapsedTime cfg.kCameraBaseSpeed)
        (if aState.inputMap (slot .fast (by decide)) then cfg.kCameraFastMult else one_f))
      (if aState.inputMap (slot .slow (by decide)) then cfg.kCameraSlowMult else one_f)
  let cam := if aState.inputMap (slot .forward (by decide)) then
    glm.matMul cam (glm.translate ⟨zero_f, zero_f, glm.neg move⟩) else cam
  let cam := if aState.inputMap (slot .backward (by decide)) then
    glm.matMul cam (glm.translate ⟨zero_f, zero_f, move⟩) else cam
  let cam := if aState.inputMap (slot .strafeLeft (by decide)) then
    glm.matMul cam (glm.translate ⟨glm.neg move, zero_f, zero_f⟩) else cam
  let cam := if aState.inputMap (slot .strafeRight (by decide)) then
    glm.matMul cam (glm.translate ⟨move, zero_f, zero_f⟩) else cam
  let cam := if aState.inputMap (slot .levitate (by decide)) then
    glm.matMul cam (glm.translate ⟨zero_f, move, zero_f⟩) else cam
  let cam := if aState.inputMap (slot .sink (by decide)) then
    glm.matMul cam (glm.translate ⟨zero_f, glm.neg move, zero_f⟩) else cam
  cam

/-- Lines 817-864: `update_user_state`. -/
def update_user_state (glm : Glm) (aState : UserState) (aElapsedTime : float) : UserState :=
  let aState := mouseLook glm aState
  { aState with camera2world := movement glm aState aElapsedTime aState.camera2world }

/-! ## Notions used to state the properties -/

/-- The material of the face of the face vertex `i`, as line 122 reads it:
`std::size_t( material_ids[i/3] )`. -/
def materialAt (mesh : rapidobj.Mesh) (i : Nat) : Option Nat :=
  (mesh.material_ids[i / 3]?).map toSizeT

/-- The face vertices of `mesh`, among its first `n`, whose face carries the material
`matId`, in input order. -/
def verticesUpTo (mesh : rapidobj.Mesh) (matId : Nat) (n : Nat) : List rapidobj.Index :=
  (List.range n).filterMap fun i =>
    if materialAt mesh i = some matId then mesh.indices[i]? else none

/-- All face vertices of `mesh` whose face carries the material `matId`, in input order. -/
def verticesOf (mesh : rapidobj.Mesh) (matId : Nat) : List rapidobj.Index :=
  verticesUpTo mesh matId mesh.indices.length

/-- The model with `vs` (and, for the textured soup, `ts`) appended to a soup. -/
def appended (textured : Bool) (vs : List vec3) (ts : List vec2) (ret : SimpleModel) :
    SimpleModel :=
  if textured then
    { ret with dataTextured :=
        { positions := ret.dataTextured.positions ++ vs
          texcoords := ret.dataTextured.texcoords ++ ts } }
  else
    { ret with dataUntextured := { positions := ret.dataUntextured.positions ++ vs } }

/-- The mesh descriptors emitted while the shape at position `k` is processed: those
the model holds after `k + 1` shapes beyond those it held after `k`. -/
def meshesOfShape (env : Env) (aPath : String) (k : Nat) : List SimpleMeshInfo :=
  match stateAfterShapes env aPath k, stateAfterShapes env aPath (k + 1) with
  | .ok before, .ok after => after.ret.meshes.drop before.ret.meshes.length
  | _, _ => []

/-- The name line 110-113 gives a mesh of `shape` when `activeCount` materials are
active and the mesh has the material `material`. -/
def meshNameFor (shape : rapidobj.Shape) (activeCount : Nat) (material : SimpleMaterialInfo) :
    String :=
  if 1 = activeCount then shape.name else shape.name ++ "::" ++ material.materialName

/-- The part of a soup that a descriptor spans. -/
def span {α : Type} (soup : List α) (m : SimpleMeshInfo) : List α :=
  (soup.drop m.vertexStartIndex).take m.vertexCount

/-- The model `b` is `a` with more meshes and more soup at the end. -/
structure Grows (a b : SimpleModel) : Prop where
  path : b.modelSourcePath = a.modelSourcePath
  materials : b.materials = a.materials
  meshes : ∃ l, b.meshes = a.meshes ++ l
  texturedPositions : ∃ l, b.dataTextured.positions = a.dataTextured.positions ++ l
  texcoords : ∃ l, b.dataTextured.texcoords = a.dataTextured.texcoords ++ l
  untexturedPositions : ∃ l, b.dataUntextured.positions = a.dataUntextured.positions ++ l

/-- The descriptor `m` is the one of `shape` and of the material `m.materialIndex` in
`model`: flag and name come from that material, and its span of the soup holds the
resolved vertices of the faces of that material, in input order. -/
structure Describes (result : rapidobj.Result) (shape : rapidobj.Shape) (activeCount : Nat)
    (model : SimpleModel) (m : SimpleMeshInfo) : Prop where
  material : ∃ material, model.materials[m.materialIndex]? = some material ∧
    m.textured = (!empty material.diffuseTexturePath) ∧
    m.meshName = meshNameFor shape activeCount material
  count : m.vertexCount = (verticesOf shape.mesh m.materialIndex).length
  bound : m.vertexStartIndex + m.vertexCount ≤ (opos m.textured model).length
  texBound : m.textured = true →
    m.vertexStartIndex + m.vertexCount ≤ model.dataTextured.texcoords.length
  positions : (span (opos m.textured model) m).map some =
    (verticesOf shape.mesh m.materialIndex).map (resolvePosition result.attributes)
  texcoords : m.textured = true → (span model.dataTextured.texcoords m).map some =
    (verticesOf shape.mesh m.materialIndex).map (resolveTexcoord result.attributes)

/-- The distinct materials that the face vertices of a mesh reference. -/
def materialsOf (mesh : rapidobj.Mesh) : List Nat :=
  ((List.range mesh.indices.length).filterMap (materialAt mesh)).dedup

/-- The number of faces, among the first `faces` of a mesh, that carry the material
`matId`. -/
def facesWith (mesh : rapidobj.Mesh) (matId : Nat) (faces : Nat) : Nat :=
  (List.range faces).countP fun f => decide ((mesh.material_ids[f]?).map toSizeT = some matId)

/-- The indices and material ids of a parser result are in range: every face vertex
has a material id that passes the `assert` of line 85 and names a material, every
position index can be read from the position pool, and every texcoord index of a
face whose material names a texture can be read from the texcoord pool. -/
structure InRange (result : rapidobj.Result) : Prop where
  ids : ∀ shape, shape ∈ result.shapes → ∀ i, i < shape.mesh.indices.length →
    ∃ id, shape.mesh.material_ids[i / 3]? = some id ∧ id < toInt result.materials.length ∧
      toSizeT id < result.materials.length
  positions : ∀ shape, shape ∈ result.shapes → ∀ idx, idx ∈ shape.mesh.indices →
    ∃ v, resolvePosition result.attributes idx = some v
  texcoords : ∀ shape, shape ∈ result.shapes → ∀ i idx x mat,
    shape.mesh.indices[i]? = some idx → materialAt shape.mesh i = some x →
    result.materials[x]? = some mat → mat.diffuse_texname ≠ "" →
    ∃ t, resolveTexcoord result.attributes idx = some t

/-! ## Notions used to state the properties of the materialization -/

/-- The components of a list of `glm::vec3`, three floats for each. -/
def flat3 : List vec3 → List float
  | [] => []
  | v :: vs => v.x :: v.y :: v.z :: flat3 vs

/-- The components of a list of `glm::vec2`, two floats for each. -/
def flat2 : List vec2 → List float
  | [] => []
  | t :: ts => t.x :: t.y :: flat2 ts

/-- The call of the backend that the body of the loop makes for `mesh`, or what leaves
the body before the call. -/
def callFor (meshes : SimpleModel) (mesh : SimpleMeshInfo) : Except Thrown BackendCall :=
  if mesh.textured then
    match gatherTextured meshes mesh with
    | .error e => .error e
    | .ok meshDetails =>
      match meshes.materials[mesh.materialIndex]? with
      | none => .error .undefined
      | some _ => .ok (.textured meshDetails)
  else
    match gatherColoured meshes mesh with
    | .error e => .error e
    | .ok meshDetails => .ok (.coloured meshDetails)

/-- The exception with which the backend answers a call made after `n` earlier ones, if
it answers with one. -/
def backendFailure (dev : Device) (n : Nat) : BackendCall → Option Thrown
  | .textured d =>
    match create_textured_mesh dev n d.positions d.texCoords d.vertexCount with
    | .error e => some e
    | .ok _ => none
  | .coloured d =>
    match create_coloured_mesh dev n d.positions d.colours d.vertexCount with
    | .error e => some e
    | .ok _ => none

/-- The record that `create_textured_mesh` returns for the arrays and the count of a
call, when it returns. -/
def texturedRecord (d : TexturedMeshDetails) : TexturedMesh :=
  { positions :=
      { size := d.vertexCount * 3 * 4, contents := d.positions.take (d.vertexCount * 3 * 4 / 4) }
    texcoords :=
      { size := d.vertexCount * 2 * 4, contents := d.texCoords.take (d.vertexCount * 2 * 4 / 4) }
    vertexCount := d.vertexCount % 2 ^ 32 }

/-- The record that `create_coloured_mesh` returns for the arrays and the count of a
call, when it returns. -/
def colouredRecord (d : ColouredMeshDetails) : ColorizedMesh :=
  { positions :=
      { size := d.vertexCount * 3 * 4, contents := d.positions.take (d.vertexCount * 3 * 4 / 4) }
    colors :=
      { size := d.vertexCount * 3 * 4, contents := d.colours.take (d.vertexCount * 3 * 4 / 4) }
    vertexCount := d.vertexCount % 2 ^ 32 }

/-- The record `r` is the one that `create_textured_mesh` returns for the arrays
gathered for `mesh`. -/
def TexturedRecordOf (meshes : SimpleModel) (mesh : SimpleMeshInfo) (r : TexturedMesh) : Prop :=
  ∃ d, gatherTextured meshes mesh = .ok d ∧ r = texturedRecord d

/-- The record `r` is the one that `create_coloured_mesh` returns for the arrays
gathered for `mesh`. -/
def ColouredRecordOf (meshes : SimpleModel) (mesh : SimpleMeshInfo) (r : ColorizedMesh) : Prop :=
  ∃ d, gatherColoured meshes mesh = .ok d ∧ r = colouredRecord d

/-- The string `path` is the `diffuseTexturePath` of the material of `mesh`. -/
def TexturePathOf (meshes : SimpleModel) (mesh : SimpleMeshInfo) (path : String) : Prop :=
  ∃ material, meshes.materials[mesh.materialIndex]? = some material ∧
    path = material.diffuseTexturePath

/-- The position array handed to the backend in a call. -/
def BackendCall.positions : BackendCall → List float
  | .textured d => d.positions
  | .coloured d => d.positions

/-- The count handed to the backend in a call. -/
def BackendCall.vertexCount : BackendCall → Nat
  | .textured d => d.vertexCount
  | .coloured d => d.vertexCount

/-! ## Notions used to state the properties across two inputs and across descriptors -/

/-- The colour that stands in for every diffuse colour when colours are left out of a
comparison. -/
def noColour : vec3 := ⟨⟨0⟩, ⟨0⟩, ⟨0⟩⟩

/-- A parsed material with its diffuse colour left out. -/
def uncolouredMaterial (mat : rapidobj.Material) : rapidobj.Material :=
  { mat with diffuse := (⟨0⟩, ⟨0⟩, ⟨0⟩) }

/-- A material of the model with its diffuse colour left out. -/
def uncolouredInfo (mi : SimpleMaterialInfo) : SimpleMaterialInfo :=
  { mi with diffuseColor := noColour }

/-- A model with the diffuse colours of its materials left out: two models with the
same `uncoloured` differ at most in `materials[i].diffuseColor`. -/
def uncoloured (model : SimpleModel) : SimpleModel :=
  { model with materials := model.materials.map uncolouredInfo }

/-- A loader state with the diffuse colours of its model left out. -/
def uncolouredState (st : LoaderState) : LoaderState :=
  { st with ret := uncoloured st.ret }

/-- Two parser results differ at most in the diffuse colours of their materials. -/
def SameButColour (a b : rapidobj.Result) : Prop :=
  a.attributes = b.attributes ∧ a.shapes = b.shapes ∧ a.error = b.error ∧
    a.materials.map uncolouredMaterial = b.materials.map uncolouredMaterial

/-- The descriptors of one kind (textured or not) of a model, in model order. -/
def meshesOfKind (textured : Bool) (meshes : List SimpleMeshInfo) : List SimpleMeshInfo :=
  meshes.filter fun m => m.textured == textured

/-- The sum of the vertex counts of a list of descriptors. -/
def totalCount (ms : List SimpleMeshInfo) : Nat :=
  (ms.map fun m => m.vertexCount).sum

/-- The spans of the descriptors `ms` tile a soup of length `n`: each descriptor starts
where the ones before it end, the first at 0, and the last ends at `n`. -/
def Tiles (ms : List SimpleMeshInfo) (n : Nat) : Prop :=
  (∀ (i : Nat) (m : SimpleMeshInfo), ms[i]? = some m → m.vertexStartIndex = totalCount (ms.take i)) ∧
    totalCount ms = n

/-- The indices of a parser result lie within its pools and its material list, compared
as numbers: every shape has at least `ceil(indexCount / 3)` material ids, every
material id `m` has `0 ≤ m < number of materials`, every position index `p` has
`3 * p + 2 < length(positions)`, and every texcoord index `t` of a face whose material
names a texture has `2 * t + 1 < length(texcoords)`. -/
structure WithinPools (result : rapidobj.Result) : Prop where
  faces : ∀ shape, shape ∈ result.shapes →
    (shape.mesh.indices.length + 2) / 3 ≤ shape.mesh.material_ids.length
  ids : ∀ shape, shape ∈ result.shapes → ∀ id, id ∈ shape.mesh.material_ids →
    0 ≤ id ∧ id < (result.materials.length : Int)
  positions : ∀ shape, shape ∈ result.shapes → ∀ idx, idx ∈ shape.mesh.indices →
    3 * idx.position_index + 2 < (result.attributes.positions.length : Int)
  texcoords : ∀ shape, shape ∈ result.shapes → ∀ i, i < shape.mesh.indices.length →
    ∀ id, id ∈ shape.mesh.material_ids[i / 3]? → ∀ mat, mat ∈ result.materials[id.toNat]? →
    mat.diffuse_texname ≠ "" → ∀ idx, idx ∈ shape.mesh.indices[i]? →
    2 * idx.texcoord_index + 1 < (result.attributes.texcoords.length : Int)

/-- The numbers that the loader computes in `int` fit: the number of materials is
below `2 ^ 31` (line 85 converts it to `int`), no position index is negative and
`3 * p + 2` is below `2 ^ 31` (lines 130-132 compute it in `int`), and the same holds
for `2 * t + 1` of every texcoord index of a face whose material names a texture
(lines 138-139). -/
structure WithinInt (result : rapidobj.Result) : Prop where
  materials : result.materials.length < 2 ^ 31
  positions : ∀ shape, shape ∈ result.shapes → ∀ idx, idx ∈ shape.mesh.indices →
    0 ≤ idx.position_index ∧ 3 * idx.position_index + 2 < 2 ^ 31
  texcoords : ∀ shape, shape ∈ result.shapes → ∀ i, i < shape.mesh.indices.length →
    ∀ id, id ∈ shape.mesh.material_ids[i / 3]? → ∀ mat, mat ∈ result.materials[id.toNat]? →
    mat.diffuse_texname ≠ "" → ∀ idx, idx ∈ shape.mesh.indices[i]? →
    0 ≤ idx.texcoord_index ∧ 2 * idx.texcoord_index + 1 < 2 ^ 31

/-- Between `before` and `after`, the entry `i` of `inputMap` was set to `value` and no
other entry changed. -/
def SetsOnly (before after : UserState) (i : Fin EInputState.max.toSizeT) (value : Bool) : Prop :=
  after.inputMap i = value ∧ ∀ j, j ≠ i → after.inputMap j = before.inputMap j

/-- The key is none of the case labels of the `switch` of the key callback. -/
def Unmapped (glfw : Glfw) (aKey : Int) : Prop :=
  aKey ∉ [glfw.GLFW_KEY_W, glfw.GLFW_KEY_S, glfw.GLFW_KEY_A, glfw.GLFW_KEY_D, glfw.GLFW_KEY_E,
    glfw.GLFW_KEY_Q, glfw.GLFW_KEY_LEFT_SHIFT, glfw.GLFW_KEY_RIGHT_SHIFT,
    glfw.GLFW_KEY_LEFT_CONTROL, glfw.GLFW_KEY_RIGHT_CONTROL]

/-- The camera turned by the mouse movement since the last update, as lines 827-832
compute it. -/
def turned (glm : Glm) (aState : UserState) : mat4 :=
  glm.matMul
    (glm.matMul aState.camera2world
      (glm.rotate
        (glm.neg (glm.mul cfg.kCameraMouseSensitivity (glm.sub aState.mouseY aState.previousY)))
        ⟨one_f, zero_f, zero_f⟩))
    (glm.rotate
      (glm.neg (glm.mul cfg.kCameraMouseSensitivity (glm.sub aState.mouseX aState.previousX)))
      ⟨zero_f, one_f, zero_f⟩)
/-! ## A sample run -/

/-- An environment whose parser returns `result` for every path, whose
triangulation finds only triangles, and whose set is visited in the order of
`List.dedup`. -/
def sampleEnv (result : rapidobj.Result) : Env :=
  { ParseFile := fun _ => result
    Triangulate := fun r => r
    iterate := fun _ emplaced => emplaced.dedup
    iterate_nodup := fun _ emplaced => List.nodup_dedup emplaced
    mem_iterate := fun _ _ _ => List.mem_dedup }

/-- A parser result: a shape `quad` of three faces, the first two with the textured
material 1 and the last with the untextured material 0. -/
def sampleResult : rapidobj.Result :=
  { attributes :=
      { positions := (List.range 12).map fun n => ⟨n⟩
        texcoords := (List.range 8).map fun n => ⟨100 + n⟩ }
    shapes :=
      [ { name := "quad"
          mesh :=
            { indices := [⟨0, 0, -1⟩, ⟨1, 1, -1⟩, ⟨2, 2, -1⟩, ⟨0, 0, -1⟩, ⟨2, 2, -1⟩, ⟨3, 3, -1⟩,
                          ⟨0, -1, -1⟩, ⟨1, -1, -1⟩, ⟨2, -1, -1⟩]
              material_ids := [1, 1, 0] } } ]
    materials := [ ⟨"plain", (⟨1⟩, ⟨2⟩, ⟨3⟩), ""⟩, ⟨"brick", (⟨4⟩, ⟨5⟩, ⟨6⟩), "brick.png"⟩ ]
    error := ⟨0, ""⟩ }

/-- The model the loader returns for `sampleResult` read from `assets/m.obj`. -/
def sampleModel : SimpleModel :=
  { modelSourcePath := "assets/m.obj"
    materials := [ ⟨"plain", ⟨⟨1⟩, ⟨2⟩, ⟨3⟩⟩, ""⟩, ⟨"brick", ⟨⟨4⟩, ⟨5⟩, ⟨6⟩⟩, "assets/brick.png"⟩ ]
    meshes := [ ⟨"quad::brick", 1, true, 0, 6⟩, ⟨"quad::plain", 0, false, 0, 3⟩ ]
    dataTextured :=
      { positions := [⟨⟨0⟩, ⟨1⟩, ⟨2⟩⟩, ⟨⟨3⟩, ⟨4⟩, ⟨5⟩⟩, ⟨⟨6⟩, ⟨7⟩, ⟨8⟩⟩,
                      ⟨⟨0⟩, ⟨1⟩, ⟨2⟩⟩, ⟨⟨6⟩, ⟨7⟩, ⟨8⟩⟩, ⟨⟨9⟩, ⟨10⟩, ⟨11⟩⟩]
        texcoords := [⟨⟨100⟩, ⟨101⟩⟩, ⟨⟨102⟩, ⟨103⟩⟩, ⟨⟨104⟩, ⟨105⟩⟩,
                      ⟨⟨100⟩, ⟨101⟩⟩, ⟨⟨104⟩, ⟨105⟩⟩, ⟨⟨106⟩, ⟨107⟩⟩] }
    dataUntextured := { positions := [⟨⟨0⟩, ⟨1⟩, ⟨2⟩⟩, ⟨⟨3⟩, ⟨4⟩, ⟨5⟩⟩, ⟨⟨6⟩, ⟨7⟩, ⟨8⟩⟩] } }

/-- A parser result: a quad split into two triangles, with one untextured material. -/
def quadResult : rapidobj.Result :=
  { attributes :=
      { positions := (List.range 12).map fun n => ⟨n⟩
        texcoords := [] }
    shapes :=
      [ { name := "quad"
          mesh :=
            { indices := [⟨0, -1, -1⟩, ⟨1, -1, -1⟩, ⟨2, -1, -1⟩, ⟨0, -1, -1⟩, ⟨2, -1, -1⟩, ⟨3, -1, -1⟩]
              material_ids := [0, 0] } } ]
    materials := [ ⟨"plain", (⟨1⟩, ⟨2⟩, ⟨3⟩), ""⟩ ]
    error := ⟨0, ""⟩ }

/-- The model the loader returns for `quadResult` read from `quad.obj`. -/
def quadModel : SimpleModel :=
  { modelSourcePath := "quad.obj"
    materials := [ ⟨"plain", ⟨⟨1⟩, ⟨2⟩, ⟨3⟩⟩, ""⟩ ]
    meshes := [ ⟨"quad", 0, false, 0, 6⟩ ]
    dataTextured := { positions := [], texcoords := [] }
    dataUntextured :=
      { positions := [⟨⟨0⟩, ⟨1⟩, ⟨2⟩⟩, ⟨⟨3⟩, ⟨4⟩, ⟨5⟩⟩, ⟨⟨6⟩, ⟨7⟩, ⟨8⟩⟩,
                      ⟨⟨0⟩, ⟨1⟩, ⟨2⟩⟩, ⟨⟨6⟩, ⟨7⟩, ⟨8⟩⟩, ⟨⟨9⟩, ⟨10⟩, ⟨11⟩⟩] } }

/-- The quad again, with the position index of its last face vertex raised to 7, when
the position pool has 12 floats. -/
def malformedResult : rapidobj.Result :=
  { quadResult with
    shapes :=
      [ { name := "quad"
          mesh :=
            { indices := [⟨0, -1, -1⟩, ⟨1, -1, -1⟩, ⟨2, -1, -1⟩, ⟨0, -1, -1⟩, ⟨2, -1, -1⟩, ⟨7, -1, -1⟩]
              material_ids := [0, 0] } } ] }

/-- An environment like `sampleEnv` whose set is visited from the element inserted last
to the one inserted first, as a chained hash table does that links each new node at
the head of its list. -/
def stackEnv (result : rapidobj.Result) : Env :=
  { ParseFile := fun _ => result
    Triangulate := fun r => r
    iterate := fun _ emplaced => emplaced.reverse.dedup
    iterate_nodup := fun _ emplaced => List.nodup_dedup emplaced.reverse
    mem_iterate := fun _ _ _ => List.mem_dedup.trans List.mem_reverse }

/-- A parser result with two shapes: `first` with one face of material 0, `second`
with a face of material 0 followed by a face of the textured material 1. -/
def pairResult : rapidobj.Result :=
  { attributes :=
      { positions := (List.range 9).map fun n => ⟨n⟩
        texcoords := (List.range 6).map fun n => ⟨100 + n⟩ }
    shapes :=
      [ { name := "first"
          mesh := { indices := [⟨0, 0, -1⟩, ⟨1, 1, -1⟩, ⟨2, 2, -1⟩], material_ids := [0] } },
        { name := "second"
          mesh :=
            { indices := [⟨0, 0, -1⟩, ⟨1, 1, -1⟩, ⟨2, 2, -1⟩, ⟨2, 2, -1⟩, ⟨1, 1, -1⟩, ⟨0, 0, -1⟩]
              material_ids := [0, 1] } } ]
    materials := [ ⟨"plain", (⟨1⟩, ⟨2⟩, ⟨3⟩), ""⟩, ⟨"brick", (⟨4⟩, ⟨5⟩, ⟨6⟩), "brick.png"⟩ ]
    error := ⟨0, ""⟩ }

/-- The model the loader returns for `pairResult` read from `pair.obj` when the set is
visited as in `stackEnv`: the shape `second` has its descriptor of material 1 before
that of material 0. -/
def pairModel : SimpleModel :=
  { modelSourcePath := "pair.obj"
    materials := [ ⟨"plain", ⟨⟨1⟩, ⟨2⟩, ⟨3⟩⟩, ""⟩, ⟨"brick", ⟨⟨4⟩, ⟨5⟩, ⟨6⟩⟩, "brick.png"⟩ ]
    meshes := [ ⟨"first", 0, false, 0, 3⟩, ⟨"second::brick", 1, true, 0, 3⟩,
                ⟨"second::plain", 0, false, 3, 3⟩ ]
    dataTextured :=
      { positions := [⟨⟨6⟩, ⟨7⟩, ⟨8⟩⟩, ⟨⟨3⟩, ⟨4⟩, ⟨5⟩⟩, ⟨⟨0⟩, ⟨1⟩, ⟨2⟩⟩]
        texcoords := [⟨⟨104⟩, ⟨105⟩⟩, ⟨⟨102⟩, ⟨103⟩⟩, ⟨⟨100⟩, ⟨101⟩⟩] }
    dataUntextured :=
      { positions := [⟨⟨0⟩, ⟨1⟩, ⟨2⟩⟩, ⟨⟨3⟩, ⟨4⟩, ⟨5⟩⟩, ⟨⟨6⟩, ⟨7⟩, ⟨8⟩⟩,
                      ⟨⟨0⟩, ⟨1⟩, ⟨2⟩⟩, ⟨⟨3⟩, ⟨4⟩, ⟨5⟩⟩, ⟨⟨6⟩, ⟨7⟩, ⟨8⟩⟩] } }

/-- A `lut::to_string` for the samples. -/
def vkName (r : Int) : String :=
  if r = 0 then "SUCCESS" else if r = -4 then "ERROR_DEVICE_LOST" else "ERROR_UNKNOWN"

/-- The answers of a device on which every call succeeds. -/
def successAnswers : UploadAnswers :=
  { create_buffer := none, mapPositions := 0, mapSecond := 0, create_sync := none,
    vkBeginCommandBuffer := 0, vkEndCommandBuffer := 0, vkQueueSubmit := 0, vkWaitForFences := 0 }

/-- A device on which every call succeeds. -/
def okDevice : Device :=
  { upload := fun _ => successAnswers
    to_string := vkName
    load_image_texture2d := fun n _ => .ok ⟨n⟩ }

/-- A device on which `vkQueueSubmit` answers `VK_ERROR_DEVICE_LOST` (-4) during the
creation call made after `k` earlier ones, and every other call succeeds. -/
def lostDevice (k : Nat) : Device :=
  { upload := fun n => if n = k then { successAnswers with vkQueueSubmit := -4 } else successAnswers
    to_string := vkName
    load_image_texture2d := fun n _ => .ok ⟨n⟩ }

/-- The floats with the given bit patterns. -/
def floats (bits : List Nat) : List float := bits.map fun n => ⟨n⟩

/-- What the materialization of `pairModel` leaves on `okDevice`. -/
def pairOut : Materialization :=
  { colouredMeshes :=
      [ { positions := ⟨36, floats [0, 1, 2, 3, 4, 5, 6, 7, 8]⟩
          colors := ⟨36, floats [1, 2, 3, 1, 2, 3, 1, 2, 3]⟩
          vertexCount := 3 },
        { positions := ⟨36, floats [0, 1, 2, 3, 4, 5, 6, 7, 8]⟩
          colors := ⟨36, floats [1, 2, 3, 1, 2, 3, 1, 2, 3]⟩
          vertexCount := 3 } ]
    meshMaterial := ["brick.png"]
    texturedMeshes :=
      [ { positions := ⟨36, floats [6, 7, 8, 3, 4, 5, 0, 1, 2]⟩
          texcoords := ⟨24, floats [104, 105, 102, 103, 100, 101]⟩
          vertexCount := 3 } ]
    calls :=
      [ .coloured ⟨floats [0, 1, 2, 3, 4, 5, 6, 7, 8], floats [1, 2, 3, 1, 2, 3, 1, 2, 3], 3⟩,
        .textured ⟨floats [6, 7, 8, 3, 4, 5, 0, 1, 2], floats [104, 105, 102, 103, 100, 101], 3⟩,
        .coloured ⟨floats [0, 1, 2, 3, 4, 5, 6, 7, 8], floats [1, 2, 3, 1, 2, 3, 1, 2, 3], 3⟩ ] }

/-- The number of faces of `hugeResult`: three times it is `2 ^ 32 + 2`. -/
def hugeFaces : Nat := 1431655766

/-- A shape of `hugeFaces` equal faces with the material 0: three face vertices for
each, all with the position index 0. -/
def hugeShape : rapidobj.Shape :=
  { name := "huge"
    mesh :=
      { indices := List.replicate (3 * hugeFaces) ⟨0, -1, -1⟩
        material_ids := List.replicate hugeFaces 0 } }

/-- A parser result with one untextured material and the one shape `hugeShape`. -/
def hugeResult : rapidobj.Result :=
  { attributes := { positions := floats [0, 1, 2], texcoords := [] }
    shapes := [hugeShape]
    materials := [ ⟨"plain", (⟨1⟩, ⟨2⟩, ⟨3⟩), ""⟩ ]
    error := ⟨0, ""⟩ }


/-- The result `sampleResult` with other diffuse colours for its two materials. -/
def recolouredResult : rapidobj.Result :=
  { sampleResult with
    materials := [ ⟨"plain", (⟨7⟩, ⟨8⟩, ⟨9⟩), ""⟩, ⟨"brick", (⟨1⟩, ⟨1⟩, ⟨1⟩), "brick.png"⟩ ] }

/-- The model the loader returns for `recolouredResult` read from `assets/m.obj`. -/
def recolouredModel : SimpleModel :=
  { sampleModel with
    materials := [ ⟨"plain", ⟨⟨7⟩, ⟨8⟩, ⟨9⟩⟩, ""⟩, ⟨"brick", ⟨⟨1⟩, ⟨1⟩, ⟨1⟩⟩, "assets/brick.png"⟩ ] }

/-- The quad of `quadResult` with the position index of its last face vertex lowered
to -1. -/
def negativeResult : rapidobj.Result :=
  { quadResult with
    shapes :=
      [ { name := "quad"
          mesh :=
            { indices := [⟨0, -1, -1⟩, ⟨1, -1, -1⟩, ⟨2, -1, -1⟩, ⟨0, -1, -1⟩, ⟨2, -1, -1⟩, ⟨-1, -1, -1⟩]
              material_ids := [0, 0] } } ] }

/-- A position index whose triple is `2 ^ 31 + 1`: the product does not fit an `int`. -/
def farIndex : Int := 715827883

/-- A parser result with a position pool of `2 ^ 31 + 8` floats and one face whose
vertices have the position index `farIndex`. -/
def farResult : rapidobj.Result :=
  { attributes := { positions := List.replicate (2 ^ 31 + 8) ⟨0⟩, texcoords := [] }
    shapes :=
      [ { name := "far"
          mesh :=
            { indices := [⟨farIndex, -1, -1⟩, ⟨farIndex, -1, -1⟩, ⟨farIndex, -1, -1⟩]
              material_ids := [0] } } ]
    materials := [ ⟨"plain", (⟨1⟩, ⟨2⟩, ⟨3⟩), ""⟩ ]
    error := ⟨0, ""⟩ }

/-- A shape of one face with the material 0 and the first three floats of the position
pool. -/
def oneFace : rapidobj.Shape :=
  { name := "face"
    mesh := { indices := [⟨0, -1, -1⟩, ⟨0, -1, -1⟩, ⟨0, -1, -1⟩], material_ids := [0] } }

/-- A parser result with `2 ^ 31` equal materials and the one shape `oneFace`. -/
def crowdedResult : rapidobj.Result :=
  { attributes := { positions := floats [0, 1, 2], texcoords := [] }
    shapes := [oneFace]
    materials := List.replicate (2 ^ 31) ⟨"plain", (⟨1⟩, ⟨2⟩, ⟨3⟩), ""⟩
    error := ⟨0, ""⟩ }

/-- A parser result with one material and one shape whose face has no material
assigned: its material id is -1, as rapidobj reports a face before any `usemtl`. -/
def unassignedResult : rapidobj.Result :=
  { attributes := { positions := (List.range 9).map fun n => ⟨n⟩, texcoords := [] }
    shapes :=
      [ { name := "loose"
          mesh :=
            { indices := [⟨0, -1, -1⟩, ⟨1, -1, -1⟩, ⟨2, -1, -1⟩]
              material_ids := [-1] } } ]
    materials := [ ⟨"plain", (⟨1⟩, ⟨2⟩, ⟨3⟩), ""⟩ ]
    error := ⟨0, ""⟩ }

/-- The values of the macros in GLFW 3 (GLFW/glfw3.h). -/
def glfw3 : Glfw :=
  { GLFW_RELEASE := 0
    GLFW_PRESS := 1
    GLFW_REPEAT := 2
    GLFW_KEY_ESCAPE := 256
    GLFW_KEY_W := 87
    GLFW_KEY_S := 83
    GLFW_KEY_A := 65
    GLFW_KEY_D := 68
    GLFW_KEY_E := 69
    GLFW_KEY_Q := 81
    GLFW_KEY_LEFT_SHIFT := 340
    GLFW_KEY_RIGHT_SHIFT := 344
    GLFW_KEY_LEFT_CONTROL := 341
    GLFW_KEY_RIGHT_CONTROL := 345
    labels_nodup := by decide
    press_ne_release := by decide
    repeat_ne_release := by decide }

/-- The `UserState state{}` of line 227: no input, the mouse at the origin, the identity
as camera. -/
def freshState : UserState :=
  { inputMap := fun _ => false
    mouseX := zero_f
    mouseY := zero_f
    previousX := zero_f
    previousY := zero_f
    wasMousing := false
    camera2world :=
      ⟨[one_f, zero_f, zero_f, zero_f, zero_f, one_f, zero_f, zero_f,
        zero_f, zero_f, one_f, zero_f, zero_f, zero_f, zero_f, one_f]⟩ }

/-- The window of `main` after line 229, with the user pointer set. -/
def freshWindow : GLFWwindow :=
  { shouldClose := false, userPointer := some freshState }
/-! ## The sample run -/

theorem load_sample :
    load_simple_wavefront_obj (sampleEnv sampleResult) "assets/m.obj" = .ok sampleModel := by
  rfl


theorem load_quad :
    load_simple_wavefront_obj (sampleEnv quadResult) "quad.obj" = .ok quadModel := by
  rfl

theorem load_pair :
    load_simple_wavefront_obj (stackEnv pairResult) "pair.obj" = .ok pairModel := by
  rfl

theorem materialize_pair : materialize okDevice pairModel = .ok pairOut := by
  rfl

/-! ## Loops -/

theorem foldE_append {σ α : Type} (f : σ → α → Except Fault σ) (s : σ) (xs ys : List α) :
    foldE f s (xs ++ ys) =
      match foldE f s xs with
      | .ok s' => foldE f s' ys
      | .error e => .error e := by
  induction xs generalizing s with
  | nil => rfl
  | cons a xs ih =>
    simp only [List.cons_append, foldE]
    cases f s a with
    | ok s' => exact ih s'
    | error e => rfl

theorem forLoop_zero {σ : Type} (body : Nat → σ → Except Fault σ) (s : σ) :
    forLoop 0 body s = .ok s := rfl

theorem forLoop_succ {σ : Type} (n : Nat) (body : Nat → σ → Except Fault σ) (s : σ) :
    forLoop (n + 1) body s =
      match forLoop n body s with
      | .ok s' => body n s'
      | .error e => .error e := by
  unfold forLoop
  rw [List.range_succ, foldE_append]
  cases foldE (fun s i => body i s) s (List.range n) with
  | ok s' =>
    simp only [foldE]
    cases body n s' <;> rfl
  | error e => rfl

/-- A step of a loop that ended well: the turns before the last ended well too. -/
theorem forLoop_succ_ok {σ : Type} {n : Nat} {body : Nat → σ → Except Fault σ} {s s' : σ}
    (h : forLoop (n + 1) body s = .ok s') :
    ∃ t, forLoop n body s = .ok t ∧ body n t = .ok s' := by
  rw [forLoop_succ] at h
  cases ht : forLoop n body s with
  | ok t => rw [ht] at h; exact ⟨t, rfl, h⟩
  | error e => rw [ht] at h; cases h

theorem foldE_cons_ok {σ α : Type} {f : σ → α → Except Fault σ} {s s' : σ} {a : α}
    {xs : List α} (h : foldE f s (a :: xs) = .ok s') :
    ∃ t, f s a = .ok t ∧ foldE f t xs = .ok s' := by
  simp only [foldE] at h
  cases ht : f s a with
  | ok t => rw [ht] at h; exact ⟨t, rfl, h⟩
  | error e => rw [ht] at h; cases h

theorem foldE_append_ok {σ α : Type} {f : σ → α → Except Fault σ} {s s' : σ}
    {xs ys : List α} (h : foldE f s (xs ++ ys) = .ok s') :
    ∃ t, foldE f s xs = .ok t ∧ foldE f t ys = .ok s' := by
  rw [foldE_append] at h
  cases ht : foldE f s xs with
  | ok t => rw [ht] at h; exact ⟨t, rfl, h⟩
  | error e => rw [ht] at h; cases h

/-! ## The extraction loop (lines 119-142) -/

theorem verticesUpTo_succ (mesh : rapidobj.Mesh) (matId n : Nat) :
    verticesUpTo mesh matId (n + 1) = verticesUpTo mesh matId n ++
      (if materialAt mesh n = some matId then mesh.indices[n]? else none).toList := by
  unfold verticesUpTo
  rw [List.range_succ, List.filterMap_append]
  congr 1

theorem appended_nil (textured : Bool) (ret : SimpleModel) : appended textured [] [] ret = ret := by
  cases textured <;> simp [appended]

theorem extractLoop_ok {result : rapidobj.Result} {shape : rapidobj.Shape} {matId : Nat}
    {textured : Bool} (n : Nat) {ret ret' : SimpleModel}
    (h : forLoop n (extractVertex result shape matId textured) ret = .ok ret') :
    ∃ vs ts,
      vs.map some = (verticesUpTo shape.mesh matId n).map (resolvePosition result.attributes) ∧
      (if textured then
        ts.map some = (verticesUpTo shape.mesh matId n).map (resolveTexcoord result.attributes)
       else ts = []) ∧
      ret' = appended textured vs ts ret := by
  induction n generalizing ret' with
  | zero =>
    cases h
    exact ⟨[], [], by simp [verticesUpTo], by cases textured <;> simp [verticesUpTo],
      (appended_nil _ _).symm⟩
  | succ n ih =>
    obtain ⟨t, ht, hb⟩ := forLoop_succ_ok h
    obtain ⟨vs, ts, hvs, hts, rfl⟩ := ih ht
    rw [verticesUpTo_succ]
    unfold extractVertex at hb
    cases hm : shape.mesh.material_ids[n / 3]? with
    | none => simp [hm] at hb
    | some faceMatInt =>
      simp only [hm] at hb
      have hat : materialAt shape.mesh n = some (toSizeT faceMatInt) := by simp [materialAt, hm]
      rw [hat]
      by_cases hne : toSizeT faceMatInt = matId
      · simp only [hne, ne_eq, not_true_eq_false, if_false] at hb
        cases hi : shape.mesh.indices[n]? with
        | none => simp [hi] at hb
        | some idx =>
          simp only [hi] at hb
          cases hp : resolvePosition result.attributes idx with
          | none => simp [hp] at hb
          | some v =>
            simp only [hp] at hb
            cases textured with
            | false =>
              simp only [Bool.false_eq_true, if_false, Except.ok.injEq] at hb hts
              subst hb hts
              refine ⟨vs ++ [v], [], ?_, by simp, ?_⟩
              · simp [hvs, hne, hp]
              · simp [appended, oposEmplace]
            | true =>
              simp only [if_true] at hb hts
              cases hq : resolveTexcoord result.attributes idx with
              | none => simp [hq] at hb
              | some tc =>
                simp only [hq, Except.ok.injEq] at hb
                subst hb
                refine ⟨vs ++ [v], ts ++ [tc], ?_, ?_, ?_⟩
                · simp [hvs, hne, hp]
                · simp [hts, hne, hq]
                · simp [appended, oposEmplace, otexEmplace]
      · simp only [ne_eq, hne, not_false_eq_true, if_true, Except.ok.injEq] at hb
        subst hb
        refine ⟨vs, ts, ?_, ?_, rfl⟩
        · simp [hvs, hne]
        · cases textured <;> simp_all

/-! ## One material of one shape (lines 96-154) -/

theorem Grows.refl (a : SimpleModel) : Grows a a :=
  ⟨rfl, rfl, ⟨[], by simp⟩, ⟨[], by simp⟩, ⟨[], by simp⟩, ⟨[], by simp⟩⟩

theorem Grows.trans {a b c : SimpleModel} (h₁ : Grows a b) (h₂ : Grows b c) : Grows a c := by
  obtain ⟨p₁, m₁, ⟨l₁, e₁⟩, ⟨t₁, f₁⟩, ⟨c₁, g₁⟩, ⟨u₁, k₁⟩⟩ := h₁
  obtain ⟨p₂, m₂, ⟨l₂, e₂⟩, ⟨t₂, f₂⟩, ⟨c₂, g₂⟩, ⟨u₂, k₂⟩⟩ := h₂
  exact ⟨p₂.trans p₁, m₂.trans m₁, ⟨l₁ ++ l₂, by rw [e₂, e₁, List.append_assoc]⟩,
    ⟨t₁ ++ t₂, by rw [f₂, f₁, List.append_assoc]⟩, ⟨c₁ ++ c₂, by rw [g₂, g₁, List.append_assoc]⟩,
    ⟨u₁ ++ u₂, by rw [k₂, k₁, List.append_assoc]⟩⟩

theorem Grows.opos {a b : SimpleModel} (h : Grows a b) (textured : Bool) :
    ∃ l, opos textured b = opos textured a ++ l := by
  cases textured
  · simpa [opos] using h.untexturedPositions
  · simpa [opos] using h.texturedPositions

theorem span_append {α : Type} (soup l : List α) (m : SimpleMeshInfo)
    (h : m.vertexStartIndex + m.vertexCount ≤ soup.length) :
    span (soup ++ l) m = span soup m := by
  unfold span
  rw [List.drop_append_of_le_length (by omega), List.take_append_of_le_length]
  simp only [List.length_drop]
  omega

/-- A descriptor keeps describing its shape when the model grows. -/
theorem Describes.mono {result : rapidobj.Result} {shape : rapidobj.Shape} {c : Nat}
    {a b : SimpleModel} {m : SimpleMeshInfo} (h : Describes result shape c a m)
    (hg : Grows a b) : Describes result shape c b m := by
  obtain ⟨l, hl⟩ := hg.opos m.textured
  obtain ⟨lt, hlt⟩ := hg.texcoords
  refine ⟨?_, h.count, ?_, ?_, ?_, ?_⟩
  · rw [hg.materials]; exact h.material
  · rw [hl, List.length_append]; exact Nat.le_trans h.bound (Nat.le_add_right _ _)
  · intro ht
    rw [hlt, List.length_append]; exact Nat.le_trans (h.texBound ht) (Nat.le_add_right _ _)
  · rw [hl, span_append _ _ _ h.bound]; exact h.positions
  · intro ht
    rw [hlt, span_append _ _ _ (h.texBound ht)]; exact h.texcoords ht

theorem appended_grows (textured : Bool) (vs : List vec3) (ts : List vec2) (ret : SimpleModel) :
    Grows ret (appended textured vs ts ret) := by
  cases textured
  · exact ⟨rfl, rfl, ⟨[], by simp [appended]⟩, ⟨[], by simp [appended]⟩,
      ⟨[], by simp [appended]⟩, ⟨vs, by simp [appended]⟩⟩
  · exact ⟨rfl, rfl, ⟨[], by simp [appended]⟩, ⟨vs, by simp [appended]⟩,
      ⟨ts, by simp [appended]⟩, ⟨[], by simp [appended]⟩⟩

theorem opos_appended (textured : Bool) (vs : List vec3) (ts : List vec2) (ret : SimpleModel) :
    opos textured (appended textured vs ts ret) = opos textured ret ++ vs := by
  cases textured <;> simp [opos, appended]

theorem length_eq_of_map_some {α β γ : Type} {xs : List α} {ys : List β} {zs : List γ}
    {f : γ → Option α} {g : γ → Option β} (hx : xs.map some = zs.map f)
    (hy : ys.map some = zs.map g) : xs.length = ys.length := by
  have h₁ := congrArg List.length hx
  have h₂ := congrArg List.length hy
  simp only [List.length_map] at h₁ h₂
  omega

/-- What one pass over a shape does to the model, when it ends well. -/
theorem extractMaterial_ok {result : rapidobj.Result} {shape : rapidobj.Shape}
    {activeCount matId : Nat} {ret ret' : SimpleModel}
    (h : extractMaterial result shape activeCount ret matId = .ok ret') :
    ∃ material vs ts,
      ret.materials[matId]? = some material ∧
      vs.map some = (verticesOf shape.mesh matId).map (resolvePosition result.attributes) ∧
      (if (!empty material.diffuseTexturePath) = true then
        ts.map some = (verticesOf shape.mesh matId).map (resolveTexcoord result.attributes) ∧
        ret.dataTextured.positions.length = ret.dataTextured.texcoords.length
       else ts = []) ∧
      ret' = { appended ((!empty material.diffuseTexturePath)) vs ts ret with
        meshes := ret.meshes ++
          [{ meshName := meshNameFor shape activeCount material
             materialIndex := matId
             textured := (!empty material.diffuseTexturePath)
             vertexStartIndex := (opos ((!empty material.diffuseTexturePath)) ret).length
             vertexCount := vs.length }] } := by
  unfold extractMaterial at h
  cases hm : ret.materials[matId]? with
  | none => simp [hm] at h
  | some material =>
    simp only [hm] at h
    generalize htx : (!empty material.diffuseTexturePath) = textured at h
    split at h
    · rename_i hassert
      cases hl : forLoop shape.mesh.indices.length (extractVertex result shape matId textured) ret with
      | error e => simp [hl] at h
      | ok r =>
        simp only [hl] at h
        obtain ⟨vs, ts, hvs, hts, rfl⟩ := extractLoop_ok _ hl
        split at h
        · simp only [Except.ok.injEq] at h
          refine ⟨material, vs, ts, rfl, hvs, ?_, ?_⟩ <;> rw [htx]
          · cases textured
            · simpa using hts
            · simp only [if_true] at hts ⊢
              refine ⟨hts, ?_⟩
              simpa [opos] using hassert
          · rw [← h, opos_appended]
            cases textured <;> simp [meshNameFor, appended]
        · simp at h
    · simp at h

/-! ## One shape (lines 73-154) -/

/-- The material `x` is referenced by a face vertex of `mesh`. -/
theorem verticesUpTo_ne_nil {mesh : rapidobj.Mesh} {matId n : Nat} (hn : n ≤ mesh.indices.length)
    (h : ∃ i, i < n ∧ materialAt mesh i = some matId) :
    verticesUpTo mesh matId n ≠ [] := by
  obtain ⟨i, hi, hm⟩ := h
  intro hnil
  have hmem : mesh.indices[i] ∈ verticesUpTo mesh matId n := by
    unfold verticesUpTo
    rw [List.mem_filterMap]
    exact ⟨i, List.mem_range.mpr hi, by rw [if_pos hm, List.getElem?_eq_getElem]⟩
  rw [hnil] at hmem
  cases hmem

theorem scanLoop_ok {shape : rapidobj.Shape} {c : Nat} (n : Nat) {emplaced : List Nat}
    (h : forLoop n (scanVertex shape c) [] = .ok emplaced) :
    (∀ x, x ∈ emplaced ↔ ∃ i, i < n ∧ materialAt shape.mesh i = some x) ∧
    ∀ i, i < n → ∃ id, shape.mesh.material_ids[i / 3]? = some id ∧ id < toInt c := by
  induction n generalizing emplaced with
  | zero => cases h; simp
  | succ n ih =>
    obtain ⟨t, ht, hb⟩ := forLoop_succ_ok h
    obtain ⟨hmem, hids⟩ := ih ht
    unfold scanVertex at hb
    simp only [] at hb
    split at hb
    · cases hm : shape.mesh.material_ids[n / 3]? with
      | none => simp [hm] at hb
      | some id =>
        simp only [hm] at hb
        split at hb
        · rename_i hlt
          simp only [Except.ok.injEq] at hb
          subst hb
          constructor
          · intro x
            simp only [List.mem_append, hmem, List.mem_singleton]
            constructor
            · rintro (⟨i, hi, hx⟩ | rfl)
              · exact ⟨i, by omega, hx⟩
              · exact ⟨n, by omega, by simp [materialAt, hm]⟩
            · rintro ⟨i, hi, hx⟩
              by_cases hin : i = n
              · subst hin
                right
                simpa [materialAt, hm] using hx.symm
              · exact Or.inl ⟨i, by omega, hx⟩
          · intro i hi
            by_cases hin : i = n
            · subst hin; exact ⟨id, hm, hlt⟩
            · exact hids i (by omega)
        · simp at hb
    · simp at hb

/-- What the passes over the active materials do to the model, when they end well. -/
theorem extractAll_ok {result : rapidobj.Result} {shape : rapidobj.Shape} {c : Nat}
    (active : List Nat) {ret ret' : SimpleModel}
    (h : foldE (extractMaterial result shape c) ret active = .ok ret') :
    ∃ ms, ret'.meshes = ret.meshes ++ ms ∧ ms.map (fun m => m.materialIndex) = active ∧
      Grows ret ret' ∧ (∀ m, m ∈ ms → Describes result shape c ret' m) ∧
      (ret.dataTextured.positions.length = ret.dataTextured.texcoords.length →
        ret'.dataTextured.positions.length = ret'.dataTextured.texcoords.length) := by
  induction active generalizing ret with
  | nil => cases h; exact ⟨[], by simp, rfl, Grows.refl _, by simp, id⟩
  | cons matId active ih =>
    obtain ⟨r, hr, hrest⟩ := foldE_cons_ok h
    obtain ⟨ms, hms, hidx, hg, hd, hbal⟩ := ih hrest
    obtain ⟨material, vs, ts, hmat, hvs, hts, rfl⟩ := extractMaterial_ok hr
    have hg₁ : Grows ret { appended (!empty material.diffuseTexturePath) vs ts ret with
        meshes := ret.meshes ++
          [{ meshName := meshNameFor shape c material
             materialIndex := matId
             textured := (!empty material.diffuseTexturePath)
             vertexStartIndex := (opos (!empty material.diffuseTexturePath) ret).length
             vertexCount := vs.length }] } := by
      have := appended_grows (!empty material.diffuseTexturePath) vs ts ret
      exact ⟨this.path, this.materials, ⟨_, rfl⟩, this.texturedPositions, this.texcoords,
        this.untexturedPositions⟩
    refine ⟨_ :: ms, by simpa using hms, by simp [hidx], hg₁.trans hg, ?_, ?_⟩
    · intro m hm
      rcases List.mem_cons.mp hm with rfl | hm
      · refine Describes.mono ?_ hg
        cases htx : (!empty material.diffuseTexturePath)
        · rw [htx] at hts
          simp only [Bool.false_eq_true, if_false] at hts
          subst hts
          refine ⟨⟨material, by simpa [appended] using hmat, htx.symm, rfl⟩, ?_, ?_, ?_, ?_, ?_⟩
          · simpa using congrArg List.length hvs
          · simp [opos, appended]
          · simp
          · simp [opos, appended, span, hvs]
          · simp
        · rw [htx] at hts
          simp only [if_true] at hts
          obtain ⟨hts, hlen⟩ := hts
          have hl := length_eq_of_map_some hvs hts
          refine ⟨⟨material, by simpa [appended] using hmat, htx.symm, rfl⟩, ?_, ?_, ?_, ?_, ?_⟩
          · simpa using congrArg List.length hvs
          · simp [opos, appended]
          · intro _; simp [opos, appended]; omega
          · simp [opos, appended, span, hvs]
          · intro _
            simp only [opos, appended, span, if_true]
            rw [hlen, List.drop_left, hl, List.take_length, hts]
      · exact hd m hm
    · intro hb
      apply hbal
      cases htx : (!empty material.diffuseTexturePath)
      · simpa [appended] using hb
      · rw [htx] at hts
        simp only [if_true] at hts
        have hl := length_eq_of_map_some hvs hts.1
        simp [appended, hl, hb]

/-- What processing a shape does to the loader state, when it ends well. -/
theorem processShape_ok {env : Env} {result : rapidobj.Result} {shape : rapidobj.Shape}
    {st st' : LoaderState} (h : processShape env result st shape = .ok st') :
    ∃ ms, st'.ret.meshes = st.ret.meshes ++ ms ∧ Grows st.ret st'.ret ∧
      (ms.map (fun m => m.materialIndex)).Nodup ∧
      (∀ x, x ∈ ms.map (fun m => m.materialIndex) ↔
        ∃ i, i < shape.mesh.indices.length ∧
          materialAt shape.mesh i = some x) ∧
      (∀ m, m ∈ ms → Describes result shape ms.length st'.ret m) ∧
      (st.ret.dataTextured.positions.length = st.ret.dataTextured.texcoords.length →
        st'.ret.dataTextured.positions.length = st'.ret.dataTextured.texcoords.length) := by
  unfold processShape at h
  cases hs : scanMaterials shape st.ret.materials.length with
  | error e => simp [hs] at h
  | ok emplaced =>
    simp only [hs] at h
    cases hf : foldE (extractMaterial result shape (env.iterate st.cleared emplaced).length) st.ret
        (env.iterate st.cleared emplaced) with
    | error e => simp [hf] at h
    | ok ret =>
      simp only [hf, Except.ok.injEq] at h
      subst h
      obtain ⟨ms, hms, hidx, hg, hd, hbal⟩ := extractAll_ok _ hf
      have hlen : ms.length = (env.iterate st.cleared emplaced).length := by
        rw [← hidx, List.length_map]
      refine ⟨ms, hms, hg, ?_, ?_, ?_, hbal⟩
      · rw [hidx]; exact env.iterate_nodup _ _
      · intro x
        rw [hidx, env.mem_iterate]
        exact (scanLoop_ok _ hs).1 x
      · rw [hlen]; exact hd

/-! ## The loop over the shapes (lines 71-155) and the whole function -/

theorem stateAfterShapes_succ (env : Env) (aPath : String) {k : Nat}
    (hk : k < (triangulated env aPath).shapes.length) :
    stateAfterShapes env aPath (k + 1) =
      match stateAfterShapes env aPath k with
      | .ok st => processShape env (triangulated env aPath) st ((triangulated env aPath).shapes[k])
      | .error e => .error e := by
  unfold stateAfterShapes
  rw [List.take_succ, List.getElem?_eq_getElem hk, foldE_append]
  cases foldE (processShape env (triangulated env aPath)) (initialState env aPath)
      (List.take k (triangulated env aPath).shapes) with
  | error e => rfl
  | ok st =>
    simp only [Option.toList, foldE]
    cases processShape env (triangulated env aPath) st (triangulated env aPath).shapes[k] <;> rfl

/-- A call that returns a model had no parser error and went through all shapes. -/
theorem load_ok {env : Env} {aPath : String} {model : SimpleModel}
    (h : load_simple_wavefront_obj env aPath = .ok model) :
    (env.ParseFile aPath).error.code = 0 ∧
    ∃ st, stateAfterShapes env aPath (triangulated env aPath).shapes.length = .ok st ∧
      st.ret = model := by
  unfold load_simple_wavefront_obj at h
  split at h
  · cases h
  · rename_i hcode
    refine ⟨by simpa using hcode, ?_⟩
    unfold stateAfterShapes
    rw [List.take_length]
    cases hf : foldE (processShape env (triangulated env aPath)) (initialState env aPath)
        (triangulated env aPath).shapes with
    | error e => simp [hf] at h
    | ok st =>
      simp only [hf, Except.ok.injEq] at h
      exact ⟨st, rfl, h⟩

/-- The states between the shapes of a run that came through the first `n` shapes. -/
theorem states_ok (env : Env) (aPath : String) (n : Nat)
    (hn : n ≤ (triangulated env aPath).shapes.length) {st : LoaderState}
    (h : stateAfterShapes env aPath n = .ok st) :
    Grows (initialState env aPath).ret st.ret ∧
    st.ret.dataTextured.positions.length = st.ret.dataTextured.texcoords.length ∧
    st.ret.meshes = ((List.range n).map (meshesOfShape env aPath)).flatten ∧
    ∀ k (hk : k < n), ∃ a b, stateAfterShapes env aPath k = .ok a ∧
      stateAfterShapes env aPath (k + 1) = .ok b ∧
      processShape env (triangulated env aPath) a
        ((triangulated env aPath).shapes[k]) = .ok b ∧
      Grows b.ret st.ret := by
  induction n generalizing st with
  | zero =>
    have : st = initialState env aPath := by
      simp only [stateAfterShapes, List.take_zero, foldE, Except.ok.injEq] at h
      exact h.symm
    subst this
    exact ⟨Grows.refl _, rfl, rfl, fun k hk => absurd hk (Nat.not_lt_zero k)⟩
  | succ n ih =>
    have hlt : n < (triangulated env aPath).shapes.length := hn
    have hs := stateAfterShapes_succ env aPath hlt
    rw [h] at hs
    cases ha : stateAfterShapes env aPath n with
    | error e => rw [ha] at hs; cases hs
    | ok a =>
      rw [ha] at hs
      obtain ⟨hg₀, hbal₀, hmeshes₀, hks⟩ := ih (Nat.le_of_lt hlt) ha
      obtain ⟨ms, hms, hg, -, -, -, hbal⟩ := processShape_ok hs.symm
      have hmo : meshesOfShape env aPath n = ms := by
        simp only [meshesOfShape, ha, h, hms, List.drop_left]
      refine ⟨hg₀.trans hg, hbal hbal₀, ?_, ?_⟩
      · rw [List.range_succ, List.map_append, List.flatten_append, ← hmeshes₀, hms]
        simp [hmo]
      · intro k hk
        by_cases hkn : k = n
        · subst hkn
          exact ⟨a, st, ha, h, hs.symm, Grows.refl _⟩
        · obtain ⟨a', b', h₁, h₂, h₃, h₄⟩ := hks k (by omega)
          exact ⟨a', b', h₁, h₂, h₃, h₄.trans hg⟩

/-- The descriptors of the shape at position `k`, in a call that returns `model`. -/
theorem shape_emits {env : Env} {aPath : String} {model : SimpleModel}
    (h : load_simple_wavefront_obj env aPath = .ok model) {k : Nat}
    (hk : k < (triangulated env aPath).shapes.length) :
    ((meshesOfShape env aPath k).map (fun m => m.materialIndex)).Nodup ∧
    (∀ x, x ∈ (meshesOfShape env aPath k).map (fun m => m.materialIndex) ↔
      ∃ i, i < ((triangulated env aPath).shapes[k]).mesh.indices.length ∧
        materialAt ((triangulated env aPath).shapes[k]).mesh i = some x) ∧
    ∀ m, m ∈ meshesOfShape env aPath k →
      Describes (triangulated env aPath) ((triangulated env aPath).shapes[k])
        (meshesOfShape env aPath k).length model m := by
  obtain ⟨-, st, hst, rfl⟩ := load_ok h
  obtain ⟨-, -, -, hks⟩ := states_ok env aPath _ (Nat.le_refl _) hst
  obtain ⟨a, b, ha, hb, hp, hg⟩ := hks k hk
  obtain ⟨ms, hms, -, hnd, hmem, hd, -⟩ := processShape_ok hp
  have hmo : meshesOfShape env aPath k = ms := by
    simp only [meshesOfShape, ha, hb, hms, List.drop_left]
  rw [hmo]
  exact ⟨hnd, hmem, fun m hm => (hd m hm).mono hg⟩

/-- The meshes of a returned model, shape by shape. -/
theorem load_meshes {env : Env} {aPath : String} {model : SimpleModel}
    (h : load_simple_wavefront_obj env aPath = .ok model) :
    model.meshes =
      ((List.range (triangulated env aPath).shapes.length).map (meshesOfShape env aPath)).flatten := by
  obtain ⟨-, st, hst, rfl⟩ := load_ok h
  exact (states_ok env aPath _ (Nat.le_refl _) hst).2.2.1

/-- The materials of a returned model. -/
theorem load_materials {env : Env} {aPath : String} {model : SimpleModel}
    (h : load_simple_wavefront_obj env aPath = .ok model) :
    model.materials = (triangulated env aPath).materials.map (materialInfo (pathPrefix aPath)) := by
  obtain ⟨-, st, hst, rfl⟩ := load_ok h
  exact (states_ok env aPath _ (Nat.le_refl _) hst).1.materials

/-- The two arrays of the textured soup of a returned model have one length. -/
theorem load_balanced {env : Env} {aPath : String} {model : SimpleModel}
    (h : load_simple_wavefront_obj env aPath = .ok model) :
    model.dataTextured.positions.length = model.dataTextured.texcoords.length := by
  obtain ⟨-, st, hst, rfl⟩ := load_ok h
  exact (states_ok env aPath _ (Nat.le_refl _) hst).2.1

/-- Every descriptor of a returned model was emitted for one of the shapes. -/
theorem mem_meshes {env : Env} {aPath : String} {model : SimpleModel}
    (h : load_simple_wavefront_obj env aPath = .ok model) {m : SimpleMeshInfo} :
    m ∈ model.meshes ↔
      ∃ k, k < (triangulated env aPath).shapes.length ∧ m ∈ meshesOfShape env aPath k := by
  rw [load_meshes h]
  simp [List.mem_flatten]

/-! ## Counting vertices and materials -/

theorem mem_materialsOf (mesh : rapidobj.Mesh) (x : Nat) :
    x ∈ materialsOf mesh ↔ ∃ i, i < mesh.indices.length ∧ materialAt mesh i = some x := by
  simp [materialsOf, List.mem_filterMap]

/-- The materials of the descriptors of a shape are the distinct materials of its
face vertices, each once. -/
theorem emitted_perm {env : Env} {aPath : String} {model : SimpleModel}
    (h : load_simple_wavefront_obj env aPath = .ok model) {k : Nat}
    (hk : k < (triangulated env aPath).shapes.length) :
    ((meshesOfShape env aPath k).map (fun m => m.materialIndex)).Perm
      (materialsOf ((triangulated env aPath).shapes[k]).mesh) := by
  obtain ⟨hnd, hmem, -⟩ := shape_emits h hk
  have hnd' : (materialsOf ((triangulated env aPath).shapes[k]).mesh).Nodup := by
    unfold materialsOf
    exact List.nodup_dedup _
  rw [List.perm_ext_iff_of_nodup hnd hnd']
  intro x
  rw [hmem x, mem_materialsOf]

/-- The conversion to `std::size_t` leaves an `int` that is not negative as it is. -/
theorem toSizeT_of_nonneg {v : Int} (h₀ : 0 ≤ v) (h₁ : v < 2 ^ 31) : (toSizeT v : Int) = v := by
  unfold toSizeT
  rw [Int.emod_eq_of_lt h₀ (by omega), Int.toNat_of_nonneg h₀]

theorem materialAt_face (mesh : rapidobj.Mesh) (f j : Nat) (hj : j < 3) :
    materialAt mesh (3 * f + j) = (mesh.material_ids[f]?).map toSizeT := by
  unfold materialAt
  have : (3 * f + j) / 3 = f := by omega
  rw [this]

theorem length_verticesUpTo_succ (mesh : rapidobj.Mesh) (matId n : Nat)
    (hn : n < mesh.indices.length) :
    (verticesUpTo mesh matId (n + 1)).length =
      (verticesUpTo mesh matId n).length + if materialAt mesh n = some matId then 1 else 0 := by
  rw [verticesUpTo_succ, List.length_append, List.getElem?_eq_getElem hn]
  split <;> simp

/-- With three face vertices to a face, a material has three vertices for each of its
faces. -/
theorem length_verticesUpTo_faces (mesh : rapidobj.Mesh) (matId F : Nat)
    (hF : 3 * F ≤ mesh.indices.length) :
    (verticesUpTo mesh matId (3 * F)).length = 3 * facesWith mesh matId F := by
  induction F with
  | zero => simp [verticesUpTo, facesWith]
  | succ F ih =>
    have e : 3 * (F + 1) = 3 * F + 1 + 1 + 1 := by ring
    rw [e, length_verticesUpTo_succ _ _ _ (by omega), length_verticesUpTo_succ _ _ _ (by omega),
      length_verticesUpTo_succ _ _ _ (by omega), ih (by omega)]
    have h0 := materialAt_face mesh F 0 (by omega)
    have h1 := materialAt_face mesh F 1 (by omega)
    have h2 := materialAt_face mesh F 2 (by omega)
    simp only [Nat.add_zero] at h0
    rw [h0, show 3 * F + 1 + 1 = 3 * F + 2 from rfl, h1, h2]
    unfold facesWith
    rw [List.range_succ, List.countP_append, List.countP_cons, List.countP_nil]
    by_cases hm : (mesh.material_ids[F]?).map toSizeT = some matId
    · simp only [hm, if_true, decide_True]
      omega
    · simp only [hm, if_false, decide_False, Bool.false_eq_true]
      omega

theorem facesWith_all (mesh : rapidobj.Mesh) (matId F : Nat)
    (h : ∀ f, f < F → (mesh.material_ids[f]?).map toSizeT = some matId) :
    facesWith mesh matId F = F := by
  unfold facesWith
  rw [List.countP_eq_length.mpr]
  · simp
  · intro f hf
    simpa using h f (List.mem_range.mp hf)

theorem eq_singleton_of_nodup {l : List Nat} {a : Nat} (hnd : l.Nodup)
    (hmem : ∀ x, x ∈ l ↔ x = a) : l = [a] := by
  have hp : l.Perm [a] := by
    rw [List.perm_ext_iff_of_nodup hnd (List.nodup_singleton a)]
    intro x
    rw [hmem x, List.mem_singleton]
  exact List.perm_singleton.mp hp

/-! ## Reading the pools -/

theorem readPool_some {pool : List float} {index : Int} {stride k : Nat} {x : float}
    (h : readPool pool index stride k = some x) :
    0 ≤ index * stride + k ∧ index * stride + k < 2 ^ 31 ∧
      pool[(index * stride + k).toNat]? = some x := by
  unfold readPool subscript at h
  simp only [] at h
  split at h
  · rename_i j hj
    split at hj
    · rename_i hv
      cases hj
      exact ⟨hv.1, hv.2, h⟩
    · cases hj
  · cases h

theorem resolvePosition_some {attributes : rapidobj.Attributes} {idx : rapidobj.Index} {v : vec3}
    (h : resolvePosition attributes idx = some v) :
    0 ≤ idx.position_index ∧
    attributes.positions[3 * idx.position_index.toNat]? = some v.x ∧
    attributes.positions[3 * idx.position_index.toNat + 1]? = some v.y ∧
    attributes.positions[3 * idx.position_index.toNat + 2]? = some v.z := by
  unfold resolvePosition at h
  split at h
  · rename_i x y z hx hy hz
    cases h
    obtain ⟨hx0, -, hx⟩ := readPool_some hx
    obtain ⟨-, -, hy⟩ := readPool_some hy
    obtain ⟨-, -, hz⟩ := readPool_some hz
    have hp : 0 ≤ idx.position_index := by omega
    have e0 : (idx.position_index * (3 : Nat) + (0 : Nat)).toNat = 3 * idx.position_index.toNat := by
      omega
    have e1 : (idx.position_index * (3 : Nat) + (1 : Nat)).toNat =
        3 * idx.position_index.toNat + 1 := by omega
    have e2 : (idx.position_index * (3 : Nat) + (2 : Nat)).toNat =
        3 * idx.position_index.toNat + 2 := by omega
    rw [e0] at hx; rw [e1] at hy; rw [e2] at hz
    exact ⟨hp, hx, hy, hz⟩
  · cases h

theorem resolveTexcoord_some {attributes : rapidobj.Attributes} {idx : rapidobj.Index} {t : vec2}
    (h : resolveTexcoord attributes idx = some t) :
    0 ≤ idx.texcoord_index ∧
    attributes.texcoords[2 * idx.texcoord_index.toNat]? = some t.x ∧
    attributes.texcoords[2 * idx.texcoord_index.toNat + 1]? = some t.y := by
  unfold resolveTexcoord at h
  split at h
  · rename_i x y hx hy
    cases h
    obtain ⟨hx0, -, hx⟩ := readPool_some hx
    obtain ⟨-, -, hy⟩ := readPool_some hy
    have hp : 0 ≤ idx.texcoord_index := by omega
    have e0 : (idx.texcoord_index * (2 : Nat) + (0 : Nat)).toNat = 2 * idx.texcoord_index.toNat := by
      omega
    have e1 : (idx.texcoord_index * (2 : Nat) + (1 : Nat)).toNat =
        2 * idx.texcoord_index.toNat + 1 := by omega
    rw [e0] at hx; rw [e1] at hy
    exact ⟨hp, hx, hy⟩
  · cases h

theorem span_getElem? {α : Type} (soup : List α) (m : SimpleMeshInfo) {j : Nat}
    (hj : j < m.vertexCount) : (span soup m)[j]? = soup[m.vertexStartIndex + j]? := by
  unfold span
  rw [List.getElem?_take_of_lt hj, List.getElem?_drop]

/-- Element `j` of a list of resolved vertices. -/
theorem resolved_getElem? {α β : Type} {soup : List α} {m : SimpleMeshInfo} {vertices : List β}
    {resolve : β → Option α} (h : (span soup m).map some = vertices.map resolve)
    (hb : m.vertexStartIndex + m.vertexCount ≤ soup.length)
    (hc : m.vertexCount = vertices.length) {j : Nat} (hj : j < m.vertexCount) :
    ∃ idx v, vertices[j]? = some idx ∧ soup[m.vertexStartIndex + j]? = some v ∧
      resolve idx = some v := by
  have hv : j < vertices.length := by omega
  have hs : m.vertexStartIndex + j < soup.length := by omega
  refine ⟨vertices[j], soup[m.vertexStartIndex + j], List.getElem?_eq_getElem hv,
    List.getElem?_eq_getElem hs, ?_⟩
  have e := congrArg (fun l => l[j]?) h
  simp only [List.getElem?_map, span_getElem? soup m hj, List.getElem?_eq_getElem hs,
    List.getElem?_eq_getElem hv, Option.map_some'] at e
  exact (Option.some.inj e).symm

/-! ## The path prefix and the error message -/

theorem strrchr_none {s : List Char} {c : Char} : strrchr s c = none ↔ c ∉ s := by
  induction s with
  | nil => simp [strrchr]
  | cons x xs ih =>
    simp only [strrchr, List.mem_cons, not_or]
    cases h : strrchr xs c with
    | some i =>
      have : ¬ (c ∉ xs) := fun hn => by rw [ih.mpr hn] at h; cases h
      simp [this]
    | none =>
      have hn := ih.mp h
      by_cases hx : x = c
      · simp [hx]
      · simp [hx, hn, Ne.symm hx]

/-- The offset `strrchr` finds is that of a `c` with no `c` after it. -/
theorem strrchr_some {s : List Char} {c : Char} {i : Nat} (h : strrchr s c = some i) :
    (∃ pre, s.take (i + 1) = pre ++ [c]) ∧ c ∉ s.drop (i + 1) := by
  induction s generalizing i with
  | nil => simp [strrchr] at h
  | cons x xs ih =>
    simp only [strrchr] at h
    cases hr : strrchr xs c with
    | some j =>
      rw [hr] at h
      simp only [Option.some.injEq] at h
      subst h
      obtain ⟨⟨pre, h₁⟩, h₂⟩ := ih hr
      exact ⟨⟨x :: pre, by rw [List.take_succ_cons, h₁, List.cons_append]⟩, by simpa using h₂⟩
    | none =>
      rw [hr] at h
      simp only [] at h
      by_cases hx : x = c
      · rw [if_pos hx] at h
        simp only [Option.some.injEq] at h
        subst h
        subst hx
        exact ⟨⟨[], by simp⟩, by simpa using strrchr_none.mp hr⟩
      · rw [if_neg hx] at h
        cases h

theorem string_eq_empty_iff (s : String) : s = "" ↔ s.data = [] := by
  constructor
  · rintro rfl; rfl
  · intro h; exact String.ext h

/-- The path is its prefix followed by a rest without `/`. -/
theorem pathPrefix_append (aPath : String) :
    ∃ rest, aPath = pathPrefix aPath ++ rest ∧ '/' ∉ rest.data := by
  unfold pathPrefix
  cases h : strrchr aPath.data '/' with
  | none =>
    refine ⟨aPath, ?_, strrchr_none.mp h⟩
    apply String.ext
    simp
  | some i =>
    refine ⟨String.mk (aPath.data.drop (i + 1)), ?_, (strrchr_some h).2⟩
    apply String.ext
    simp

theorem pathPrefix_of_slash {aPath : String} (h : '/' ∈ aPath.data) :
    ∃ dir, pathPrefix aPath = dir ++ "/" := by
  unfold pathPrefix
  cases hs : strrchr aPath.data '/' with
  | none => exact absurd h (strrchr_none.mp hs)
  | some i =>
    obtain ⟨⟨pre, hpre⟩, -⟩ := strrchr_some hs
    refine ⟨String.mk pre, ?_⟩
    apply String.ext
    simp [hpre]

theorem pathPrefix_of_no_slash {aPath : String} (h : '/' ∉ aPath.data) :
    pathPrefix aPath = "" := by
  unfold pathPrefix
  rw [strrchr_none.mpr h]

theorem formatMessage_load (aPath message : String) :
    String.mk (formatMessage "Unable to load OBJ file \x27%s\x27: %s".data [aPath, message]) =
      "Unable to load OBJ file \x27" ++ aPath ++ "\x27: " ++ message := by
  apply String.ext
  simp [formatMessage]

/-! ## The faults of the mesh extraction -/

theorem foldE_error {σ α : Type} {f : σ → α → Except Fault σ} {P : Fault → Prop}
    (hf : ∀ s a e, f s a = .error e → P e) {s : σ} {xs : List α} {e : Fault}
    (h : foldE f s xs = .error e) : P e := by
  induction xs generalizing s with
  | nil => cases h
  | cons a xs ih =>
    simp only [foldE] at h
    cases hfa : f s a with
    | ok s' => rw [hfa] at h; exact ih h
    | error e' => rw [hfa] at h; cases h; exact hf s a e hfa

theorem extractVertex_error {result : rapidobj.Result} {shape : rapidobj.Shape} {matId : Nat}
    {textured : Bool} {i : Nat} {ret : SimpleModel} {e : Fault}
    (h : extractVertex result shape matId textured i ret = .error e) : e = .outOfRange := by
  unfold extractVertex at h
  simp only [] at h
  repeat' split at h
  all_goals first | cases h; rfl | cases h

theorem extractMaterial_error {result : rapidobj.Result} {shape : rapidobj.Shape} {c matId : Nat}
    {ret : SimpleModel} {e : Fault}
    (h : extractMaterial result shape c ret matId = .error e) : ∀ message, e ≠ .loadError message := by
  intro message he
  subst he
  unfold extractMaterial at h
  simp only [] at h
  split at h
  · cases h
  · split at h
    · split at h
      · rename_i hl
        have := foldE_error (P := fun e => e = .outOfRange)
          (fun s a e h => extractVertex_error h) hl
        cases h
        cases this
      · split at h <;> cases h
    · cases h

theorem scanVertex_error {shape : rapidobj.Shape} {c i : Nat} {emplaced : List Nat} {e : Fault}
    (h : scanVertex shape c i emplaced = .error e) : ∀ message, e ≠ .loadError message := by
  intro message he
  subst he
  unfold scanVertex at h
  simp only [] at h
  repeat' split at h
  all_goals cases h

theorem processShape_error {env : Env} {result : rapidobj.Result} {st : LoaderState}
    {shape : rapidobj.Shape} {e : Fault}
    (h : processShape env result st shape = .error e) : ∀ message, e ≠ .loadError message := by
  unfold processShape at h
  split at h
  · rename_i e' hs
    cases h
    exact foldE_error (P := fun e => ∀ message, e ≠ .loadError message)
      (fun s a e h => scanVertex_error h) hs
  · simp only [] at h
    split at h
    · rename_i e' hf
      cases h
      exact foldE_error (P := fun e => ∀ message, e ≠ .loadError message)
        (fun s a e h => extractMaterial_error h) hf
    · cases h

/-- Without a parser error the call does not end in a `lut::Error`. -/
theorem no_loadError (env : Env) (aPath : String)
    (hcode : (env.ParseFile aPath).error.code = 0) (message : String) :
    load_simple_wavefront_obj env aPath ≠ .error (.loadError message) := by
  intro h
  unfold load_simple_wavefront_obj at h
  rw [if_neg (by simpa using hcode)] at h
  split at h
  · rename_i e hf
    cases h
    exact foldE_error (P := fun e => ∀ message, e ≠ .loadError message)
      (fun s a e h => processShape_error h) hf message rfl
  · cases h

/-! ## Every face vertex is read -/

theorem processShape_scanned {env : Env} {result : rapidobj.Result} {shape : rapidobj.Shape}
    {st st' : LoaderState} (h : processShape env result st shape = .ok st') :
    ∀ i, i < shape.mesh.indices.length →
      ∃ id, shape.mesh.material_ids[i / 3]? = some id ∧ id < toInt st.ret.materials.length := by
  unfold processShape at h
  cases hs : scanMaterials shape st.ret.materials.length with
  | error e => simp [hs] at h
  | ok emplaced => exact (scanLoop_ok _ hs).2

/-- In a call that returns a model, every face vertex of every shape has a material
id, and the id passed the `assert` of line 85. -/
theorem shape_scanned {env : Env} {aPath : String} {model : SimpleModel}
    (h : load_simple_wavefront_obj env aPath = .ok model) {k : Nat}
    (hk : k < (triangulated env aPath).shapes.length) :
    ∀ i, i < ((triangulated env aPath).shapes[k]).mesh.indices.length →
      ∃ id, ((triangulated env aPath).shapes[k]).mesh.material_ids[i / 3]? = some id ∧
        id < toInt model.materials.length := by
  obtain ⟨-, st, hst, rfl⟩ := load_ok h
  obtain ⟨hg, -, -, hks⟩ := states_ok env aPath _ (Nat.le_refl _) hst
  obtain ⟨a, b, ha, hb, hp, hgb⟩ := hks k hk
  obtain ⟨ms, -, hga, -⟩ := processShape_ok hp
  have hmat : a.ret.materials = st.ret.materials := by
    rw [hgb.materials, hga.materials]
  rw [← hmat]
  exact processShape_scanned hp

theorem mem_verticesOf {mesh : rapidobj.Mesh} {matId i : Nat} {idx : rapidobj.Index}
    (hidx : mesh.indices[i]? = some idx) (hm : materialAt mesh i = some matId) :
    idx ∈ verticesOf mesh matId := by
  unfold verticesOf verticesUpTo
  rw [List.mem_filterMap]
  exact ⟨i, List.mem_range.mpr (List.getElem?_eq_some_iff.mp hidx).1, by rw [if_pos hm, hidx]⟩

theorem resolved_of_mem {α β : Type} {xs : List α} {vertices : List β} {resolve : β → Option α}
    (h : xs.map some = vertices.map resolve) {idx : β} (hidx : idx ∈ vertices) :
    ∃ v, resolve idx = some v := by
  have : resolve idx ∈ xs.map some := by
    rw [h]; exact List.mem_map.mpr ⟨idx, hidx, rfl⟩
  obtain ⟨v, -, hv⟩ := List.mem_map.mp this
  exact ⟨v, hv.symm⟩

/-- In a call that returns a model, the position of every face vertex was read inside
the position pool, and so was the texcoord of every face vertex whose face has a
material that names a texture. -/
theorem reads_in_range {env : Env} {aPath : String} {model : SimpleModel}
    (h : load_simple_wavefront_obj env aPath = .ok model) {k : Nat}
    (hk : k < (triangulated env aPath).shapes.length) {i : Nat} {idx : rapidobj.Index}
    (hidx : ((triangulated env aPath).shapes[k]).mesh.indices[i]? = some idx) :
    (∃ v, resolvePosition (triangulated env aPath).attributes idx = some v) ∧
    ∀ x mat, materialAt ((triangulated env aPath).shapes[k]).mesh i = some x →
      (triangulated env aPath).materials[x]? = some mat → mat.diffuse_texname ≠ "" →
      ∃ t, resolveTexcoord (triangulated env aPath).attributes idx = some t := by
  have hi := (List.getElem?_eq_some_iff.mp hidx).1
  obtain ⟨id, hid, -⟩ := shape_scanned h hk i hi
  have hat : materialAt ((triangulated env aPath).shapes[k]).mesh i = some (toSizeT id) := by
    simp [materialAt, hid]
  obtain ⟨-, hmem, hd⟩ := shape_emits h hk
  obtain ⟨m, hm, hmi⟩ := List.mem_map.mp ((hmem (toSizeT id)).mpr ⟨i, hi, hat⟩)
  have hdm := hd m hm
  have hv : idx ∈ verticesOf ((triangulated env aPath).shapes[k]).mesh m.materialIndex := by
    rw [hmi]; exact mem_verticesOf hidx hat
  refine ⟨resolved_of_mem hdm.positions hv, ?_⟩
  intro x mat hx hmat hne
  rw [hat] at hx
  cases hx
  obtain ⟨material, hmaterial, htx, -⟩ := hdm.material
  rw [hmi, load_materials h, List.getElem?_map, hmat] at hmaterial
  cases hmaterial
  have ht : m.textured = true := by
    rw [htx]
    have hd' : mat.diffuse_texname.data ≠ [] := fun h => hne ((string_eq_empty_iff _).mpr h)
    simp only [materialInfo, empty, hne, decide_False, Bool.not_false, if_true, Bool.not_eq_true',
      decide_eq_false_iff_not]
    rw [string_eq_empty_iff, String.data_append]
    simp [hd']
  exact resolved_of_mem (hdm.texcoords ht) hv

/-! ## Empty shapes, the order of the descriptors -/

theorem processShape_of_no_indices (env : Env) (result : rapidobj.Result) (st : LoaderState)
    (shape : rapidobj.Shape) (h : shape.mesh.indices = []) :
    processShape env result st shape = .ok { ret := st.ret, cleared := st.cleared ++ [[]] } := by
  have hs : scanMaterials shape st.ret.materials.length = .ok [] := by
    unfold scanMaterials
    rw [h]
    rfl
  have hi : env.iterate st.cleared [] = [] := by
    apply List.eq_nil_iff_forall_not_mem.mpr
    intro x hx
    exact List.not_mem_nil x ((env.mem_iterate _ _ x).mp hx)
  unfold processShape
  simp only [hs, hi, foldE]

theorem scanLoop_emplaced {shape : rapidobj.Shape} {c : Nat} (n : Nat) {emplaced : List Nat}
    (h : forLoop n (scanVertex shape c) [] = .ok emplaced) :
    emplaced.map some = (List.range n).map (materialAt shape.mesh) := by
  induction n generalizing emplaced with
  | zero => cases h; rfl
  | succ n ih =>
    obtain ⟨t, ht, hb⟩ := forLoop_succ_ok h
    have iht := ih ht
    unfold scanVertex at hb
    simp only [] at hb
    split at hb
    · cases hm : shape.mesh.material_ids[n / 3]? with
      | none => simp [hm] at hb
      | some id =>
        simp only [hm] at hb
        split at hb
        · simp only [Except.ok.injEq] at hb
          subst hb
          rw [List.range_succ, List.map_append, List.map_append, iht]
          simp [materialAt, hm]
        · simp at hb
    · simp at hb

/-- The descriptors of a shape come in the order in which the set is visited. -/
theorem processShape_order {env : Env} {result : rapidobj.Result} {shape : rapidobj.Shape}
    {st st' : LoaderState} (h : processShape env result st shape = .ok st') :
    ∃ emplaced ms, st'.ret.meshes = st.ret.meshes ++ ms ∧
      emplaced.map some = (List.range shape.mesh.indices.length).map (materialAt shape.mesh) ∧
      ms.map (fun m => m.materialIndex) = env.iterate st.cleared emplaced := by
  unfold processShape at h
  cases hs : scanMaterials shape st.ret.materials.length with
  | error e => simp [hs] at h
  | ok emplaced =>
    simp only [hs] at h
    cases hf : foldE (extractMaterial result shape (env.iterate st.cleared emplaced).length) st.ret
        (env.iterate st.cleared emplaced) with
    | error e => simp [hf] at h
    | ok ret =>
      simp only [hf, Except.ok.injEq] at h
      subst h
      obtain ⟨ms, hms, hidx, -⟩ := extractAll_ok _ hf
      exact ⟨emplaced, ms, hms, scanLoop_emplaced _ hs, hidx⟩

/-- The descriptors of the shape at position `k` come in the order in which the set is
visited after the scan of that shape. -/
theorem shape_order {env : Env} {aPath : String} {model : SimpleModel}
    (h : load_simple_wavefront_obj env aPath = .ok model) {k : Nat}
    (hk : k < (triangulated env aPath).shapes.length) :
    ∃ st emplaced, stateAfterShapes env aPath k = .ok st ∧
      emplaced.map some =
        (List.range ((triangulated env aPath).shapes[k]).mesh.indices.length).map
          (materialAt ((triangulated env aPath).shapes[k]).mesh) ∧
      (meshesOfShape env aPath k).map (fun m => m.materialIndex) =
        env.iterate st.cleared emplaced := by
  obtain ⟨-, st, hst, rfl⟩ := load_ok h
  obtain ⟨-, -, -, hks⟩ := states_ok env aPath _ (Nat.le_refl _) hst
  obtain ⟨a, b, ha, hb, hp, -⟩ := hks k hk
  obtain ⟨emplaced, ms, hms, hem, hidx⟩ := processShape_order hp
  have hmo : meshesOfShape env aPath k = ms := by
    simp only [meshesOfShape, ha, hb, hms, List.drop_left]
  exact ⟨a, emplaced, ha, hem, by rw [hmo]; exact hidx⟩

/-- The lists of the first `n` positions, one after the other: those of the first `i`,
then that of position `i`, then a rest. -/
theorem flatten_range_split {α : Type} (f : Nat → List α) {i n : Nat} (h : i < n) :
    ∃ post, ((List.range n).map f).flatten = ((List.range i).map f).flatten ++ f i ++ post := by
  induction n with
  | zero => omega
  | succ n ih =>
    rw [List.range_succ, List.map_append, List.flatten_append]
    by_cases hin : i = n
    · subst hin
      exact ⟨[], by simp⟩
    · obtain ⟨post, hp⟩ := ih (by omega)
      exact ⟨post ++ f n, by rw [hp]; simp⟩

/-! ## Inputs on which the loader returns a model -/

theorem forLoop_succ_of_ok {σ : Type} {n : Nat} {body : Nat → σ → Except Fault σ} {s t : σ}
    (h : forLoop n body s = .ok t) : forLoop (n + 1) body s = body n t := by
  rw [forLoop_succ, h]

theorem scanLoop_returns {shape : rapidobj.Shape} {c : Nat} (n : Nat)
    (h : ∀ i, i < n → ∃ id, shape.mesh.material_ids[i / 3]? = some id ∧ id < toInt c) :
    ∃ emplaced, forLoop n (scanVertex shape c) [] = .ok emplaced := by
  induction n with
  | zero => exact ⟨[], rfl⟩
  | succ n ih =>
    obtain ⟨t, ht⟩ := ih (fun i hi => h i (by omega))
    obtain ⟨id, hid, hlt⟩ := h n (by omega)
    have hlen : n / 3 < shape.mesh.material_ids.length := (List.getElem?_eq_some_iff.mp hid).1
    refine ⟨t ++ [toSizeT id], ?_⟩
    rw [forLoop_succ_of_ok ht]
    simp [scanVertex, hlen, hid, hlt]

theorem extractLoop_returns {result : rapidobj.Result} {shape : rapidobj.Shape} {matId : Nat}
    {textured : Bool} (n : Nat) (hn : n ≤ shape.mesh.indices.length) (ret : SimpleModel)
    (hids : ∀ i, i < n → ∃ id, shape.mesh.material_ids[i / 3]? = some id)
    (hread : ∀ i idx, i < n → shape.mesh.indices[i]? = some idx →
      materialAt shape.mesh i = some matId →
      (∃ v, resolvePosition result.attributes idx = some v) ∧
      (textured = true → ∃ t, resolveTexcoord result.attributes idx = some t)) :
    ∃ ret', forLoop n (extractVertex result shape matId textured) ret = .ok ret' := by
  induction n with
  | zero => exact ⟨ret, rfl⟩
  | succ n ih =>
    obtain ⟨t, ht⟩ := ih (by omega) (fun i hi => hids i (by omega))
      (fun i idx hi => hread i idx (by omega))
    obtain ⟨id, hid⟩ := hids n (by omega)
    rw [forLoop_succ_of_ok ht]
    have hidx : shape.mesh.indices[n]? = some shape.mesh.indices[n] :=
      List.getElem?_eq_getElem (by omega)
    by_cases hm : toSizeT id = matId
    · obtain ⟨⟨v, hv⟩, htc⟩ := hread n _ (by omega) hidx (by simp [materialAt, hid, hm])
      cases textured with
      | false => exact ⟨oposEmplace false v t, by simp [extractVertex, hid, hm, hidx, hv]⟩
      | true =>
        obtain ⟨tc, htc⟩ := htc rfl
        exact ⟨otexEmplace tc (oposEmplace true v t),
          by simp [extractVertex, hid, hm, hidx, hv, htc]⟩
    · exact ⟨t, by simp [extractVertex, hid, hm]⟩

/-- A pass over a shape ends well when the material exists, the two arrays of the
textured soup have one length, every face vertex has a material id and the vertices
of the material can be read. -/
theorem extractMaterial_returns {result : rapidobj.Result} {shape : rapidobj.Shape}
    {activeCount matId : Nat} {ret : SimpleModel} {material : SimpleMaterialInfo}
    (hmat : ret.materials[matId]? = some material)
    (hbal : ret.dataTextured.positions.length = ret.dataTextured.texcoords.length)
    (hids : ∀ i, i < shape.mesh.indices.length → ∃ id, shape.mesh.material_ids[i / 3]? = some id)
    (hread : ∀ i idx, shape.mesh.indices[i]? = some idx →
      materialAt shape.mesh i = some matId →
      (∃ v, resolvePosition result.attributes idx = some v) ∧
      ((!empty material.diffuseTexturePath) = true →
        ∃ t, resolveTexcoord result.attributes idx = some t)) :
    ∃ ret', extractMaterial result shape activeCount ret matId = .ok ret' := by
  obtain ⟨r, hr⟩ := @extractLoop_returns result shape matId
    (!empty material.diffuseTexturePath) shape.mesh.indices.length (Nat.le_refl _)
    ret hids (fun i idx _ => hread i idx)
  obtain ⟨vs, ts, hvs, hts, rfl⟩ := extractLoop_ok _ hr
  cases he : extractMaterial result shape activeCount ret matId with
  | ok ret' => exact ⟨ret', rfl⟩
  | error e =>
    exfalso
    unfold extractMaterial at he
    simp only [hmat, hr] at he
    cases htx : (!empty material.diffuseTexturePath)
    · simp [htx] at he
    · rw [htx] at hts
      simp only [if_true] at hts
      have hl := length_eq_of_map_some hvs hts
      simp [htx, opos, appended, hbal, hl] at he

theorem extractAll_returns {result : rapidobj.Result} {shape : rapidobj.Shape} {c : Nat}
    (active : List Nat) (ret : SimpleModel)
    (hbal : ret.dataTextured.positions.length = ret.dataTextured.texcoords.length)
    (hids : ∀ i, i < shape.mesh.indices.length → ∃ id, shape.mesh.material_ids[i / 3]? = some id)
    (hact : ∀ matId, matId ∈ active → ∃ material, ret.materials[matId]? = some material ∧
      ∀ i idx, shape.mesh.indices[i]? = some idx → materialAt shape.mesh i = some matId →
        (∃ v, resolvePosition result.attributes idx = some v) ∧
        ((!empty material.diffuseTexturePath) = true →
          ∃ t, resolveTexcoord result.attributes idx = some t)) :
    ∃ ret', foldE (extractMaterial result shape c) ret active = .ok ret' := by
  induction active generalizing ret with
  | nil => exact ⟨ret, rfl⟩
  | cons matId active ih =>
    obtain ⟨material, hmat, hread⟩ := hact matId (List.mem_cons_self _ _)
    obtain ⟨r, hr⟩ := @extractMaterial_returns result shape c _ _ _ hmat hbal
      hids hread
    have hone : foldE (extractMaterial result shape c) ret [matId] = .ok r := by
      simp only [foldE, hr]
    obtain ⟨-, -, -, hg, -, hb⟩ := extractAll_ok _ hone
    obtain ⟨ret', hret'⟩ := ih r (hb hbal) (fun x hx => by
      obtain ⟨m, hm, hrd⟩ := hact x (List.mem_cons_of_mem _ hx)
      exact ⟨m, by rw [hg.materials]; exact hm, hrd⟩)
    exact ⟨ret', by simp only [foldE, hr]; exact hret'⟩

theorem materialInfo_textured (pfx : String) (mat : rapidobj.Material) :
    (!empty (materialInfo pfx mat).diffuseTexturePath) = true ↔ mat.diffuse_texname ≠ "" := by
  by_cases he : mat.diffuse_texname = ""
  · simp [materialInfo, empty, he]
  · have hd : mat.diffuse_texname.data ≠ [] := fun h => he ((string_eq_empty_iff _).mpr h)
    simp only [materialInfo, empty, he, decide_False, Bool.not_false, if_true, ne_eq,
      not_false_eq_true, iff_true, Bool.not_eq_true', decide_eq_false_iff_not]
    rw [string_eq_empty_iff, String.data_append]
    simp [hd]

/-- Processing a shape of an in-range result ends well. -/
theorem processShape_returns {env : Env} {result : rapidobj.Result} {pfx : String}
    (hin : InRange result) {shape : rapidobj.Shape} (hs : shape ∈ result.shapes)
    {st : LoaderState} (hmats : st.ret.materials = result.materials.map (materialInfo pfx))
    (hbal : st.ret.dataTextured.positions.length = st.ret.dataTextured.texcoords.length) :
    ∃ st', processShape env result st shape = .ok st' := by
  have hlen : st.ret.materials.length = result.materials.length := by simp [hmats]
  obtain ⟨emplaced, hscan⟩ := @scanLoop_returns shape st.ret.materials.length
    shape.mesh.indices.length (fun i hi => by
      obtain ⟨id, hid, hlt, -⟩ := hin.ids shape hs i hi
      exact ⟨id, hid, by rw [hlen]; exact hlt⟩)
  have hmem := (scanLoop_ok _ hscan).1
  obtain ⟨ret', hret'⟩ := @extractAll_returns result shape
    (env.iterate st.cleared emplaced).length (env.iterate st.cleared emplaced) st.ret hbal
    (fun i hi => by
      obtain ⟨id, hid, -⟩ := hin.ids shape hs i hi
      exact ⟨id, hid⟩)
    (fun x hx => by
      obtain ⟨i, hi, hat⟩ := (hmem x).mp ((env.mem_iterate _ _ x).mp hx)
      obtain ⟨id, hid, -, hlt⟩ := hin.ids shape hs i hi
      have hx' : toSizeT id = x := by simpa [materialAt, hid] using hat
      rw [hx'] at hlt
      have hmat : result.materials[x]? = some result.materials[x] := List.getElem?_eq_getElem hlt
      refine ⟨materialInfo pfx result.materials[x], by rw [hmats, List.getElem?_map, hmat]; rfl, ?_⟩
      intro j idx hidx hj
      refine ⟨hin.positions shape hs idx (List.mem_iff_getElem?.mpr ⟨j, hidx⟩), ?_⟩
      intro htx
      exact hin.texcoords shape hs j idx x _ hidx hj hmat
        ((materialInfo_textured pfx _).mp htx))
  exact ⟨{ ret := ret', cleared := st.cleared ++ [emplaced] },
    by unfold processShape scanMaterials; simp only [hscan, hret']⟩

theorem processShapes_returns {env : Env} {result : rapidobj.Result} {pfx : String}
    (hin : InRange result) (shapes : List rapidobj.Shape)
    (hsub : ∀ shape, shape ∈ shapes → shape ∈ result.shapes) (st : LoaderState)
    (hmats : st.ret.materials = result.materials.map (materialInfo pfx))
    (hbal : st.ret.dataTextured.positions.length = st.ret.dataTextured.texcoords.length) :
    ∃ st', foldE (processShape env result) st shapes = .ok st' := by
  induction shapes generalizing st with
  | nil => exact ⟨st, rfl⟩
  | cons shape shapes ih =>
    obtain ⟨st₁, h₁⟩ := @processShape_returns env _ _ hin _
      (hsub shape (List.mem_cons_self _ _)) _ hmats hbal
    obtain ⟨ms, -, hg, -, -, -, hb⟩ := processShape_ok h₁
    obtain ⟨st', h'⟩ := ih (fun s hs => hsub s (List.mem_cons_of_mem _ hs)) st₁
      (by rw [hg.materials]; exact hmats) (hb hbal)
    exact ⟨st', by simp only [foldE, h₁]; exact h'⟩

/-- The loader returns a model when the parser reports no error and the triangulated
result is in range. -/
theorem load_returns (env : Env) (aPath : String)
    (hcode : (env.ParseFile aPath).error.code = 0) (hin : InRange (triangulated env aPath)) :
    ∃ model, load_simple_wavefront_obj env aPath = .ok model := by
  obtain ⟨st, hst⟩ := @processShapes_returns env _ (pathPrefix aPath) hin
    (triangulated env aPath).shapes (fun _ h => h) (initialState env aPath) rfl rfl
  refine ⟨st.ret, ?_⟩
  unfold load_simple_wavefront_obj
  rw [if_neg (by simpa using hcode)]
  simp only [hst]

/-! ## Properties of the returned model -/

/-- C1 (soup partition invariant).  In every model that `load_simple_wavefront_obj`
returns, the span of every mesh descriptor lies inside its soup: a textured
descriptor satisfies `vertexStartIndex + vertexCount ≤ length dataTextured.positions`,
and the two arrays of the textured soup have one length; an untextured descriptor
satisfies the bound against `dataUntextured.positions`. -/
theorem C1_soup_partition (env : Env) (aPath : String) (model : SimpleModel)
    (hload : load_simple_wavefront_obj env aPath = .ok model)
    (m : SimpleMeshInfo) (hm : m ∈ model.meshes) :
    if m.textured = true then
      m.vertexStartIndex + m.vertexCount ≤ model.dataTextured.positions.length ∧
      model.dataTextured.positions.length = model.dataTextured.texcoords.length
    else
      m.vertexStartIndex + m.vertexCount ≤ model.dataUntextured.positions.length := by
  obtain ⟨k, hk, hmk⟩ := (mem_meshes hload).mp hm
  have hd := (shape_emits hload hk).2.2 m hmk
  have hb := hd.bound
  cases htx : m.textured
  · simpa [htx, opos] using hb
  · simp only [htx, opos, if_true] at hb ⊢
    exact ⟨hb, load_balanced hload⟩

/-- The sample run returns a model whose textured descriptor spans all six vertices
of the textured soup. -/
theorem C1_soup_partition_witness :
    load_simple_wavefront_obj (sampleEnv sampleResult) "assets/m.obj" = .ok sampleModel ∧
    (⟨"quad::brick", 1, true, 0, 6⟩ : SimpleMeshInfo) ∈ sampleModel.meshes ∧
    (0 + 6 ≤ sampleModel.dataTextured.positions.length ∧
      sampleModel.dataTextured.positions.length = sampleModel.dataTextured.texcoords.length) :=
  ⟨rfl, List.Mem.head _,
    C1_soup_partition (sampleEnv sampleResult) "assets/m.obj" sampleModel rfl
      ⟨"quad::brick", 1, true, 0, 6⟩ (List.Mem.head _)⟩

/-- C2 (material-textured consistency).  In every model that
`load_simple_wavefront_obj` returns, the `materialIndex` of every mesh descriptor is
a valid index into `materials`, and the descriptor is textured exactly when the
`diffuseTexturePath` of that material is not empty. -/
theorem C2_material_textured (env : Env) (aPath : String) (model : SimpleModel)
    (hload : load_simple_wavefront_obj env aPath = .ok model)
    (m : SimpleMeshInfo) (hm : m ∈ model.meshes) :
    m.materialIndex < model.materials.length ∧
    ∃ material, model.materials[m.materialIndex]? = some material ∧
      (m.textured = true ↔ material.diffuseTexturePath ≠ "") := by
  obtain ⟨k, hk, hmk⟩ := (mem_meshes hload).mp hm
  obtain ⟨material, hmat, htx, -⟩ := ((shape_emits hload hk).2.2 m hmk).material
  refine ⟨(List.getElem?_eq_some_iff.mp hmat).1, material, hmat, ?_⟩
  rw [htx]
  simp [empty]

/-- The untextured descriptor of the sample run has the material 0, whose texture
path is empty. -/
theorem C2_material_textured_witness :
    load_simple_wavefront_obj (sampleEnv sampleResult) "assets/m.obj" = .ok sampleModel ∧
    (⟨"quad::plain", 0, false, 0, 3⟩ : SimpleMeshInfo) ∈ sampleModel.meshes ∧
    (0 < sampleModel.materials.length ∧
      ∃ material, sampleModel.materials[0]? = some material ∧
        (false = true ↔ material.diffuseTexturePath ≠ "")) :=
  ⟨rfl, List.Mem.tail _ (List.Mem.head _),
    C2_material_textured (sampleEnv sampleResult) "assets/m.obj" sampleModel rfl
      ⟨"quad::plain", 0, false, 0, 3⟩ (List.Mem.tail _ (List.Mem.head _))⟩

/-- C3 (vertex count conservation).  In a call that returns a model, a shape with
`N ≥ 1` triangular faces (`3 * N` face vertices) that all carry one material id has
exactly one mesh descriptor, which is in the model, and its `vertexCount` is `3 * N`. -/
theorem C3_vertex_count_conservation (env : Env) (aPath : String) (model : SimpleModel)
    (hload : load_simple_wavefront_obj env aPath = .ok model)
    (k : Nat) (hk : k < (triangulated env aPath).shapes.length) (N : Nat) (hN : 1 ≤ N)
    (hfaces : ((triangulated env aPath).shapes[k]).mesh.indices.length = 3 * N)
    (id : Int)
    (hid : ∀ f, f < N → ((triangulated env aPath).shapes[k]).mesh.material_ids[f]? = some id) :
    ∃ m, meshesOfShape env aPath k = [m] ∧ m ∈ model.meshes ∧ m.vertexCount = 3 * N := by
  obtain ⟨hnd, hmem, hd⟩ := shape_emits hload hk
  have hat : ∀ i, i < 3 * N →
      materialAt ((triangulated env aPath).shapes[k]).mesh i = some (toSizeT id) := by
    intro i hi
    simp [materialAt, hid (i / 3) (by omega)]
  have hone : (meshesOfShape env aPath k).map (fun m => m.materialIndex) = [toSizeT id] := by
    apply eq_singleton_of_nodup hnd
    intro x
    rw [hmem x, hfaces]
    constructor
    · rintro ⟨i, hi, hx⟩
      rw [hat i hi] at hx
      exact (Option.some.inj hx).symm
    · rintro rfl
      exact ⟨0, by omega, hat 0 (by omega)⟩
  obtain ⟨m, hm, hidx⟩ : ∃ m, meshesOfShape env aPath k = [m] ∧ m.materialIndex = toSizeT id := by
    cases hms : meshesOfShape env aPath k with
    | nil => rw [hms] at hone; cases hone
    | cons m rest =>
      rw [hms] at hone
      cases rest with
      | nil => exact ⟨m, rfl, by simpa using hone⟩
      | cons m' rest => simp at hone
  refine ⟨m, hm, (mem_meshes hload).mpr ⟨k, hk, by rw [hm]; exact List.Mem.head _⟩, ?_⟩
  have hc := (hd m (by rw [hm]; exact List.Mem.head _)).count
  rw [hc, hidx, verticesOf, hfaces, length_verticesUpTo_faces _ _ _ (by omega),
    facesWith_all]
  intro f hf
  rw [hid f hf]
  rfl

/-- The quad of two triangles with one material has one descriptor, of six vertices. -/
theorem C3_vertex_count_conservation_witness :
    load_simple_wavefront_obj (sampleEnv quadResult) "quad.obj" = .ok quadModel ∧
    ∃ m, meshesOfShape (sampleEnv quadResult) "quad.obj" 0 = [m] ∧ m ∈ quadModel.meshes ∧
      m.vertexCount = 3 * 2 :=
  ⟨rfl, C3_vertex_count_conservation (sampleEnv quadResult) "quad.obj" quadModel rfl 0
    (by decide) 2 (by decide) rfl 0 (by decide)⟩

/-- C4 (one descriptor per shape and distinct material).  In a call that returns
`model`:

* for every shape, the materials of its descriptors are the distinct materials of
  its face vertices (`materialsOf`; ids are compared as the source compares them,
  converted to `std::size_t`), each exactly once; the `materialIndex` of a
  descriptor is the id of one of the faces, converted, which for an id that is not
  negative is the id itself; and when the shape has `3 * F` face vertices a
  descriptor's `vertexCount` is three times the number of faces that carry its
  material;
* the meshes of the model are those of the shapes, shape after shape, so their
  number is the sum over the shapes of the number of distinct materials;
* a shape whose face vertices all carry `a` or `b`, both occurring, `a` with a
  texture path and `b` without, has exactly two descriptors, one textured for `a`
  and one untextured for `b`. -/
theorem C4_one_descriptor_per_material (env : Env) (aPath : String) (model : SimpleModel)
    (hload : load_simple_wavefront_obj env aPath = .ok model) :
    (∀ k (hk : k < (triangulated env aPath).shapes.length),
      ((meshesOfShape env aPath k).map (fun m => m.materialIndex)).Perm
        (materialsOf ((triangulated env aPath).shapes[k]).mesh) ∧
      ∀ m, m ∈ meshesOfShape env aPath k →
        (∃ i id, i < ((triangulated env aPath).shapes[k]).mesh.indices.length ∧
          ((triangulated env aPath).shapes[k]).mesh.material_ids[i / 3]? = some id ∧
          m.materialIndex = toSizeT id ∧
          (0 ≤ id → id < 2 ^ 31 → (m.materialIndex : Int) = id)) ∧
        ∀ F, ((triangulated env aPath).shapes[k]).mesh.indices.length = 3 * F →
          m.vertexCount =
            3 * facesWith ((triangulated env aPath).shapes[k]).mesh m.materialIndex F) ∧
    model.meshes =
      ((List.range (triangulated env aPath).shapes.length).map (meshesOfShape env aPath)).flatten ∧
    model.meshes.length =
      ((triangulated env aPath).shapes.map fun s => (materialsOf s.mesh).length).sum ∧
    (∀ k (hk : k < (triangulated env aPath).shapes.length) (a b : Nat),
      (∀ i, i < ((triangulated env aPath).shapes[k]).mesh.indices.length →
        materialAt ((triangulated env aPath).shapes[k]).mesh i = some a ∨
        materialAt ((triangulated env aPath).shapes[k]).mesh i = some b) →
      (∃ i, i < ((triangulated env aPath).shapes[k]).mesh.indices.length ∧
        materialAt ((triangulated env aPath).shapes[k]).mesh i = some a) →
      (∃ i, i < ((triangulated env aPath).shapes[k]).mesh.indices.length ∧
        materialAt ((triangulated env aPath).shapes[k]).mesh i = some b) →
      (∃ material, model.materials[a]? = some material ∧ material.diffuseTexturePath ≠ "") →
      (∃ material, model.materials[b]? = some material ∧ material.diffuseTexturePath = "") →
      ∃ m₁ m₂, (meshesOfShape env aPath k).Perm [m₁, m₂] ∧
        m₁.materialIndex = a ∧ m₁.textured = true ∧
        m₂.materialIndex = b ∧ m₂.textured = false) := by
  refine ⟨?_, load_meshes hload, ?_, ?_⟩
  · intro k hk
    refine ⟨emitted_perm hload hk, ?_⟩
    intro m hm
    constructor
    · obtain ⟨i, hi, hat⟩ := ((shape_emits hload hk).2.1 m.materialIndex).mp
        (List.mem_map.mpr ⟨m, hm, rfl⟩)
      unfold materialAt at hat
      cases hid : ((triangulated env aPath).shapes[k]).mesh.material_ids[i / 3]? with
      | none => rw [hid] at hat; cases hat
      | some id =>
        rw [hid] at hat
        have he : toSizeT id = m.materialIndex := Option.some.inj hat
        exact ⟨i, id, hi, hid, he.symm, fun h₀ h₁ => by rw [← he]; exact toSizeT_of_nonneg h₀ h₁⟩
    · intro F hF
      rw [((shape_emits hload hk).2.2 m hm).count, verticesOf, hF,
        length_verticesUpTo_faces _ _ _ (by omega)]
  · rw [load_meshes hload, List.length_flatten, List.map_map]
    have key : ∀ n (hn : n ≤ (triangulated env aPath).shapes.length),
        (List.map (List.length ∘ meshesOfShape env aPath) (List.range n)).sum =
          (((triangulated env aPath).shapes.take n).map fun s => (materialsOf s.mesh).length).sum := by
      intro n
      induction n with
      | zero => intro _; simp
      | succ n ih =>
        intro hn
        have hlt : n < (triangulated env aPath).shapes.length := hn
        rw [List.range_succ, List.map_append, List.sum_append, ih (Nat.le_of_lt hlt),
          List.take_succ, List.getElem?_eq_getElem hlt, List.map_append, List.sum_append]
        have := (emitted_perm hload hlt).length_eq
        simp only [List.length_map] at this
        simp [this]
    rw [key _ (Nat.le_refl _), List.take_length]
  · intro k hk a b hall ha hb hta hub
    obtain ⟨hnd, hmem, hd⟩ := shape_emits hload hk
    obtain ⟨ma, hma, hpa⟩ := hta
    obtain ⟨mb, hmb, hpb⟩ := hub
    have hab : a ≠ b := by
      rintro rfl
      rw [hma] at hmb
      cases hmb
      exact hpa hpb
    have hp : ((meshesOfShape env aPath k).map (fun m => m.materialIndex)).Perm [a, b] := by
      rw [List.perm_ext_iff_of_nodup hnd (by simp [hab])]
      intro x
      rw [hmem x]
      constructor
      · rintro ⟨i, hi, hx⟩
        rcases hall i hi with h | h <;> rw [h] at hx <;> cases hx <;> simp
      · intro hx
        rcases List.mem_pair.mp hx with rfl | rfl
        · exact ha
        · exact hb
    have hflag : ∀ m, m ∈ meshesOfShape env aPath k → ∀ x material,
        m.materialIndex = x → model.materials[x]? = some material →
        m.textured = (!empty material.diffuseTexturePath) := by
      intro m hm x material hx hmat
      obtain ⟨material', hmat', htx, -⟩ := (hd m hm).material
      rw [hx, hmat] at hmat'
      cases hmat'
      exact htx
    have ha' : a ∈ (meshesOfShape env aPath k).map (fun m => m.materialIndex) :=
      hp.mem_iff.mpr (by simp)
    have hb' : b ∈ (meshesOfShape env aPath k).map (fun m => m.materialIndex) :=
      hp.mem_iff.mpr (by simp)
    obtain ⟨m₁, hm₁, hi₁⟩ := List.mem_map.mp ha'
    obtain ⟨m₂, hm₂, hi₂⟩ := List.mem_map.mp hb'
    refine ⟨m₁, m₂, ?_, hi₁, ?_, hi₂, ?_⟩
    · have hlen : (meshesOfShape env aPath k).length = 2 := by
        simpa using hp.length_eq
      have hne : m₁ ≠ m₂ := by
        rintro rfl
        exact hab (hi₁.symm.trans hi₂)
      have hnd' : (meshesOfShape env aPath k).Nodup := List.Nodup.of_map _ hnd
      match hms : meshesOfShape env aPath k, hlen with
      | [x, y], _ =>
        rw [hms] at hm₁ hm₂ hnd'
        simp only [List.mem_cons, List.mem_singleton, List.not_mem_nil, or_false] at hm₁ hm₂
        rcases hm₁ with rfl | rfl <;> rcases hm₂ with rfl | rfl
        · exact absurd rfl hne
        · exact List.Perm.refl _
        · exact List.Perm.swap _ _ _
        · exact absurd rfl hne
    · rw [hflag m₁ hm₁ a ma hi₁ hma]
      simp [empty, hpa]
    · rw [hflag m₂ hm₂ b mb hi₂ hmb]
      simp [empty, hpb]

/-- The shape of the sample run has faces of the textured material 1 and of the
untextured material 0, and so one textured and one untextured descriptor. -/
theorem C4_one_descriptor_per_material_witness :
    load_simple_wavefront_obj (sampleEnv sampleResult) "assets/m.obj" = .ok sampleModel ∧
    ∃ m₁ m₂, (meshesOfShape (sampleEnv sampleResult) "assets/m.obj" 0).Perm [m₁, m₂] ∧
      m₁.materialIndex = 1 ∧ m₁.textured = true ∧ m₂.materialIndex = 0 ∧ m₂.textured = false :=
  ⟨rfl, (C4_one_descriptor_per_material (sampleEnv sampleResult) "assets/m.obj" sampleModel
    rfl).2.2.2 0 (by decide) 1 0 (by decide) (by decide) (by decide)
    ⟨_, rfl, by decide⟩ ⟨_, rfl, rfl⟩⟩

/-- C5 (span content and order).  In a call that returns `model`, let `m` be a
descriptor emitted for the shape at position `k`.  Its `vertexCount` is the number
of face vertices of the shape whose face carries the material `m.materialIndex`
(`verticesOf`, in input order), and for every `j < vertexCount` the soup element at
`vertexStartIndex + j` is built from the `j`-th such face vertex: with `p` its
`position_index`, the position is
`(positions[3*p], positions[3*p+1], positions[3*p+2])`, and when `m` is textured the
texcoord at the same soup index is `(texcoords[2*t], texcoords[2*t+1])` for its
`texcoord_index` `t`. -/
theorem C5_span_content (env : Env) (aPath : String) (model : SimpleModel)
    (hload : load_simple_wavefront_obj env aPath = .ok model)
    (k : Nat) (hk : k < (triangulated env aPath).shapes.length)
    (m : SimpleMeshInfo) (hm : m ∈ meshesOfShape env aPath k) :
    m.vertexCount =
      (verticesOf ((triangulated env aPath).shapes[k]).mesh m.materialIndex).length ∧
    ∀ j, j < m.vertexCount → ∃ idx v,
      (verticesOf ((triangulated env aPath).shapes[k]).mesh m.materialIndex)[j]? = some idx ∧
      (opos m.textured model)[m.vertexStartIndex + j]? = some v ∧
      0 ≤ idx.position_index ∧
      (triangulated env aPath).attributes.positions[3 * idx.position_index.toNat]? = some v.x ∧
      (triangulated env aPath).attributes.positions[3 * idx.position_index.toNat + 1]? = some v.y ∧
      (triangulated env aPath).attributes.positions[3 * idx.position_index.toNat + 2]? = some v.z ∧
      (m.textured = true → ∃ t,
        model.dataTextured.texcoords[m.vertexStartIndex + j]? = some t ∧
        0 ≤ idx.texcoord_index ∧
        (triangulated env aPath).attributes.texcoords[2 * idx.texcoord_index.toNat]? = some t.x ∧
        (triangulated env aPath).attributes.texcoords[2 * idx.texcoord_index.toNat + 1]? =
          some t.y) := by
  have hd := (shape_emits hload hk).2.2 m hm
  refine ⟨hd.count, ?_⟩
  intro j hj
  obtain ⟨idx, v, hidx, hv, hr⟩ := resolved_getElem? hd.positions hd.bound hd.count hj
  obtain ⟨hp, hx, hy, hz⟩ := resolvePosition_some hr
  refine ⟨idx, v, hidx, hv, hp, hx, hy, hz, ?_⟩
  intro ht
  obtain ⟨idx', t, hidx', htc, hr'⟩ :=
    resolved_getElem? (hd.texcoords ht) (hd.texBound ht) hd.count hj
  rw [hidx] at hidx'
  cases hidx'
  obtain ⟨hp', hx', hy'⟩ := resolveTexcoord_some hr'
  exact ⟨t, htc, hp', hx', hy'⟩

/-- C6 (mesh naming).  In a call that returns `model`, a descriptor emitted for a
shape has the name of the shape when the shape references exactly one distinct
material, and the name of the shape, `::` and the `materialName` of
`materials[materialIndex]` when it references two or more. -/
theorem C6_mesh_naming (env : Env) (aPath : String) (model : SimpleModel)
    (hload : load_simple_wavefront_obj env aPath = .ok model)
    (k : Nat) (hk : k < (triangulated env aPath).shapes.length)
    (m : SimpleMeshInfo) (hm : m ∈ meshesOfShape env aPath k) :
    ((materialsOf ((triangulated env aPath).shapes[k]).mesh).length = 1 →
      m.meshName = ((triangulated env aPath).shapes[k]).name) ∧
    (2 ≤ (materialsOf ((triangulated env aPath).shapes[k]).mesh).length →
      ∃ material, model.materials[m.materialIndex]? = some material ∧
        m.meshName = ((triangulated env aPath).shapes[k]).name ++ "::" ++ material.materialName) := by
  obtain ⟨material, hmat, -, hname⟩ := ((shape_emits hload hk).2.2 m hm).material
  have hlen := (emitted_perm hload hk).length_eq
  simp only [List.length_map] at hlen
  rw [hlen] at hname
  constructor
  · intro h1
    rw [hname, meshNameFor, h1, if_pos rfl]
  · intro h2
    refine ⟨material, hmat, ?_⟩
    rw [hname, meshNameFor, if_neg (by omega)]

/-- In the sample run the last vertex of the textured descriptor is face vertex 5 of
the shape, with position index 3 and texcoord index 3. -/
theorem C5_span_content_witness :
    load_simple_wavefront_obj (sampleEnv sampleResult) "assets/m.obj" = .ok sampleModel ∧
    (⟨"quad::brick", 1, true, 0, 6⟩ : SimpleMeshInfo) ∈
      meshesOfShape (sampleEnv sampleResult) "assets/m.obj" 0 ∧
    ∃ idx v,
      (verticesOf (sampleResult.shapes[0]).mesh 1)[5]? = some idx ∧
      sampleModel.dataTextured.positions[0 + 5]? = some v ∧
      0 ≤ idx.position_index ∧
      sampleResult.attributes.positions[3 * idx.position_index.toNat]? = some v.x ∧
      sampleResult.attributes.positions[3 * idx.position_index.toNat + 1]? = some v.y ∧
      sampleResult.attributes.positions[3 * idx.position_index.toNat + 2]? = some v.z ∧
      (true = true → ∃ t,
        sampleModel.dataTextured.texcoords[0 + 5]? = some t ∧
        0 ≤ idx.texcoord_index ∧
        sampleResult.attributes.texcoords[2 * idx.texcoord_index.toNat]? = some t.x ∧
        sampleResult.attributes.texcoords[2 * idx.texcoord_index.toNat + 1]? = some t.y) :=
  ⟨rfl, by decide,
    (C5_span_content (sampleEnv sampleResult) "assets/m.obj" sampleModel rfl 0 (by decide)
      ⟨"quad::brick", 1, true, 0, 6⟩ (by decide)).2 5 (by decide)⟩

/-- In the sample run the shape has two materials and its textured descriptor is
named after the shape and the material. -/
theorem C6_mesh_naming_witness :
    load_simple_wavefront_obj (sampleEnv sampleResult) "assets/m.obj" = .ok sampleModel ∧
    (⟨"quad::brick", 1, true, 0, 6⟩ : SimpleMeshInfo) ∈
      meshesOfShape (sampleEnv sampleResult) "assets/m.obj" 0 ∧
    2 ≤ (materialsOf (sampleResult.shapes[0]).mesh).length ∧
    ∃ material, sampleModel.materials[1]? = some material ∧
      "quad::brick" = "quad" ++ "::" ++ material.materialName :=
  ⟨rfl, by decide, by decide,
    (C6_mesh_naming (sampleEnv sampleResult) "assets/m.obj" sampleModel rfl 0 (by decide)
      ⟨"quad::brick", 1, true, 0, 6⟩ (by decide)).2 (by decide)⟩

/-- C7 (material table extraction).  The `materials` of a returned model have the
length and the order of the parsed table; entry `i` has the parsed name, the parsed
diffuse triple unchanged, and as `diffuseTexturePath` the prefix followed by
`diffuse_texname` when that name is not empty and the empty string otherwise, so that
the path is not empty exactly when the parsed material names a diffuse texture. -/
theorem C7_material_table (env : Env) (aPath : String) (model : SimpleModel)
    (hload : load_simple_wavefront_obj env aPath = .ok model) :
    model.materials.length = (triangulated env aPath).materials.length ∧
    ∀ (i : Nat) (mat : rapidobj.Material), (triangulated env aPath).materials[i]? = some mat →
      ∃ info : SimpleMaterialInfo, model.materials[i]? = some info ∧
        info.materialName = mat.name ∧
        info.diffuseColor = ⟨mat.diffuse.1, mat.diffuse.2.1, mat.diffuse.2.2⟩ ∧
        (mat.diffuse_texname ≠ "" →
          info.diffuseTexturePath = pathPrefix aPath ++ mat.diffuse_texname) ∧
        (mat.diffuse_texname = "" → info.diffuseTexturePath = "") ∧
        (info.diffuseTexturePath ≠ "" ↔ mat.diffuse_texname ≠ "") := by
  rw [load_materials hload]
  refine ⟨by simp, ?_⟩
  intro i mat hi
  refine ⟨materialInfo (pathPrefix aPath) mat, by simp [hi], rfl, rfl, ?_, ?_, ?_⟩
  · intro hne
    simp [materialInfo, empty, hne]
  · intro he
    simp [materialInfo, empty, he]
  · by_cases he : mat.diffuse_texname = ""
    · simp [materialInfo, empty, he]
    · have hd : mat.diffuse_texname.data ≠ [] := fun h => he ((string_eq_empty_iff _).mpr h)
      simp only [materialInfo, empty, he, decide_False, Bool.not_false, if_true, ne_eq,
        not_false_eq_true, iff_true]
      rw [string_eq_empty_iff, String.data_append]
      simp [hd]

/-- The materials of the sample run: the second one names `brick.png`, resolved
against `assets/`. -/
theorem C7_material_table_witness :
    load_simple_wavefront_obj (sampleEnv sampleResult) "assets/m.obj" = .ok sampleModel ∧
    sampleModel.materials.length = sampleResult.materials.length ∧
    ∃ info : SimpleMaterialInfo, sampleModel.materials[1]? = some info ∧
      info.materialName = "brick" ∧
      info.diffuseColor = ⟨⟨4⟩, ⟨5⟩, ⟨6⟩⟩ ∧
      (("brick.png" : String) ≠ "" → info.diffuseTexturePath = pathPrefix "assets/m.obj" ++ "brick.png") ∧
      (("brick.png" : String) = "" → info.diffuseTexturePath = "") ∧
      (info.diffuseTexturePath ≠ "" ↔ ("brick.png" : String) ≠ "") :=
  ⟨rfl, (C7_material_table (sampleEnv sampleResult) "assets/m.obj" sampleModel rfl).1,
    (C7_material_table (sampleEnv sampleResult) "assets/m.obj" sampleModel rfl).2 1
      ⟨"brick", (⟨4⟩, ⟨5⟩, ⟨6⟩), "brick.png"⟩ rfl⟩

/-- C8 (texture-path prefix).  The path is the prefix followed by a rest without
`/`.  When the path contains `/` the prefix ends with `/`, so it is the leading part
of the path up to and including the last `/`; when the path contains no `/` the
prefix is empty.  In a returned model the `diffuseTexturePath` of a material that
names a texture is the prefix followed by the texture filename, which without `/` in
the path is the texture filename itself. -/
theorem C8_texture_path_prefix (env : Env) (aPath : String) :
    (∃ rest, aPath = pathPrefix aPath ++ rest ∧ '/' ∉ rest.data) ∧
    ('/' ∈ aPath.data → ∃ dir, pathPrefix aPath = dir ++ "/") ∧
    ('/' ∉ aPath.data → pathPrefix aPath = "") ∧
    ∀ model, load_simple_wavefront_obj env aPath = .ok model →
      ∀ (i : Nat) (mat : rapidobj.Material), (triangulated env aPath).materials[i]? = some mat → mat.diffuse_texname ≠ "" →
        ∃ info : SimpleMaterialInfo, model.materials[i]? = some info ∧
          info.diffuseTexturePath = pathPrefix aPath ++ mat.diffuse_texname ∧
          ('/' ∉ aPath.data → info.diffuseTexturePath = mat.diffuse_texname) := by
  refine ⟨pathPrefix_append aPath, pathPrefix_of_slash, pathPrefix_of_no_slash, ?_⟩
  intro model hload i mat hi hne
  rw [load_materials hload]
  refine ⟨materialInfo (pathPrefix aPath) mat, by simp [hi], ?_, ?_⟩
  · simp [materialInfo, empty, hne]
  · intro hs
    rw [pathPrefix_of_no_slash hs]
    simp only [materialInfo, empty, hne, decide_False, Bool.not_false, if_true]
    apply String.ext
    simp

/-- C9 (load fails iff the parser reports an error).  The call ends in a
`lut::Error` exactly when the result of `rapidobj::ParseFile` carries an error; it
then returns no model, and the message is
`Unable to load OBJ file '<path>': <message>`, which contains the path and the
message of the parser. -/
theorem C9_load_fails_iff_parser_error (env : Env) (aPath : String) :
    ((∃ message, load_simple_wavefront_obj env aPath = .error (.loadError message)) ↔
      (env.ParseFile aPath).error.code ≠ 0) ∧
    ((env.ParseFile aPath).error.code ≠ 0 →
      load_simple_wavefront_obj env aPath =
        .error (.loadError ("Unable to load OBJ file \x27" ++ aPath ++ "\x27: " ++
          (env.ParseFile aPath).error.message)) ∧
      ∀ model, load_simple_wavefront_obj env aPath ≠ .ok model) := by
  have herr : (env.ParseFile aPath).error.code ≠ 0 →
      load_simple_wavefront_obj env aPath =
        .error (.loadError ("Unable to load OBJ file \x27" ++ aPath ++ "\x27: " ++
          (env.ParseFile aPath).error.message)) := by
    intro hcode
    unfold load_simple_wavefront_obj
    rw [if_pos hcode, formatMessage_load]
  refine ⟨⟨?_, fun hcode => ⟨_, herr hcode⟩⟩, fun hcode => ⟨herr hcode, ?_⟩⟩
  · rintro ⟨message, hm⟩
    intro hcode
    exact no_loadError env aPath hcode message hm
  · intro model hm
    rw [herr hcode] at hm
    cases hm

/-- C10, refuted as stated.  The parser reports no error for `malformedResult`, its
last face vertex has the position index 7 with `3 * 7 + 2` outside the pool of 12
floats, and the call does not end in a `lut::Error`: line 132 reads outside the
pool through the unchecked `operator[]`. -/
theorem C10_counterexample :
    ((sampleEnv malformedResult).ParseFile "quad.obj").error.code = 0 ∧
    (malformedResult.shapes[0]).mesh.indices[5]? = some ⟨7, -1, -1⟩ ∧
    (malformedResult.attributes.positions.length : Int) ≤ 3 * 7 + 2 ∧
    load_simple_wavefront_obj (sampleEnv malformedResult) "quad.obj" = .error .outOfRange ∧
    ¬ ∃ message, load_simple_wavefront_obj (sampleEnv malformedResult) "quad.obj" =
      .error (.loadError message) := by
  refine ⟨rfl, rfl, by decide, rfl, ?_⟩
  rintro ⟨message, h⟩
  have h' : load_simple_wavefront_obj (sampleEnv malformedResult) "quad.obj" =
      .error .outOfRange := rfl
  rw [h'] at h
  cases h

/-- C10, amended.  The loader does not check geometry indices.  When the parser
reports no error and some face vertex has a position index `p` with `3 * p + 2`
outside the position pool (or, for a face whose material names a texture, a
texcoord index `t` with `2 * t + 1` outside the texcoord pool), the call neither
ends in a `lut::Error` nor returns a model: it ends in an unchecked read outside a
container or in a failed `assert`. -/
theorem C10_malformed_indices_unchecked (env : Env) (aPath : String)
    (hcode : (env.ParseFile aPath).error.code = 0)
    (k : Nat) (hk : k < (triangulated env aPath).shapes.length)
    (i : Nat) (idx : rapidobj.Index)
    (hidx : ((triangulated env aPath).shapes[k]).mesh.indices[i]? = some idx)
    (hbad :
      (idx.position_index < 0 ∨
        ((triangulated env aPath).attributes.positions.length : Int) ≤
          3 * idx.position_index + 2) ∨
      ((∃ x mat, materialAt ((triangulated env aPath).shapes[k]).mesh i = some x ∧
          (triangulated env aPath).materials[x]? = some mat ∧ mat.diffuse_texname ≠ "") ∧
        (idx.texcoord_index < 0 ∨
          ((triangulated env aPath).attributes.texcoords.length : Int) ≤
            2 * idx.texcoord_index + 1))) :
    (∀ message, load_simple_wavefront_obj env aPath ≠ .error (.loadError message)) ∧
    (∀ model, load_simple_wavefront_obj env aPath ≠ .ok model) ∧
    ∃ fault, load_simple_wavefront_obj env aPath = .error fault ∧
      (fault = .outOfRange ∨ ∃ line, fault = .assertFailed line) := by
  have hno := no_loadError env aPath hcode
  have hnok : ∀ model, load_simple_wavefront_obj env aPath ≠ .ok model := by
    intro model hload
    obtain ⟨⟨v, hv⟩, htex⟩ := reads_in_range hload hk hidx
    rcases hbad with hp | ⟨⟨x, mat, hx, hmat, hne⟩, ht⟩
    · obtain ⟨h0, -, -, h2⟩ := resolvePosition_some hv
      have := (List.getElem?_eq_some_iff.mp h2).1
      omega
    · obtain ⟨t, ht'⟩ := htex x mat hx hmat hne
      obtain ⟨h0, -, h1⟩ := resolveTexcoord_some ht'
      have := (List.getElem?_eq_some_iff.mp h1).1
      omega
  refine ⟨hno, hnok, ?_⟩
  cases hl : load_simple_wavefront_obj env aPath with
  | ok model => exact absurd hl (hnok model)
  | error fault =>
    refine ⟨fault, rfl, ?_⟩
    cases fault with
    | loadError message => exact absurd hl (hno message)
    | assertFailed line => exact Or.inr ⟨line, rfl⟩
    | outOfRange => exact Or.inl rfl

/-- The malformed quad: no model and no `lut::Error`. -/
theorem C10_malformed_indices_unchecked_witness :
    ((sampleEnv malformedResult).ParseFile "quad.obj").error.code = 0 ∧
    (malformedResult.shapes[0]).mesh.indices[5]? = some ⟨7, -1, -1⟩ ∧
    (malformedResult.attributes.positions.length : Int) ≤ 3 * 7 + 2 ∧
    ((∀ message, load_simple_wavefront_obj (sampleEnv malformedResult) "quad.obj" ≠
        .error (.loadError message)) ∧
      (∀ model, load_simple_wavefront_obj (sampleEnv malformedResult) "quad.obj" ≠ .ok model) ∧
      ∃ fault, load_simple_wavefront_obj (sampleEnv malformedResult) "quad.obj" = .error fault ∧
        (fault = .outOfRange ∨ ∃ line, fault = .assertFailed line)) :=
  ⟨rfl, rfl, by decide,
    C10_malformed_indices_unchecked (sampleEnv malformedResult) "quad.obj" rfl 0 (by decide) 5
      ⟨7, -1, -1⟩ rfl (Or.inl (Or.inr (by decide)))⟩

/-- C11 (no empty meshes).  Processing a shape with an empty index list ends well and
leaves the model as it was: no mesh descriptor is added and both soups are unchanged.
In a call that returns a model, such a shape has no descriptor, and every mesh
descriptor of the model has `vertexCount ≥ 1`. -/
theorem C11_no_empty_meshes (env : Env) (aPath : String) :
    (∀ (result : rapidobj.Result) (st : LoaderState) (shape : rapidobj.Shape),
      shape.mesh.indices = [] →
      ∃ st', processShape env result st shape = .ok st' ∧ st'.ret = st.ret) ∧
    ∀ model, load_simple_wavefront_obj env aPath = .ok model →
      (∀ k (hk : k < (triangulated env aPath).shapes.length),
        ((triangulated env aPath).shapes[k]).mesh.indices = [] →
        meshesOfShape env aPath k = []) ∧
      ∀ m, m ∈ model.meshes → 1 ≤ m.vertexCount := by
  refine ⟨fun result st shape h => ⟨_, processShape_of_no_indices env result st shape h, rfl⟩, ?_⟩
  intro model hload
  constructor
  · intro k hk hnil
    obtain ⟨-, hmem, -⟩ := shape_emits hload hk
    apply List.eq_nil_iff_forall_not_mem.mpr
    intro m hm
    obtain ⟨i, hi, -⟩ := (hmem m.materialIndex).mp (List.mem_map.mpr ⟨m, hm, rfl⟩)
    rw [hnil] at hi
    exact Nat.not_lt_zero i hi
  · intro m hm
    obtain ⟨k, hk, hmk⟩ := (mem_meshes hload).mp hm
    obtain ⟨-, hmem, hd⟩ := shape_emits hload hk
    have hex := (hmem m.materialIndex).mp (List.mem_map.mpr ⟨m, hmk, rfl⟩)
    have hne := verticesUpTo_ne_nil (Nat.le_refl _) hex
    rw [(hd m hmk).count, verticesOf]
    exact List.length_pos.mpr hne

/-- C12 (meshes grouped by shape, in shape order).  The meshes of a returned model are
the descriptors of the first shape, then those of the second, and so on; hence for
shapes at positions `i < j` the list is some descriptors, then those of shape `i`,
then some more, then those of shape `j`, then a rest. -/
theorem C12_grouped_by_shape (env : Env) (aPath : String) (model : SimpleModel)
    (hload : load_simple_wavefront_obj env aPath = .ok model) :
    model.meshes =
      ((List.range (triangulated env aPath).shapes.length).map (meshesOfShape env aPath)).flatten ∧
    ∀ i j, i < j → j < (triangulated env aPath).shapes.length →
      ∃ before between after, model.meshes =
        before ++ meshesOfShape env aPath i ++ between ++ meshesOfShape env aPath j ++ after := by
  refine ⟨load_meshes hload, ?_⟩
  intro i j hij hj
  rw [load_meshes hload]
  obtain ⟨after, h₁⟩ := flatten_range_split (meshesOfShape env aPath) hj
  obtain ⟨between, h₂⟩ := flatten_range_split (meshesOfShape env aPath) hij
  exact ⟨_, between, after, by rw [h₁, h₂]⟩

/-- In the run on `pairResult` the descriptor of the shape `first` comes before the two
of the shape `second`. -/
theorem C12_grouped_by_shape_witness :
    load_simple_wavefront_obj (stackEnv pairResult) "pair.obj" = .ok pairModel ∧
    (0 < 1 ∧ 1 < pairResult.shapes.length) ∧
    ∃ before between after, pairModel.meshes =
      before ++ meshesOfShape (stackEnv pairResult) "pair.obj" 0 ++ between ++
        meshesOfShape (stackEnv pairResult) "pair.obj" 1 ++ after :=
  ⟨rfl, by decide,
    (C12_grouped_by_shape (stackEnv pairResult) "pair.obj" pairModel rfl).2 0 1
      (by decide) (by decide)⟩

/-- C13, refuted as stated.  In the run on `pairResult`, with a set that is visited
from the element inserted last to the one inserted first, the shape `second`
references the two materials 0 and 1 and its descriptors come with the material
indices 1, 0, which is not increasing. -/
theorem C13_counterexample :
    load_simple_wavefront_obj (stackEnv pairResult) "pair.obj" = .ok pairModel ∧
    2 ≤ (materialsOf (pairResult.shapes[1]).mesh).length ∧
    (meshesOfShape (stackEnv pairResult) "pair.obj" 1).map (fun m => m.materialIndex) = [1, 0] ∧
    ¬ ((meshesOfShape (stackEnv pairResult) "pair.obj" 1).map
        (fun m => m.materialIndex)).Pairwise (fun a b => a < b) := by
  refine ⟨rfl, by decide, by decide, by decide⟩

/-- C13, amended.  In a call that returns a model, the descriptors of a shape come in
the order in which the range-for of line 96 visits `activeMaterials` after the scan
of that shape: their material indices are that visiting order, they are pairwise
distinct, and they are strictly increasing exactly when the set is visited in
increasing order, which `std::unordered_set` does not promise. -/
theorem C13_order_of_iteration (env : Env) (aPath : String) (model : SimpleModel)
    (hload : load_simple_wavefront_obj env aPath = .ok model)
    (k : Nat) (hk : k < (triangulated env aPath).shapes.length) :
    ∃ st emplaced, stateAfterShapes env aPath k = .ok st ∧
      emplaced.map some =
        (List.range ((triangulated env aPath).shapes[k]).mesh.indices.length).map
          (materialAt ((triangulated env aPath).shapes[k]).mesh) ∧
      (meshesOfShape env aPath k).map (fun m => m.materialIndex) =
        env.iterate st.cleared emplaced ∧
      ((meshesOfShape env aPath k).map (fun m => m.materialIndex)).Nodup ∧
      (((meshesOfShape env aPath k).map (fun m => m.materialIndex)).Pairwise (fun a b => a < b) ↔
        (env.iterate st.cleared emplaced).Pairwise (fun a b => a < b)) := by
  obtain ⟨st, emplaced, hst, hem, hord⟩ := shape_order hload hk
  exact ⟨st, emplaced, hst, hem, hord, (shape_emits hload hk).1, by rw [hord]⟩

/-- In the run on `pairResult` the descriptors of the shape `second` come in the order
1, 0 in which the set of `stackEnv` is visited. -/
theorem C13_order_of_iteration_witness :
    load_simple_wavefront_obj (stackEnv pairResult) "pair.obj" = .ok pairModel ∧
    1 < pairResult.shapes.length ∧
    ∃ st emplaced, stateAfterShapes (stackEnv pairResult) "pair.obj" 1 = .ok st ∧
      emplaced.map some =
        (List.range (pairResult.shapes[1]).mesh.indices.length).map
          (materialAt (pairResult.shapes[1]).mesh) ∧
      (meshesOfShape (stackEnv pairResult) "pair.obj" 1).map (fun m => m.materialIndex) =
        (stackEnv pairResult).iterate st.cleared emplaced ∧
      ((meshesOfShape (stackEnv pairResult) "pair.obj" 1).map (fun m => m.materialIndex)).Nodup ∧
      (((meshesOfShape (stackEnv pairResult) "pair.obj" 1).map
          (fun m => m.materialIndex)).Pairwise (fun a b => a < b) ↔
        ((stackEnv pairResult).iterate st.cleared emplaced).Pairwise (fun a b => a < b)) :=
  ⟨rfl, by decide,
    C13_order_of_iteration (stackEnv pairResult) "pair.obj" pairModel rfl 1 (by decide)⟩

/-! ## The arrays gathered for a mesh (main.cpp, lines 309-349) -/

theorem length_flat3 (vs : List vec3) : (flat3 vs).length = 3 * vs.length := by
  induction vs with
  | nil => rfl
  | cons v vs ih => simp only [flat3, List.length_cons, ih]; omega

theorem length_flat2 (ts : List vec2) : (flat2 ts).length = 2 * ts.length := by
  induction ts with
  | nil => rfl
  | cons t ts ih => simp only [flat2, List.length_cons, ih]; omega

theorem flat3_append (vs ws : List vec3) : flat3 (vs ++ ws) = flat3 vs ++ flat3 ws := by
  induction vs with
  | nil => rfl
  | cons v vs ih => simp [flat3, ih]

theorem flat2_append (ts us : List vec2) : flat2 (ts ++ us) = flat2 ts ++ flat2 us := by
  induction ts with
  | nil => rfl
  | cons t ts ih => simp [flat2, ih]

theorem getElem?_cons3 {α : Type} (a b c : α) (l : List α) (k : Nat) :
    (a :: b :: c :: l)[k + 3]? = l[k]? := by
  simp

theorem getElem?_cons2 {α : Type} (a b : α) (l : List α) (k : Nat) :
    (a :: b :: l)[k + 2]? = l[k]? := by
  simp

/-- The three floats of vertex `j` in a flat array. -/
theorem flat3_getElem? (vs : List vec3) (j : Nat) (v : vec3) (h : vs[j]? = some v) :
    (flat3 vs)[3 * j]? = some v.x ∧ (flat3 vs)[3 * j + 1]? = some v.y ∧
      (flat3 vs)[3 * j + 2]? = some v.z := by
  induction vs generalizing j with
  | nil => simp at h
  | cons w vs ih =>
    cases j with
    | zero =>
      simp only [List.getElem?_cons_zero, Option.some.injEq] at h
      subst h
      simp [flat3]
    | succ j =>
      simp only [List.getElem?_cons_succ] at h
      obtain ⟨h₀, h₁, h₂⟩ := ih j h
      have e₀ : 3 * (j + 1) = 3 * j + 3 := by ring
      have e₁ : 3 * (j + 1) + 1 = 3 * j + 1 + 3 := by ring
      have e₂ : 3 * (j + 1) + 2 = 3 * j + 2 + 3 := by ring
      simp only [flat3]
      rw [e₁, e₂, e₀, getElem?_cons3, getElem?_cons3, getElem?_cons3]
      exact ⟨h₀, h₁, h₂⟩

/-- The two floats of vertex `j` in a flat array. -/
theorem flat2_getElem? (ts : List vec2) (j : Nat) (t : vec2) (h : ts[j]? = some t) :
    (flat2 ts)[2 * j]? = some t.x ∧ (flat2 ts)[2 * j + 1]? = some t.y := by
  induction ts generalizing j with
  | nil => simp at h
  | cons w ts ih =>
    cases j with
    | zero =>
      simp only [List.getElem?_cons_zero, Option.some.injEq] at h
      subst h
      simp [flat2]
    | succ j =>
      simp only [List.getElem?_cons_succ] at h
      obtain ⟨h₀, h₁⟩ := ih j h
      have e₀ : 2 * (j + 1) = 2 * j + 2 := by ring
      have e₁ : 2 * (j + 1) + 1 = 2 * j + 1 + 2 := by ring
      simp only [flat2]
      rw [e₁, e₀, getElem?_cons2, getElem?_cons2]
      exact ⟨h₀, h₁⟩

theorem take_succ_drop {α : Type} {l : List α} {i : Nat} {x : α} (h : l[i]? = some x) (n : Nat) :
    (l.drop i).take (n + 1) = x :: (l.drop (i + 1)).take n := by
  obtain ⟨hi, hx⟩ := List.getElem?_eq_some_iff.mp h
  rw [List.drop_eq_getElem_cons hi, List.take_succ_cons, hx]

theorem vectorAt_ok {α : Type} {v : List α} {i : Nat} {x : α} :
    vectorAt v i = .ok x ↔ v[i]? = some x := by
  unfold vectorAt
  cases v[i]? <;> simp

theorem vectorAt_error {α : Type} {v : List α} {i : Nat} {e : Thrown}
    (h : vectorAt v i = .error e) : e = .out_of_range ∧ v.length ≤ i := by
  unfold vectorAt at h
  cases hv : v[i]? with
  | some x => rw [hv] at h; cases h
  | none =>
    rw [hv] at h
    cases h
    exact ⟨rfl, List.getElem?_eq_none_iff.mp hv⟩

/-- What the loop of a textured mesh has gathered when it ends well. -/
theorem texturedLoop_ok {meshes : SimpleModel} (n : Nat) {i : Nat} {d d' : TexturedMeshDetails}
    (h : spanLoop (texturedVertex meshes) i n d = .ok d') :
    d'.positions = d.positions ++ flat3 ((meshes.dataTextured.positions.drop i).take n) ∧
    d'.texCoords = d.texCoords ++ flat2 ((meshes.dataTextured.texcoords.drop i).take n) ∧
    ((meshes.dataTextured.positions.drop i).take n).length = n ∧
    ((meshes.dataTextured.texcoords.drop i).take n).length = n ∧
    d'.vertexCount = d.vertexCount := by
  induction n generalizing i d with
  | zero => cases h; simp [flat3, flat2]
  | succ n ih =>
    simp only [spanLoop] at h
    cases hb : texturedVertex meshes i d with
    | error e => rw [hb] at h; cases h
    | ok d₁ =>
      rw [hb] at h
      unfold texturedVertex at hb
      cases hp : vectorAt meshes.dataTextured.positions i with
      | error e => simp [hp] at hb
      | ok p =>
        simp only [hp] at hb
        cases ht : vectorAt meshes.dataTextured.texcoords i with
        | error e => simp [ht] at hb
        | ok t =>
          simp only [ht, Except.ok.injEq] at hb
          subst hb
          obtain ⟨h₁, h₂, h₃, h₄, h₅⟩ := ih h
          rw [take_succ_drop (vectorAt_ok.mp hp), take_succ_drop (vectorAt_ok.mp ht)]
          simp only [List.length_cons, h₃, h₄, flat3, flat2]
          refine ⟨?_, ?_, trivial, trivial, h₅⟩
          · rw [h₁]; simp
          · rw [h₂]; simp

/-- The arrays gathered for a textured mesh are the components of its span. -/
theorem gatherTextured_ok {meshes : SimpleModel} {mesh : SimpleMeshInfo}
    {d : TexturedMeshDetails} (h : gatherTextured meshes mesh = .ok d) :
    d.positions = flat3 (span meshes.dataTextured.positions mesh) ∧
    d.texCoords = flat2 (span meshes.dataTextured.texcoords mesh) ∧
    (span meshes.dataTextured.positions mesh).length = mesh.vertexCount ∧
    (span meshes.dataTextured.texcoords mesh).length = mesh.vertexCount ∧
    d.vertexCount = mesh.vertexCount := by
  unfold gatherTextured at h
  cases hl : spanLoop (texturedVertex meshes) mesh.vertexStartIndex mesh.vertexCount
      { positions := [], texCoords := [], vertexCount := 0 } with
  | error e => rw [hl] at h; cases h
  | ok d₁ =>
    rw [hl] at h
    simp only [Except.ok.injEq] at h
    subst h
    obtain ⟨h₁, h₂, h₃, h₄, -⟩ := texturedLoop_ok _ hl
    exact ⟨by simpa using h₁, by simpa using h₂, h₃, h₄, rfl⟩

theorem texturedLoop_returns {meshes : SimpleModel} (n : Nat) (i : Nat) (d : TexturedMeshDetails)
    (hp : i + n ≤ meshes.dataTextured.positions.length)
    (ht : i + n ≤ meshes.dataTextured.texcoords.length) :
    ∃ d', spanLoop (texturedVertex meshes) i n d = .ok d' := by
  induction n generalizing i d with
  | zero => exact ⟨d, rfl⟩
  | succ n ih =>
    have h₁ : meshes.dataTextured.positions[i]? = some meshes.dataTextured.positions[i] :=
      List.getElem?_eq_getElem (by omega)
    have h₂ : meshes.dataTextured.texcoords[i]? = some meshes.dataTextured.texcoords[i] :=
      List.getElem?_eq_getElem (by omega)
    simp only [spanLoop, texturedVertex, vectorAt_ok.mpr h₁, vectorAt_ok.mpr h₂]
    exact ih (i + 1) _ (by omega) (by omega)

/-- A textured mesh whose span lies inside both arrays of the textured soup can be
gathered. -/
theorem gatherTextured_returns {meshes : SimpleModel} {mesh : SimpleMeshInfo}
    (hp : mesh.vertexStartIndex + mesh.vertexCount ≤ meshes.dataTextured.positions.length)
    (ht : mesh.vertexStartIndex + mesh.vertexCount ≤ meshes.dataTextured.texcoords.length) :
    ∃ d, gatherTextured meshes mesh = .ok d := by
  obtain ⟨d', hd'⟩ := texturedLoop_returns mesh.vertexCount mesh.vertexStartIndex
    { positions := [], texCoords := [], vertexCount := 0 } hp ht
  exact ⟨{ d' with vertexCount := mesh.vertexCount }, by unfold gatherTextured; rw [hd']⟩

/-- What the loop of a coloured mesh has gathered when it ends well. -/
theorem colouredLoop_ok {meshes : SimpleModel} {mesh : SimpleMeshInfo} (n : Nat) {i : Nat}
    {d d' : ColouredMeshDetails} (h : spanLoop (colouredVertex meshes mesh) i n d = .ok d') :
    d'.positions = d.positions ++ flat3 ((meshes.dataUntextured.positions.drop i).take n) ∧
    ((meshes.dataUntextured.positions.drop i).take n).length = n ∧
    d'.vertexCount = d.vertexCount ∧
    ((n = 0 ∧ d'.colours = d.colours) ∨
      ∃ material, meshes.materials[mesh.materialIndex]? = some material ∧
        d'.colours = d.colours ++ flat3 (List.replicate n material.diffuseColor)) := by
  induction n generalizing i d with
  | zero => cases h; simp [flat3]
  | succ n ih =>
    simp only [spanLoop] at h
    cases hb : colouredVertex meshes mesh i d with
    | error e => rw [hb] at h; cases h
    | ok d₁ =>
      rw [hb] at h
      unfold colouredVertex at hb
      cases hp : vectorAt meshes.dataUntextured.positions i with
      | error e => simp [hp] at hb
      | ok p =>
        simp only [hp] at hb
        cases hm : meshes.materials[mesh.materialIndex]? with
        | none => simp [hm] at hb
        | some material =>
          simp only [hm, Except.ok.injEq] at hb
          subst hb
          obtain ⟨h₁, h₂, h₃, h₄⟩ := ih h
          rw [take_succ_drop (vectorAt_ok.mp hp)]
          simp only [List.length_cons, h₂, flat3]
          refine ⟨by rw [h₁]; simp, trivial, h₃, Or.inr ⟨material, rfl, ?_⟩⟩
          rcases h₄ with ⟨hn, hc⟩ | ⟨material', hm', hc⟩
          · subst hn
            rw [hc]
            simp [flat3]
          · have hmm : material' = material := Option.some.inj (hm'.symm.trans hm)
            subst hmm
            rw [hc]
            simp [List.replicate_succ, flat3]

/-- The arrays gathered for a coloured mesh: the components of its span, and the
diffuse colour of its material once for each vertex. -/
theorem gatherColoured_ok {meshes : SimpleModel} {mesh : SimpleMeshInfo}
    {d : ColouredMeshDetails} (h : gatherColoured meshes mesh = .ok d) :
    d.positions = flat3 (span meshes.dataUntextured.positions mesh) ∧
    (span meshes.dataUntextured.positions mesh).length = mesh.vertexCount ∧
    d.vertexCount = mesh.vertexCount ∧
    ((mesh.vertexCount = 0 ∧ d.colours = []) ∨
      ∃ material, meshes.materials[mesh.materialIndex]? = some material ∧
        d.colours = flat3 (List.replicate mesh.vertexCount material.diffuseColor)) := by
  unfold gatherColoured at h
  cases hl : spanLoop (colouredVertex meshes mesh) mesh.vertexStartIndex mesh.vertexCount
      { positions := [], colours := [], vertexCount := 0 } with
  | error e => rw [hl] at h; cases h
  | ok d₁ =>
    rw [hl] at h
    simp only [Except.ok.injEq] at h
    subst h
    obtain ⟨h₁, h₂, -, h₄⟩ := colouredLoop_ok _ hl
    exact ⟨by simpa using h₁, h₂, rfl, by simpa using h₄⟩

theorem colouredLoop_returns {meshes : SimpleModel} {mesh : SimpleMeshInfo} (n : Nat) (i : Nat)
    (d : ColouredMeshDetails) (hp : i + n ≤ meshes.dataUntextured.positions.length)
    {material : SimpleMaterialInfo} (hm : meshes.materials[mesh.materialIndex]? = some material) :
    ∃ d', spanLoop (colouredVertex meshes mesh) i n d = .ok d' := by
  induction n generalizing i d with
  | zero => exact ⟨d, rfl⟩
  | succ n ih =>
    have h₁ : meshes.dataUntextured.positions[i]? = some meshes.dataUntextured.positions[i] :=
      List.getElem?_eq_getElem (by omega)
    simp only [spanLoop, colouredVertex, vectorAt_ok.mpr h₁, hm]
    exact ih (i + 1) _ (by omega)

/-- A coloured mesh whose span lies inside the untextured soup and whose material
exists can be gathered. -/
theorem gatherColoured_returns {meshes : SimpleModel} {mesh : SimpleMeshInfo}
    (hp : mesh.vertexStartIndex + mesh.vertexCount ≤ meshes.dataUntextured.positions.length)
    {material : SimpleMaterialInfo} (hm : meshes.materials[mesh.materialIndex]? = some material) :
    ∃ d, gatherColoured meshes mesh = .ok d := by
  obtain ⟨d', hd'⟩ := @colouredLoop_returns meshes mesh mesh.vertexCount mesh.vertexStartIndex
    { positions := [], colours := [], vertexCount := 0 } hp _ hm
  exact ⟨{ d' with vertexCount := mesh.vertexCount }, by unfold gatherColoured; rw [hd']⟩

/-! ## The backend and the loop over the meshes (main.cpp, lines 302-355, 1579-1843) -/

theorem create_textured_mesh_ok {dev : Device} {n : Nat} {d : TexturedMeshDetails}
    {r : TexturedMesh}
    (h : create_textured_mesh dev n d.positions d.texCoords d.vertexCount = .ok r) :
    r = texturedRecord d := by
  unfold create_textured_mesh at h
  simp only [lutError] at h
  repeat' split at h
  all_goals first | (cases h; rfl) | cases h

theorem create_coloured_mesh_ok {dev : Device} {n : Nat} {d : ColouredMeshDetails}
    {r : ColorizedMesh}
    (h : create_coloured_mesh dev n d.positions d.colours d.vertexCount = .ok r) :
    r = colouredRecord d := by
  unfold create_coloured_mesh at h
  simp only [lutError] at h
  repeat' split at h
  all_goals first | (cases h; rfl) | cases h

/-- The body of the loop for a textured mesh, when no exception leaves it. -/
theorem materializeMesh_textured_ok {dev : Device} {meshes : SimpleModel}
    {run run' : Materialization} {mesh : SimpleMeshInfo} (ht : mesh.textured = true)
    (h : materializeMesh dev meshes run mesh = (run', none)) :
    ∃ d material, gatherTextured meshes mesh = .ok d ∧
      meshes.materials[mesh.materialIndex]? = some material ∧
      callFor meshes mesh = .ok (.textured d) ∧
      backendFailure dev run.calls.length (.textured d) = none ∧
      run' = { colouredMeshes := run.colouredMeshes
               meshMaterial := run.meshMaterial ++ [material.diffuseTexturePath]
               texturedMeshes := run.texturedMeshes ++ [texturedRecord d]
               calls := run.calls ++ [.textured d] } := by
  unfold materializeMesh at h
  rw [if_pos ht] at h
  cases hg : gatherTextured meshes mesh with
  | error e => rw [hg] at h; cases h
  | ok d =>
    rw [hg] at h
    cases hm : meshes.materials[mesh.materialIndex]? with
    | none => rw [hm] at h; cases h
    | some material =>
      rw [hm] at h
      simp only [] at h
      cases hc : create_textured_mesh dev run.calls.length d.positions d.texCoords d.vertexCount with
      | error e => rw [hc] at h; cases h
      | ok r =>
        rw [hc] at h
        simp only [Prod.mk.injEq, and_true] at h
        refine ⟨d, material, rfl, rfl, by simp [callFor, ht, hg, hm], by simp [backendFailure, hc], ?_⟩
        rw [← h, create_textured_mesh_ok hc]

/-- The body of the loop for a coloured mesh, when no exception leaves it. -/
theorem materializeMesh_coloured_ok {dev : Device} {meshes : SimpleModel}
    {run run' : Materialization} {mesh : SimpleMeshInfo} (ht : mesh.textured = false)
    (h : materializeMesh dev meshes run mesh = (run', none)) :
    ∃ d, gatherColoured meshes mesh = .ok d ∧
      callFor meshes mesh = .ok (.coloured d) ∧
      backendFailure dev run.calls.length (.coloured d) = none ∧
      run' = { colouredMeshes := run.colouredMeshes ++ [colouredRecord d]
               meshMaterial := run.meshMaterial
               texturedMeshes := run.texturedMeshes
               calls := run.calls ++ [.coloured d] } := by
  unfold materializeMesh at h
  rw [if_neg (by simp [ht])] at h
  cases hg : gatherColoured meshes mesh with
  | error e => rw [hg] at h; cases h
  | ok d =>
    rw [hg] at h
    simp only [] at h
    cases hc : create_coloured_mesh dev run.calls.length d.positions d.colours d.vertexCount with
    | error e => rw [hc] at h; cases h
    | ok r =>
      rw [hc] at h
      simp only [Prod.mk.injEq, and_true] at h
      refine ⟨d, rfl, by simp [callFor, ht, hg], by simp [backendFailure, hc], ?_⟩
      rw [← h, create_coloured_mesh_ok hc]

/-- The body of the loop, when no exception leaves it: one call, which the backend
answered with a record. -/
theorem materializeMesh_ok {dev : Device} {meshes : SimpleModel}
    {run run' : Materialization} {mesh : SimpleMeshInfo}
    (h : materializeMesh dev meshes run mesh = (run', none)) :
    ∃ call, callFor meshes mesh = .ok call ∧ backendFailure dev run.calls.length call = none ∧
      run'.calls = run.calls ++ [call] := by
  cases ht : mesh.textured
  · obtain ⟨d, -, hc, hb, rfl⟩ := materializeMesh_coloured_ok ht h
    exact ⟨_, hc, hb, rfl⟩
  · obtain ⟨d, material, -, -, hc, hb, rfl⟩ := materializeMesh_textured_ok ht h
    exact ⟨_, hc, hb, rfl⟩

/-- The body of the loop, when an exception leaves it: either it comes before the call
of the backend and nothing has changed, or the backend was called once and the
exception is the one of the backend. -/
theorem materializeMesh_error {dev : Device} {meshes : SimpleModel}
    {run run' : Materialization} {mesh : SimpleMeshInfo} {e : Thrown}
    (h : materializeMesh dev meshes run mesh = (run', some e)) :
    (callFor meshes mesh = .error e ∧ run' = run) ∨
    ∃ call, callFor meshes mesh = .ok call ∧ backendFailure dev run.calls.length call = some e ∧
      run'.calls = run.calls ++ [call] ∧ run'.texturedMeshes = run.texturedMeshes ∧
      run'.colouredMeshes = run.colouredMeshes := by
  unfold materializeMesh at h
  cases ht : mesh.textured
  · rw [if_neg (by simp [ht])] at h
    cases hg : gatherColoured meshes mesh with
    | error e' =>
      rw [hg] at h
      simp only [Prod.mk.injEq, Option.some.injEq] at h
      obtain ⟨rfl, rfl⟩ := h
      exact Or.inl ⟨by simp [callFor, ht, hg], rfl⟩
    | ok d =>
      rw [hg] at h
      simp only [] at h
      cases hc : create_coloured_mesh dev run.calls.length d.positions d.colours d.vertexCount with
      | ok r => rw [hc] at h; cases h
      | error e' =>
        rw [hc] at h
        simp only [Prod.mk.injEq, Option.some.injEq] at h
        obtain ⟨rfl, rfl⟩ := h
        exact Or.inr ⟨_, by simp [callFor, ht, hg], by simp [backendFailure, hc], rfl, rfl, rfl⟩
  · rw [if_pos ht] at h
    cases hg : gatherTextured meshes mesh with
    | error e' =>
      rw [hg] at h
      simp only [Prod.mk.injEq, Option.some.injEq] at h
      obtain ⟨rfl, rfl⟩ := h
      exact Or.inl ⟨by simp [callFor, ht, hg], rfl⟩
    | ok d =>
      rw [hg] at h
      cases hm : meshes.materials[mesh.materialIndex]? with
      | none =>
        rw [hm] at h
        simp only [Prod.mk.injEq, Option.some.injEq] at h
        obtain ⟨rfl, rfl⟩ := h
        exact Or.inl ⟨by simp [callFor, ht, hg, hm], rfl⟩
      | some material =>
        rw [hm] at h
        simp only [] at h
        cases hc : create_textured_mesh dev run.calls.length d.positions d.texCoords
            d.vertexCount with
        | ok r => rw [hc] at h; cases h
        | error e' =>
          rw [hc] at h
          simp only [Prod.mk.injEq, Option.some.injEq] at h
          obtain ⟨rfl, rfl⟩ := h
          exact Or.inr ⟨_, by simp [callFor, ht, hg, hm], by simp [backendFailure, hc], rfl, rfl,
            rfl⟩

/-- The loop over the meshes, when no exception leaves it: one call for each mesh, in
order, each answered with a record; the records of the textured meshes and their
texture paths, and the records of the coloured meshes, each in the order of the
meshes. -/
theorem materializeLoop_ok {dev : Device} {meshes : SimpleModel} (ms : List SimpleMeshInfo)
    {run run' : Materialization} (h : materializeLoop dev meshes ms run = (run', none)) :
    ∃ cs ts cl ps,
      run'.calls = run.calls ++ cs ∧ run'.texturedMeshes = run.texturedMeshes ++ ts ∧
      run'.colouredMeshes = run.colouredMeshes ++ cl ∧
      run'.meshMaterial = run.meshMaterial ++ ps ∧
      List.Forall₂ (fun mesh call => callFor meshes mesh = .ok call) ms cs ∧
      List.Forall₂ (TexturedRecordOf meshes) (ms.filter fun m => m.textured) ts ∧
      List.Forall₂ (ColouredRecordOf meshes) (ms.filter fun m => !m.textured) cl ∧
      List.Forall₂ (TexturePathOf meshes) (ms.filter fun m => m.textured) ps ∧
      ∀ (j : Nat) (call : BackendCall), cs[j]? = some call →
        backendFailure dev (run.calls.length + j) call = none := by
  induction ms generalizing run with
  | nil =>
    simp only [materializeLoop, Prod.mk.injEq, and_true] at h
    subst h
    exact ⟨[], [], [], [], by simp, by simp, by simp, by simp, List.Forall₂.nil,
      List.Forall₂.nil, List.Forall₂.nil, List.Forall₂.nil, by simp⟩
  | cons mesh ms ih =>
    simp only [materializeLoop] at h
    cases hb : materializeMesh dev meshes run mesh with
    | mk r exc =>
      rw [hb] at h
      cases exc with
      | some e => cases h
      | none =>
        simp only [] at h
        obtain ⟨cs, ts, cl, ps, h₁, h₂, h₃, h₄, hc, ht, hl, hp, hf⟩ := ih h
        cases htx : mesh.textured
        · obtain ⟨d, hg, hcall, hback, rfl⟩ := materializeMesh_coloured_ok htx hb
          refine ⟨.coloured d :: cs, ts, colouredRecord d :: cl, ps, by simpa using h₁, h₂,
            by simpa using h₃, h₄, List.Forall₂.cons hcall hc, by simpa [htx] using ht,
            by simpa [htx] using List.Forall₂.cons ⟨d, hg, rfl⟩ hl, by simpa [htx] using hp, ?_⟩
          intro j call hj
          cases j with
          | zero =>
            simp only [List.getElem?_cons_zero, Option.some.injEq] at hj
            subst hj
            exact hback
          | succ j =>
            have := hf j call (by simpa using hj)
            simp only [List.length_append, List.length_singleton] at this
            rw [show run.calls.length + (j + 1) = run.calls.length + 1 + j by omega]
            exact this
        · obtain ⟨d, material, hg, hm, hcall, hback, rfl⟩ := materializeMesh_textured_ok htx hb
          refine ⟨.textured d :: cs, texturedRecord d :: ts, cl, material.diffuseTexturePath :: ps,
            by simpa using h₁, by simpa using h₂, h₃, by simpa using h₄,
            List.Forall₂.cons hcall hc, by simpa [htx] using List.Forall₂.cons ⟨d, hg, rfl⟩ ht,
            by simpa [htx] using hl, by simpa [htx] using List.Forall₂.cons ⟨material, hm, rfl⟩ hp,
            ?_⟩
          intro j call hj
          cases j with
          | zero =>
            simp only [List.getElem?_cons_zero, Option.some.injEq] at hj
            subst hj
            exact hback
          | succ j =>
            have := hf j call (by simpa using hj)
            simp only [List.length_append, List.length_singleton] at this
            rw [show run.calls.length + (j + 1) = run.calls.length + 1 + j by omega]
            exact this

/-- The calls of the backend made by the loop over the meshes, however it is left: call
`j` is the one of mesh `j`; when no exception leaves the loop every mesh has its call
and every call was answered with a record; when an exception leaves it, either it
comes from the body of the mesh after the last call and every call was answered with
a record, or it is the answer of the backend to the last call. -/
theorem materializeLoop_calls {dev : Device} {meshes : SimpleModel} (ms : List SimpleMeshInfo)
    (run : Materialization) :
    ∃ cs, (materializeLoop dev meshes ms run).1.calls = run.calls ++ cs ∧
      (∀ (j : Nat) (call : BackendCall), cs[j]? = some call →
        ∃ mesh, ms[j]? = some mesh ∧ callFor meshes mesh = .ok call) ∧
      (((materializeLoop dev meshes ms run).2 = none ∧ cs.length = ms.length ∧
          ∀ (j : Nat) (call : BackendCall), cs[j]? = some call →
            backendFailure dev (run.calls.length + j) call = none) ∨
        (∃ e mesh, (materializeLoop dev meshes ms run).2 = some e ∧
          ms[cs.length]? = some mesh ∧ callFor meshes mesh = .error e ∧
          ∀ (j : Nat) (call : BackendCall), cs[j]? = some call →
            backendFailure dev (run.calls.length + j) call = none) ∨
        (∃ e cs' call, (materializeLoop dev meshes ms run).2 = some e ∧ cs = cs' ++ [call] ∧
          backendFailure dev (run.calls.length + cs'.length) call = some e ∧
          ∀ (j : Nat) (c : BackendCall), cs'[j]? = some c →
            backendFailure dev (run.calls.length + j) c = none)) := by
  induction ms generalizing run with
  | nil => exact ⟨[], by simp [materializeLoop], by simp, Or.inl ⟨rfl, rfl, by simp⟩⟩
  | cons mesh ms ih =>
    simp only [materializeLoop]
    cases hb : materializeMesh dev meshes run mesh with
    | mk r exc =>
      cases exc with
      | some e =>
        simp only []
        rcases materializeMesh_error hb with ⟨hc, rfl⟩ | ⟨call, hc, hf, hcalls, -, -⟩
        · exact ⟨[], by simp, by simp, Or.inr (Or.inl ⟨e, mesh, rfl, by simp, hc, by simp⟩)⟩
        · refine ⟨[call], hcalls, ?_, Or.inr (Or.inr ⟨e, [], call, rfl, rfl, by simpa using hf,
            by simp⟩)⟩
          intro j c hj
          cases j with
          | zero =>
            simp only [List.getElem?_cons_zero, Option.some.injEq] at hj
            subst hj
            exact ⟨mesh, by simp, hc⟩
          | succ j => simp at hj
      | none =>
        simp only []
        obtain ⟨call, hc, hf, hcalls⟩ := materializeMesh_ok hb
        obtain ⟨cs, h₁, h₂, h₃⟩ := ih r
        have hlen : r.calls.length = run.calls.length + 1 := by simp [hcalls]
        have shift : ∀ (l : List BackendCall),
            (∀ (j : Nat) (c : BackendCall), l[j]? = some c →
              backendFailure dev (r.calls.length + j) c = none) →
            ∀ (j : Nat) (c : BackendCall), (call :: l)[j]? = some c →
              backendFailure dev (run.calls.length + j) c = none := by
          intro l hl j c hj
          cases j with
          | zero =>
            simp only [List.getElem?_cons_zero, Option.some.injEq] at hj
            subst hj
            exact hf
          | succ j =>
            have := hl j c (by simpa using hj)
            rw [hlen] at this
            rw [show run.calls.length + (j + 1) = run.calls.length + 1 + j by omega]
            exact this
        refine ⟨call :: cs, by rw [h₁, hcalls]; simp, ?_, ?_⟩
        · intro j c hj
          cases j with
          | zero =>
            simp only [List.getElem?_cons_zero, Option.some.injEq] at hj
            subst hj
            exact ⟨mesh, by simp, hc⟩
          | succ j =>
            obtain ⟨m, hm, hcm⟩ := h₂ j c (by simpa using hj)
            exact ⟨m, by simpa using hm, hcm⟩
        · rcases h₃ with ⟨hn, hl, hall⟩ | ⟨e, m, he, hm, hcm, hall⟩ | ⟨e, cs', c, he, hcs, hfc, hall⟩
          · exact Or.inl ⟨hn, by simp [hl], shift cs hall⟩
          · exact Or.inr (Or.inl ⟨e, m, he, by simpa using hm, hcm, shift cs hall⟩)
          · refine Or.inr (Or.inr ⟨e, call :: cs', c, he, by simp [hcs], ?_, shift cs' hall⟩)
            rw [hlen] at hfc
            rw [show run.calls.length + (call :: cs').length = run.calls.length + 1 + cs'.length by
              simp; omega]
            exact hfc

theorem materialize_ok {dev : Device} {meshes : SimpleModel} {out : Materialization}
    (h : materialize dev meshes = .ok out) : materializeRun dev meshes = (out, none) := by
  unfold materialize at h
  cases hr : materializeRun dev meshes with
  | mk run exc =>
    rw [hr] at h
    cases exc with
    | none => simp only [Except.ok.injEq] at h; rw [h]
    | some e => cases h

theorem length_filter_add {α : Type} (p : α → Bool) (l : List α) :
    (l.filter fun a => !p a).length + (l.filter p).length = l.length := by
  induction l with
  | nil => rfl
  | cons a l ih =>
    cases hp : p a <;> simp [List.filter_cons, hp] <;> omega

/-- The call made for the mesh at position `k` is the one of that mesh. -/
theorem call_of_mesh {dev : Device} {meshes : SimpleModel} {k : Nat} {call : BackendCall}
    (h : (materializeRun dev meshes).1.calls[k]? = some call) :
    ∃ mesh, meshes.meshes[k]? = some mesh ∧ callFor meshes mesh = .ok call := by
  obtain ⟨cs, hcs, hmesh, -⟩ := @materializeLoop_calls dev meshes
    meshes.meshes { colouredMeshes := [], meshMaterial := [], texturedMeshes := [], calls := [] }
  have hcs' : (materializeRun dev meshes).1.calls = cs := by
    unfold materializeRun; rw [hcs]; rfl
  rw [hcs'] at h
  exact hmesh k call h

/-- When the backend answers the call of position `k` with an exception, that
exception leaves the loop, and the call is the last one made. -/
theorem materializeRun_failure {dev : Device} {meshes : SimpleModel} {k : Nat}
    {call : BackendCall} {e : Thrown}
    (hcall : (materializeRun dev meshes).1.calls[k]? = some call)
    (hfail : backendFailure dev k call = some e) :
    (materializeRun dev meshes).2 = some e ∧ (materializeRun dev meshes).1.calls.length = k + 1 := by
  obtain ⟨cs, hcs, -, hout⟩ := @materializeLoop_calls dev meshes
    meshes.meshes { colouredMeshes := [], meshMaterial := [], texturedMeshes := [], calls := [] }
  have hcs' : (materializeRun dev meshes).1.calls = cs := by
    unfold materializeRun; rw [hcs]; rfl
  rw [hcs'] at hcall ⊢
  simp only [List.length_nil, Nat.zero_add] at hout
  rcases hout with ⟨-, -, hall⟩ | ⟨e', m, -, -, -, hall⟩ | ⟨e', cs', c, he, rfl, hfc, hall⟩
  · rw [hall k call hcall] at hfail; cases hfail
  · rw [hall k call hcall] at hfail; cases hfail
  · have hk : k < (cs' ++ [c]).length := (List.getElem?_eq_some_iff.mp hcall).1
    simp only [List.length_append, List.length_singleton] at hk
    by_cases hlt : k < cs'.length
    · rw [List.getElem?_append_left hlt] at hcall
      rw [hall k call hcall] at hfail; cases hfail
    · have hk' : k = cs'.length := by omega
      subst hk'
      rw [List.getElem?_append_right (Nat.le_refl _)] at hcall
      simp only [Nat.sub_self, List.getElem?_cons_zero, Option.some.injEq] at hcall
      subst hcall
      rw [hfc] at hfail
      cases hfail
      exact ⟨he, by simp⟩

theorem materialize_error {dev : Device} {meshes : SimpleModel} {e : Thrown}
    (h : (materializeRun dev meshes).2 = some e) : materialize dev meshes = .error e := by
  unfold materialize
  cases hr : materializeRun dev meshes with
  | mk run exc =>
    rw [hr] at h
    simp only at h
    subst h
    rfl

theorem loadTexturesFrom_ok {dev : Device} {run : Materialization} (count : Nat) {i : Nat}
    {loaded loaded' : List Image × List String}
    (h : loadTexturesFrom dev run i count loaded = (loaded', none)) :
    loaded'.2 = loaded.2 ++ (run.meshMaterial.drop i).take count ∧
    ((run.meshMaterial.drop i).take count).length = count ∧
    loaded'.1.length = loaded.1.length + count := by
  induction count generalizing i loaded with
  | zero =>
    simp only [loadTexturesFrom, Prod.mk.injEq, and_true] at h
    subst h
    simp
  | succ count ih =>
    simp only [loadTexturesFrom] at h
    cases hp : run.meshMaterial[i]? with
    | none => rw [hp] at h; cases h
    | some path =>
      rw [hp] at h
      simp only [] at h
      cases hl : dev.load_image_texture2d loaded.2.length path with
      | error message => rw [hl] at h; cases h
      | ok image =>
        rw [hl] at h
        obtain ⟨h₁, h₂, h₃⟩ := ih h
        rw [take_succ_drop hp]
        have h₃' : loaded'.1.length = loaded.1.length + 1 + count := by
          simpa using h₃
        refine ⟨by rw [h₁]; simp, by simp [h₂], by omega⟩

/-! ## Properties of the materialization -/

/-- C14 (materializer routing).  When the loop over the meshes ends without an
exception, the backend was called exactly once for each mesh descriptor, in model
order, with the arrays gathered for it; `texturedMeshes` holds the records of the
descriptors with `textured == true` and `colouredMeshes` those of the descriptors
with `textured == false`, each in the order of the descriptors; hence the lengths of
the two add up to the number of meshes. -/
theorem C14_materializer_routing (dev : Device) (model : SimpleModel) (out : Materialization)
    (h : materialize dev model = .ok out) :
    List.Forall₂ (fun mesh call => callFor model mesh = .ok call) model.meshes out.calls ∧
    out.calls.length = model.meshes.length ∧
    List.Forall₂ (TexturedRecordOf model) (model.meshes.filter fun m => m.textured)
      out.texturedMeshes ∧
    List.Forall₂ (ColouredRecordOf model) (model.meshes.filter fun m => !m.textured)
      out.colouredMeshes ∧
    out.colouredMeshes.length + out.texturedMeshes.length = model.meshes.length := by
  obtain ⟨cs, ts, cl, ps, h₁, h₂, h₃, -, hc, ht, hl, -, -⟩ :=
    materializeLoop_ok model.meshes (materialize_ok h)
  simp only [List.nil_append] at h₁ h₂ h₃
  rw [h₁, h₂, h₃]
  refine ⟨hc, hc.length_eq.symm, ht, hl, ?_⟩
  rw [← hl.length_eq, ← ht.length_eq]
  exact length_filter_add (fun m => m.textured) model.meshes

/-- The materialization of `pairModel` on `okDevice`: three calls, two coloured
records and one textured record. -/
theorem C14_materializer_routing_witness :
    materialize okDevice pairModel = .ok pairOut ∧
    List.Forall₂ (fun mesh call => callFor pairModel mesh = .ok call) pairModel.meshes
      pairOut.calls ∧
    pairOut.calls.length = pairModel.meshes.length ∧
    List.Forall₂ (TexturedRecordOf pairModel) (pairModel.meshes.filter fun m => m.textured)
      pairOut.texturedMeshes ∧
    List.Forall₂ (ColouredRecordOf pairModel) (pairModel.meshes.filter fun m => !m.textured)
      pairOut.colouredMeshes ∧
    pairOut.colouredMeshes.length + pairOut.texturedMeshes.length = pairModel.meshes.length :=
  ⟨rfl, C14_materializer_routing okDevice pairModel pairOut rfl⟩

/-- C15 (texture paths parallel to the textured meshes, without deduplication).  When
the loop over the meshes ends without an exception, `meshMaterial` has the length of
`texturedMeshes`, its `i`-th entry is the `diffuseTexturePath` of the material of the
`i`-th textured mesh descriptor, in model order, so that two textured descriptors
with one material give two equal entries; and when the loop over the textures ends
without an exception, one image was loaded for each entry, with the entries passed to
`lut::load_image_texture2d` in their order. -/
theorem C15_texture_paths (dev : Device) (model : SimpleModel) (out : Materialization)
    (h : materialize dev model = .ok out) :
    out.meshMaterial.length = out.texturedMeshes.length ∧
    List.Forall₂ (TexturePathOf model) (model.meshes.filter fun m => m.textured)
      out.meshMaterial ∧
    (∀ (i j : Nat) (mi mj : SimpleMeshInfo),
      (model.meshes.filter fun m => m.textured)[i]? = some mi →
      (model.meshes.filter fun m => m.textured)[j]? = some mj →
      mi.materialIndex = mj.materialIndex →
      ∃ path, out.meshMaterial[i]? = some path ∧ out.meshMaterial[j]? = some path) ∧
    ∀ (images : List Image) (paths : List String),
      loadTextures dev out = ((images, paths), none) →
      paths = out.meshMaterial ∧ images.length = out.meshMaterial.length := by
  obtain ⟨cs, ts, cl, ps, -, h₂, -, h₄, -, ht, -, hp, -⟩ :=
    materializeLoop_ok model.meshes (materialize_ok h)
  simp only [List.nil_append] at h₂ h₄
  rw [h₂, h₄]
  have hlen : ps.length = ts.length := by rw [← hp.length_eq, ← ht.length_eq]
  refine ⟨hlen, hp, ?_, ?_⟩
  · intro i j mi mj hi hj hsame
    have hi' := (List.getElem?_eq_some_iff.mp hi).1
    have hj' := (List.getElem?_eq_some_iff.mp hj).1
    have hpi : i < ps.length := by rw [← hp.length_eq]; exact hi'
    have hpj : j < ps.length := by rw [← hp.length_eq]; exact hj'
    obtain ⟨m₁, hm₁, e₁⟩ := hp.get hi' hpi
    obtain ⟨m₂, hm₂, e₂⟩ := hp.get hj' hpj
    have ei : (model.meshes.filter fun m => m.textured).get ⟨i, hi'⟩ = mi := by
      simpa using (List.getElem?_eq_some_iff.mp hi).2
    have ej : (model.meshes.filter fun m => m.textured).get ⟨j, hj'⟩ = mj := by
      simpa using (List.getElem?_eq_some_iff.mp hj).2
    rw [ei] at hm₁
    rw [ej, ← hsame, hm₁] at hm₂
    have hmm : m₁ = m₂ := Option.some.inj hm₂
    simp only [List.get_eq_getElem] at e₁ e₂
    refine ⟨ps[i], List.getElem?_eq_getElem hpi, ?_⟩
    rw [List.getElem?_eq_getElem hpj, e₁, e₂, hmm]
  · intro images paths hload
    unfold loadTextures at hload
    obtain ⟨e₁, -, e₃⟩ := loadTexturesFrom_ok _ hload
    simp only [List.nil_append, List.drop_zero, List.length_nil, Nat.zero_add] at e₁ e₃
    rw [h₂, h₄, ← hlen, List.take_length] at e₁
    exact ⟨e₁, by rw [e₃, h₂, hlen]⟩

/-- The materialization of `pairModel` on `okDevice` has one texture path, that of the
material of its one textured mesh, and one image is loaded for it. -/
theorem C15_texture_paths_witness :
    materialize okDevice pairModel = .ok pairOut ∧
    pairOut.meshMaterial.length = pairOut.texturedMeshes.length ∧
    List.Forall₂ (TexturePathOf pairModel) (pairModel.meshes.filter fun m => m.textured)
      pairOut.meshMaterial ∧
    loadTextures okDevice pairOut = (([⟨0⟩], ["brick.png"]), none) ∧
    ["brick.png"] = pairOut.meshMaterial ∧
    [(⟨0⟩ : Image)].length = pairOut.meshMaterial.length :=
  ⟨rfl, (C15_texture_paths okDevice pairModel pairOut rfl).1,
    (C15_texture_paths okDevice pairModel pairOut rfl).2.1, rfl,
    (C15_texture_paths okDevice pairModel pairOut rfl).2.2.2 [⟨0⟩] ["brick.png"] rfl⟩

/-- C16 (broadcast colour).  Let `m` be the untextured mesh descriptor at position `k`
of the model, with `vertexCount` `N`, and let the loop make its call of
`create_coloured_mesh` for it.  The colour array handed over has exactly `3 * N`
floats, and for every vertex `j < N` its entries `3 * j`, `3 * j + 1` and `3 * j + 2`
are the components `r`, `g` and `b` of `materials[m.materialIndex].diffuseColor`. -/
theorem C16_broadcast_colour (dev : Device) (model : SimpleModel) (k : Nat)
    (m : SimpleMeshInfo) (d : ColouredMeshDetails)
    (hm : model.meshes[k]? = some m) (hu : m.textured = false)
    (hcall : (materializeRun dev model).1.calls[k]? = some (.coloured d)) :
    d.colours.length = 3 * m.vertexCount ∧
    ∀ j, j < m.vertexCount →
      ∃ material, model.materials[m.materialIndex]? = some material ∧
        d.colours[3 * j]? = some material.diffuseColor.x ∧
        d.colours[3 * j + 1]? = some material.diffuseColor.y ∧
        d.colours[3 * j + 2]? = some material.diffuseColor.z := by
  obtain ⟨mesh, hmesh, hc⟩ := call_of_mesh hcall
  rw [hm] at hmesh
  cases hmesh
  unfold callFor at hc
  rw [if_neg (by simp [hu])] at hc
  cases hg : gatherColoured model m with
  | error e => rw [hg] at hc; cases hc
  | ok d' =>
    rw [hg] at hc
    simp only [Except.ok.injEq, BackendCall.coloured.injEq] at hc
    subst hc
    obtain ⟨-, -, -, hcol⟩ := gatherColoured_ok hg
    rcases hcol with ⟨h0, hnil⟩ | ⟨material, hmat, hcol⟩
    · rw [hnil, h0]
      exact ⟨rfl, fun j hj => absurd hj (Nat.not_lt_zero j)⟩
    · rw [hcol, length_flat3, List.length_replicate]
      refine ⟨rfl, fun j hj => ⟨material, hmat, ?_⟩⟩
      exact flat3_getElem? _ j _ (by simp [List.getElem?_replicate, hj])

/-- The first mesh of `pairModel` is untextured with three vertices and the colour
(1, 2, 3): nine floats are handed over, and those of the last vertex are 1, 2, 3. -/
theorem C16_broadcast_colour_witness :
    pairModel.meshes[0]? = some ⟨"first", 0, false, 0, 3⟩ ∧
    (materializeRun okDevice pairModel).1.calls[0]? =
      some (.coloured ⟨floats [0, 1, 2, 3, 4, 5, 6, 7, 8], floats [1, 2, 3, 1, 2, 3, 1, 2, 3], 3⟩) ∧
    (floats [1, 2, 3, 1, 2, 3, 1, 2, 3]).length = 3 * 3 ∧
    ∃ material, pairModel.materials[0]? = some material ∧
      (floats [1, 2, 3, 1, 2, 3, 1, 2, 3])[3 * 2]? = some material.diffuseColor.x ∧
      (floats [1, 2, 3, 1, 2, 3, 1, 2, 3])[3 * 2 + 1]? = some material.diffuseColor.y ∧
      (floats [1, 2, 3, 1, 2, 3, 1, 2, 3])[3 * 2 + 2]? = some material.diffuseColor.z :=
  ⟨rfl, rfl,
    (C16_broadcast_colour okDevice pairModel 0 ⟨"first", 0, false, 0, 3⟩
      ⟨floats [0, 1, 2, 3, 4, 5, 6, 7, 8], floats [1, 2, 3, 1, 2, 3, 1, 2, 3], 3⟩ rfl rfl rfl).1,
    (C16_broadcast_colour okDevice pairModel 0 ⟨"first", 0, false, 0, 3⟩
      ⟨floats [0, 1, 2, 3, 4, 5, 6, 7, 8], floats [1, 2, 3, 1, 2, 3, 1, 2, 3], 3⟩ rfl rfl rfl).2 2
      (by decide)⟩

/-- C17 (attribute gather layout).  Let `m` be a mesh descriptor with start `S` and
count `N`.  In every call that the body of the loop makes for `m`, the count handed to
the backend is `N`, the flat position array has exactly `3 * N` floats with the entries
`3 * j`, `3 * j + 1`, `3 * j + 2` equal to the `x`, `y`, `z` of the position `S + j` of
the soup of `m`, and for a textured `m` the flat texcoord array has exactly `2 * N`
floats with the entries `2 * j`, `2 * j + 1` equal to the `x`, `y` of the texcoord
`S + j` of the textured soup.  The call made for the mesh at a position of the model is
such a call, and the body does make the call when the span of `m` lies inside its soup
and its material exists. -/
theorem C17_gather_layout (model : SimpleModel) (m : SimpleMeshInfo) :
    (∀ call, callFor model m = .ok call →
      call.vertexCount = m.vertexCount ∧
      call.positions.length = 3 * m.vertexCount ∧
      (∀ j, j < m.vertexCount → ∃ v,
        (opos m.textured model)[m.vertexStartIndex + j]? = some v ∧
        call.positions[3 * j]? = some v.x ∧ call.positions[3 * j + 1]? = some v.y ∧
        call.positions[3 * j + 2]? = some v.z) ∧
      (m.textured = true → ∃ d, call = .textured d ∧
        d.texCoords.length = 2 * m.vertexCount ∧
        ∀ j, j < m.vertexCount → ∃ t,
          model.dataTextured.texcoords[m.vertexStartIndex + j]? = some t ∧
          d.texCoords[2 * j]? = some t.x ∧ d.texCoords[2 * j + 1]? = some t.y)) ∧
    (∀ (dev : Device) (k : Nat) (call : BackendCall), model.meshes[k]? = some m →
      (materializeRun dev model).1.calls[k]? = some call → callFor model m = .ok call) ∧
    (m.vertexStartIndex + m.vertexCount ≤ (opos m.textured model).length →
      (m.textured = true →
        m.vertexStartIndex + m.vertexCount ≤ model.dataTextured.texcoords.length) →
      m.materialIndex < model.materials.length →
      ∃ call, callFor model m = .ok call) := by
  have elem : ∀ {α : Type} (soup : List α) (j : Nat), j < m.vertexCount →
      (span soup m).length = m.vertexCount →
      ∃ x, soup[m.vertexStartIndex + j]? = some x ∧ (span soup m)[j]? = some x := by
    intro α soup j hj hlen
    have hs := span_getElem? soup m hj
    have hx : (span soup m)[j]? = some (span soup m)[j] :=
      List.getElem?_eq_getElem (by rw [hlen]; exact hj)
    exact ⟨_, by rw [← hs]; exact hx, hx⟩
  refine ⟨?_, ?_, ?_⟩
  · intro call hc
    unfold callFor at hc
    cases htx : m.textured
    · rw [if_neg (by simp [htx])] at hc
      cases hg : gatherColoured model m with
      | error e => rw [hg] at hc; cases hc
      | ok d =>
        rw [hg] at hc
        simp only [Except.ok.injEq] at hc
        subst hc
        obtain ⟨hpos, hlen, hcount, -⟩ := gatherColoured_ok hg
        refine ⟨hcount, ?_, ?_, by simp⟩
        · simp only [BackendCall.positions]
          rw [hpos, length_flat3, hlen]
        · intro j hj
          obtain ⟨v, hv, hsv⟩ := elem model.dataUntextured.positions j hj hlen
          refine ⟨v, by simpa [opos] using hv, ?_⟩
          simp only [BackendCall.positions]
          rw [hpos]
          exact flat3_getElem? _ j v hsv
    · rw [if_pos htx] at hc
      cases hg : gatherTextured model m with
      | error e => rw [hg] at hc; cases hc
      | ok d =>
        rw [hg] at hc
        cases hm : model.materials[m.materialIndex]? with
        | none => rw [hm] at hc; cases hc
        | some material =>
          rw [hm] at hc
          simp only [Except.ok.injEq] at hc
          subst hc
          obtain ⟨hpos, htex, hlen, hlen', hcount⟩ := gatherTextured_ok hg
          refine ⟨hcount, ?_, ?_, fun _ => ⟨d, rfl, ?_, ?_⟩⟩
          · simp only [BackendCall.positions]
            rw [hpos, length_flat3, hlen]
          · intro j hj
            obtain ⟨v, hv, hsv⟩ := elem model.dataTextured.positions j hj hlen
            refine ⟨v, by simpa [opos] using hv, ?_⟩
            simp only [BackendCall.positions]
            rw [hpos]
            exact flat3_getElem? _ j v hsv
          · rw [htex, length_flat2, hlen']
          · intro j hj
            obtain ⟨t, ht, hst⟩ := elem model.dataTextured.texcoords j hj hlen'
            refine ⟨t, ht, ?_⟩
            rw [htex]
            exact flat2_getElem? _ j t hst
  · intro dev k call hk hcall
    obtain ⟨mesh, hmesh, hc⟩ := call_of_mesh hcall
    rw [hk] at hmesh
    cases hmesh
    exact hc
  · intro hspan htc hmat
    have hm : model.materials[m.materialIndex]? = some model.materials[m.materialIndex] :=
      List.getElem?_eq_getElem hmat
    unfold callFor
    cases htx : m.textured
    · rw [htx] at hspan
      obtain ⟨d, hd⟩ := gatherColoured_returns (by simpa [opos] using hspan) hm
      exact ⟨.coloured d, by simp [hd]⟩
    · rw [htx] at hspan
      obtain ⟨d, hd⟩ := gatherTextured_returns (by simpa [opos] using hspan) (htc htx)
      exact ⟨.textured d, by simp [hd, hm]⟩

/-- C19, refuted as stated.  On `pairModel` the backend fails for the mesh at index 1,
named `second::brick`; on `quadModel` it fails for the mesh at index 0, named `quad`.
Both materializations end in the same exception, the `lut::Error` of
`create_textured_mesh` and `create_coloured_mesh` for a failed `vkQueueSubmit`: it
carries neither a mesh name nor an index. -/
theorem C19_counterexample :
    (pairModel.meshes[1]? = some ⟨"second::brick", 1, true, 0, 3⟩ ∧
      (materializeRun (lostDevice 1) pairModel).1.calls.length = 2 ∧
      materialize (lostDevice 1) pairModel =
        .error (.error "Submitting commands\nvkQueueSubmit() returned ERROR_DEVICE_LOST")) ∧
    (quadModel.meshes[0]? = some ⟨"quad", 0, false, 0, 6⟩ ∧
      (materializeRun (lostDevice 0) quadModel).1.calls.length = 1 ∧
      materialize (lostDevice 0) quadModel =
        .error (.error "Submitting commands\nvkQueueSubmit() returned ERROR_DEVICE_LOST")) ∧
    materialize (lostDevice 1) pairModel = materialize (lostDevice 0) quadModel := by
  refine ⟨⟨rfl, rfl, rfl⟩, ⟨rfl, rfl, rfl⟩, rfl⟩

/-- C19, amended.  When the backend answers the creation call for the mesh at index `k`
with an exception, the materialization ends in exactly that exception, unchanged: no
mesh name and no index is added to it. -/
theorem C19_backend_failure_unchanged (dev : Device) (model : SimpleModel) (k : Nat)
    (call : BackendCall) (e : Thrown)
    (hcall : (materializeRun dev model).1.calls[k]? = some call)
    (hfail : backendFailure dev k call = some e) :
    (∃ mesh, model.meshes[k]? = some mesh ∧ callFor model mesh = .ok call) ∧
    materialize dev model = .error e :=
  ⟨call_of_mesh hcall, materialize_error (materializeRun_failure hcall hfail).1⟩

/-- On `pairModel` with a device lost during the second creation call, the
materialization ends in the exception of that call. -/
theorem C19_backend_failure_unchanged_witness :
    (materializeRun (lostDevice 1) pairModel).1.calls[1]? =
      some (.textured ⟨floats [6, 7, 8, 3, 4, 5, 0, 1, 2],
        floats [104, 105, 102, 103, 100, 101], 3⟩) ∧
    backendFailure (lostDevice 1) 1
      (.textured ⟨floats [6, 7, 8, 3, 4, 5, 0, 1, 2], floats [104, 105, 102, 103, 100, 101], 3⟩) =
      some (.error "Submitting commands\nvkQueueSubmit() returned ERROR_DEVICE_LOST") ∧
    (∃ mesh, pairModel.meshes[1]? = some mesh ∧
      callFor pairModel mesh = .ok (.textured ⟨floats [6, 7, 8, 3, 4, 5, 0, 1, 2],
        floats [104, 105, 102, 103, 100, 101], 3⟩)) ∧
    materialize (lostDevice 1) pairModel =
      .error (.error "Submitting commands\nvkQueueSubmit() returned ERROR_DEVICE_LOST") :=
  ⟨rfl, rfl,
    C19_backend_failure_unchanged (lostDevice 1) pairModel 1
      (.textured ⟨floats [6, 7, 8, 3, 4, 5, 0, 1, 2], floats [104, 105, 102, 103, 100, 101], 3⟩)
      (.error "Submitting commands\nvkQueueSubmit() returned ERROR_DEVICE_LOST") rfl rfl⟩

/-- C20 (all or nothing, no retry).  When the backend answers the creation call for the
mesh at index `k` with an exception, that exception leaves the loop; the calls made
are `k + 1`, the `j`-th for the mesh at index `j`, so that the backend is called for no
mesh after `k` and not again for `k`; and the materialization ends in the exception and
gives no collection of meshes to the code after it. -/
theorem C20_all_or_nothing (dev : Device) (model : SimpleModel) (k : Nat)
    (call : BackendCall) (e : Thrown)
    (hcall : (materializeRun dev model).1.calls[k]? = some call)
    (hfail : backendFailure dev k call = some e) :
    (materializeRun dev model).2 = some e ∧
    (materializeRun dev model).1.calls.length = k + 1 ∧
    (∀ (j : Nat) (c : BackendCall), (materializeRun dev model).1.calls[j]? = some c →
      j ≤ k ∧ ∃ mesh, model.meshes[j]? = some mesh ∧ callFor model mesh = .ok c) ∧
    materialize dev model = .error e ∧
    ∀ out, materialize dev model ≠ .ok out := by
  obtain ⟨hexc, hlen⟩ := materializeRun_failure hcall hfail
  refine ⟨hexc, hlen, ?_, materialize_error hexc, ?_⟩
  · intro j c hj
    have hjlt := (List.getElem?_eq_some_iff.mp hj).1
    exact ⟨by omega, call_of_mesh hj⟩
  · intro out hout
    rw [materialize_error hexc] at hout
    cases hout

/-- On `pairModel` with a device lost during the second creation call: two calls, none
for the third mesh, and no collections. -/
theorem C20_all_or_nothing_witness :
    (materializeRun (lostDevice 1) pairModel).1.calls[1]? =
      some (.textured ⟨floats [6, 7, 8, 3, 4, 5, 0, 1, 2],
        floats [104, 105, 102, 103, 100, 101], 3⟩) ∧
    backendFailure (lostDevice 1) 1
      (.textured ⟨floats [6, 7, 8, 3, 4, 5, 0, 1, 2], floats [104, 105, 102, 103, 100, 101], 3⟩) =
      some (.error "Submitting commands\nvkQueueSubmit() returned ERROR_DEVICE_LOST") ∧
    (materializeRun (lostDevice 1) pairModel).2 =
      some (.error "Submitting commands\nvkQueueSubmit() returned ERROR_DEVICE_LOST") ∧
    (materializeRun (lostDevice 1) pairModel).1.calls.length = 1 + 1 ∧
    pairModel.meshes.length = 3 :=
  ⟨rfl, rfl,
    (C20_all_or_nothing (lostDevice 1) pairModel 1
      (.textured ⟨floats [6, 7, 8, 3, 4, 5, 0, 1, 2], floats [104, 105, 102, 103, 100, 101], 3⟩)
      (.error "Submitting commands\nvkQueueSubmit() returned ERROR_DEVICE_LOST") rfl rfl).1,
    (C20_all_or_nothing (lostDevice 1) pairModel 1
      (.textured ⟨floats [6, 7, 8, 3, 4, 5, 0, 1, 2], floats [104, 105, 102, 103, 100, 101], 3⟩)
      (.error "Submitting commands\nvkQueueSubmit() returned ERROR_DEVICE_LOST") rfl rfl).2.1,
    rfl⟩

/-! ## One shape with one untextured material, from the file to the device -/

theorem create_coloured_mesh_returns {dev : Device} {n : Nat} {d : ColouredMeshDetails}
    (hdev : dev.upload n = successAnswers) (hp : d.vertexCount * 3 ≤ d.positions.length)
    (hc : d.vertexCount * 3 ≤ d.colours.length) :
    create_coloured_mesh dev n d.positions d.colours d.vertexCount = .ok (colouredRecord d) := by
  have h₁ : ¬ d.positions.length * 4 < d.vertexCount * 3 * 4 := by omega
  have h₂ : ¬ d.colours.length * 4 < d.vertexCount * 3 * 4 := by omega
  unfold create_coloured_mesh
  simp only [hdev, successAnswers, ne_eq, not_true_eq_false, if_false, h₁, h₂]
  rfl

theorem create_textured_mesh_returns {dev : Device} {n : Nat} {d : TexturedMeshDetails}
    (hdev : dev.upload n = successAnswers) (hp : d.vertexCount * 3 ≤ d.positions.length)
    (hc : d.vertexCount * 2 ≤ d.texCoords.length) :
    create_textured_mesh dev n d.positions d.texCoords d.vertexCount = .ok (texturedRecord d) := by
  have h₁ : ¬ d.positions.length * 4 < d.vertexCount * 3 * 4 := by omega
  have h₂ : ¬ d.texCoords.length * 4 < d.vertexCount * 2 * 4 := by omega
  unfold create_textured_mesh
  simp only [hdev, successAnswers, ne_eq, not_true_eq_false, if_false, h₁, h₂]
  rfl

theorem toInt_one : toInt 1 = 1 := by decide

theorem toSizeT_zero : toSizeT 0 = 0 := by decide

/-- The model that the loader returns for one shape whose `N ≥ 1` triangular faces all
carry the one, untextured material. -/
theorem single_shape_loaded (env : Env) (aPath : String)
    (mat : rapidobj.Material) (shape : rapidobj.Shape) (N : Nat)
    (hcode : (env.ParseFile aPath).error.code = 0)
    (hmats : (triangulated env aPath).materials = [mat]) (hno : mat.diffuse_texname = "")
    (hshapes : (triangulated env aPath).shapes = [shape]) (hN : 1 ≤ N)
    (hfaces : shape.mesh.indices.length = 3 * N)
    (hid : ∀ f, f < N → shape.mesh.material_ids[f]? = some 0)
    (hpos : ∀ idx, idx ∈ shape.mesh.indices →
      ∃ v, resolvePosition (triangulated env aPath).attributes idx = some v) :
    ∃ model, load_simple_wavefront_obj env aPath = .ok model ∧
      model.materials =
        [⟨mat.name, ⟨mat.diffuse.1, mat.diffuse.2.1, mat.diffuse.2.2⟩, ""⟩] ∧
      model.meshes = [⟨shape.name, 0, false, 0, 3 * N⟩] ∧
      model.dataUntextured.positions.length = 3 * N ∧
      model.dataTextured.positions = [] ∧ model.dataTextured.texcoords = [] := by
  have hat : ∀ i, i < shape.mesh.indices.length → materialAt shape.mesh i = some 0 := by
    intro i hi
    simp [materialAt, hid (i / 3) (by omega), toSizeT_zero]
  -- the loader returns
  have hin : InRange (triangulated env aPath) := by
    refine ⟨?_, ?_, ?_⟩
    · intro s hs i hi
      rw [hshapes, List.mem_singleton] at hs
      subst hs
      refine ⟨0, hid (i / 3) (by omega), ?_, ?_⟩
      · rw [hmats]; simp [toInt_one]
      · rw [hmats, toSizeT_zero]; simp
    · intro s hs idx hidx
      rw [hshapes, List.mem_singleton] at hs
      subst hs
      exact hpos idx hidx
    · intro s hs i idx x m hidx hx hm hne
      rw [hshapes, List.mem_singleton] at hs
      subst hs
      rw [hat i (List.getElem?_eq_some_iff.mp hidx).1] at hx
      cases hx
      rw [hmats] at hm
      simp only [List.getElem?_cons_zero, Option.some.injEq] at hm
      subst hm
      exact absurd hno hne
  obtain ⟨model, hload⟩ := load_returns env aPath hcode hin
  -- the state after the one shape
  obtain ⟨-, st, hst, hret⟩ := load_ok hload
  have hlen : (triangulated env aPath).shapes.length = 1 := by rw [hshapes]; rfl
  rw [hlen] at hst
  have hstep := stateAfterShapes_succ env aPath (k := 0) (by rw [hlen]; exact Nat.one_pos)
  have hzero : stateAfterShapes env aPath 0 = .ok (initialState env aPath) := rfl
  rw [hzero] at hstep
  simp only [Nat.zero_add] at hstep
  rw [hst] at hstep
  have hshape : (triangulated env aPath).shapes[0] = shape := by
    simp [hshapes]
  rw [hshape] at hstep
  have hproc := hstep.symm
  unfold processShape at hproc
  cases hs : scanMaterials shape (initialState env aPath).ret.materials.length with
  | error e => simp [hs] at hproc
  | ok emplaced =>
    simp only [hs] at hproc
    have hactive : env.iterate (initialState env aPath).cleared emplaced = [0] := by
      apply eq_singleton_of_nodup (env.iterate_nodup _ _)
      intro x
      rw [env.mem_iterate, (scanLoop_ok _ hs).1 x]
      constructor
      · rintro ⟨i, hi, hx⟩
        rw [hat i hi] at hx
        exact (Option.some.inj hx).symm
      · rintro rfl
        exact ⟨0, by omega, hat 0 (by omega)⟩
    rw [hactive] at hproc
    simp only [foldE, List.length_singleton] at hproc
    cases hpass : extractMaterial (triangulated env aPath) shape 1 (initialState env aPath).ret 0 with
    | error e => simp [hpass] at hproc
    | ok ret =>
      simp only [hpass, Except.ok.injEq] at hproc
      obtain ⟨material, vs, ts, hmat, hvs, hts, hretEq⟩ := extractMaterial_ok hpass
      have hmaterial : material = materialInfo (pathPrefix aPath) mat := by
        simp only [initialState, hmats, List.map_cons, List.map_nil, List.getElem?_cons_zero,
          Option.some.injEq] at hmat
        exact hmat.symm
      have hpath : material.diffuseTexturePath = "" := by
        rw [hmaterial]; simp [materialInfo, empty, hno]
      have htx : (!empty material.diffuseTexturePath) = false := by
        rw [hpath]; rfl
      rw [htx] at hts hretEq
      simp only [Bool.false_eq_true, if_false] at hts
      subst hts
      have hvlen : vs.length = 3 * N := by
        have := congrArg List.length hvs
        simp only [List.length_map] at this
        rw [this, verticesOf, hfaces, length_verticesUpTo_faces _ _ _ (by omega), facesWith_all]
        intro f hf
        rw [hid f hf]
        rfl
      have hmodel : model = ret := by rw [← hret, ← hproc]
      have hmodelMats : model.materials =
          [⟨mat.name, ⟨mat.diffuse.1, mat.diffuse.2.1, mat.diffuse.2.2⟩, ""⟩] := by
        rw [load_materials hload, hmats]
        simp [materialInfo, empty, hno]
      have hmeshes : model.meshes = [⟨shape.name, 0, false, 0, 3 * N⟩] := by
        rw [hmodel, hretEq]
        simp [meshNameFor, initialState, opos, appended, hvlen]
      have hsoup : model.dataUntextured.positions = vs := by
        rw [hmodel, hretEq]
        simp [initialState, appended]
      have htexp : model.dataTextured.positions = [] := by
        rw [hmodel, hretEq]
        simp [initialState, appended]
      have htext : model.dataTextured.texcoords = [] := by
        rw [hmodel, hretEq]
        simp [initialState, appended]
      exact ⟨model, hload, hmodelMats, hmeshes, by rw [hsoup, hvlen], htexp, htext⟩

/-- What the materialization of a model with one untextured mesh of `M ≥ 1` vertices
from the start of the soup leaves on a device whose first creation call succeeds. -/
theorem single_mesh_materialized (dev : Device) (model : SimpleModel)
    (material : SimpleMaterialInfo) (name : String) (M : Nat)
    (hm0 : model.materials[0]? = some material)
    (hmeshes : model.meshes = [⟨name, 0, false, 0, M⟩])
    (hsoup : model.dataUntextured.positions.length = M) (hM : 1 ≤ M)
    (hdev : dev.upload 0 = successAnswers) :
    ∃ out d, materialize dev model = .ok out ∧
      out.calls = [.coloured d] ∧ d.vertexCount = M ∧ d.colours.length = 3 * M ∧
      (∀ j, j < M → d.colours[3 * j]? = some material.diffuseColor.x ∧
        d.colours[3 * j + 1]? = some material.diffuseColor.y ∧
        d.colours[3 * j + 2]? = some material.diffuseColor.z) ∧
      out.colouredMeshes = [colouredRecord d] ∧
      (colouredRecord d).vertexCount = M % 2 ^ 32 ∧
      out.texturedMeshes = [] := by
  obtain ⟨d, hd⟩ := @gatherColoured_returns model
    ⟨name, 0, false, 0, M⟩ (by simp only [Nat.zero_add]; rw [hsoup]) _ hm0
  obtain ⟨hdpos, hdlen, hdcount, hdcol⟩ := gatherColoured_ok hd
  simp only at hdlen hdcount
  have hcol : d.colours = flat3 (List.replicate M material.diffuseColor) := by
    rcases hdcol with ⟨h0, -⟩ | ⟨material', hm', hc⟩
    · simp only at h0; omega
    · simp only at hm'
      rw [hm0] at hm'
      cases hm'
      exact hc
  have hcreate := @create_coloured_mesh_returns dev 0 d hdev
    (by rw [hdpos, length_flat3, hdlen, hdcount]; omega)
    (by rw [hcol, length_flat3, List.length_replicate, hdcount]; omega)
  have hrun : materializeRun dev model =
      ({ colouredMeshes := [colouredRecord d], meshMaterial := [], texturedMeshes := [],
         calls := [.coloured d] }, none) := by
    unfold materializeRun
    rw [hmeshes]
    simp only [materializeLoop, materializeMesh, Bool.false_eq_true, if_false, hd,
      List.length_nil, hcreate, List.nil_append]
  refine ⟨_, d, by unfold materialize; rw [hrun], rfl, hdcount, ?_, ?_, rfl, ?_, rfl⟩
  · rw [hcol, length_flat3, List.length_replicate]
  · intro j hj
    rw [hcol]
    exact flat3_getElem? _ j material.diffuseColor (by rw [List.getElem?_replicate, if_pos hj])
  · simp [colouredRecord, hdcount]

/-- C18, refuted as stated.  `hugeResult` has one untextured material and one shape
whose `hugeFaces` = 1431655766 triangular faces all use it.  The loader returns a
model, its materialization on a device on which every call succeeds gives exactly one
coloured mesh, and the `vertexCount` of that record is 2, not `3 * hugeFaces`: the
count is stored as a `std::uint32_t`, and `3 * hugeFaces` is `2 ^ 32 + 2`. -/
theorem C18_counterexample :
    (triangulated (sampleEnv hugeResult) "huge.obj").materials =
      [⟨"plain", (⟨1⟩, ⟨2⟩, ⟨3⟩), ""⟩] ∧
    (triangulated (sampleEnv hugeResult) "huge.obj").shapes = [hugeShape] ∧
    hugeShape.mesh.indices.length = 3 * hugeFaces ∧
    (∀ f, f < hugeFaces → hugeShape.mesh.material_ids[f]? = some 0) ∧
    ∃ model out record,
      load_simple_wavefront_obj (sampleEnv hugeResult) "huge.obj" = .ok model ∧
      materialize okDevice model = .ok out ∧
      out.colouredMeshes = [record] ∧ record.vertexCount = 2 ∧
      record.vertexCount ≠ 3 * hugeFaces := by
  have hfaces : hugeShape.mesh.indices.length = 3 * hugeFaces := by
    simp only [hugeShape, List.length_replicate]
  have hid : ∀ f, f < hugeFaces → hugeShape.mesh.material_ids[f]? = some 0 := by
    intro f hf
    simp only [hugeShape, List.getElem?_replicate, if_pos hf]
  refine ⟨rfl, rfl, hfaces, hid, ?_⟩
  obtain ⟨model, hload, hmats, hmeshes, hsoup, -, -⟩ :=
    single_shape_loaded (sampleEnv hugeResult) "huge.obj" ⟨"plain", (⟨1⟩, ⟨2⟩, ⟨3⟩), ""⟩
      hugeShape hugeFaces rfl rfl rfl rfl (by decide) hfaces hid (by
        intro idx hidx
        have hi : idx = ⟨0, -1, -1⟩ := List.eq_of_mem_replicate hidx
        subst hi
        exact ⟨⟨⟨0⟩, ⟨1⟩, ⟨2⟩⟩, rfl⟩)
  obtain ⟨out, d, hout, -, -, -, -, hcol, hcount, -⟩ :=
    single_mesh_materialized okDevice model _ hugeShape.name (3 * hugeFaces)
      (by rw [hmats]; rfl) hmeshes hsoup (by decide) rfl
  have h2 : 3 * hugeFaces % 2 ^ 32 = 2 := by decide
  refine ⟨model, out, colouredRecord d, hload, hout, hcol, by rw [hcount, h2], ?_⟩
  rw [hcount, h2]
  decide

/-- C18, amended.  Let the parser report no error and give one material without a
diffuse texture and one shape whose `N ≥ 1` triangular faces all use it, with position
indices inside the pool.  Loading gives one untextured material, exactly one mesh
descriptor with `vertexStartIndex` 0 and `vertexCount` `3 * N`, an untextured soup of
length `3 * N` and an empty textured soup.  Materializing that model on a device whose
first creation call succeeds makes one call of `create_coloured_mesh` with the count
`3 * N` and a colour array of `9 * N` floats that all match the diffuse colour of the
material, and gives exactly one coloured mesh and no textured mesh; the `vertexCount`
of the coloured mesh is `3 * N` modulo `2 ^ 32`, which is `3 * N` when
`3 * N < 2 ^ 32`. -/
theorem C18_single_shape_end_to_end (env : Env) (aPath : String) (dev : Device)
    (mat : rapidobj.Material) (shape : rapidobj.Shape) (N : Nat)
    (hcode : (env.ParseFile aPath).error.code = 0)
    (hmats : (triangulated env aPath).materials = [mat]) (hno : mat.diffuse_texname = "")
    (hshapes : (triangulated env aPath).shapes = [shape]) (hN : 1 ≤ N)
    (hfaces : shape.mesh.indices.length = 3 * N)
    (hid : ∀ f, f < N → shape.mesh.material_ids[f]? = some 0)
    (hpos : ∀ idx, idx ∈ shape.mesh.indices →
      ∃ v, resolvePosition (triangulated env aPath).attributes idx = some v)
    (hdev : dev.upload 0 = successAnswers) :
    ∃ model, load_simple_wavefront_obj env aPath = .ok model ∧
      model.materials =
        [⟨mat.name, ⟨mat.diffuse.1, mat.diffuse.2.1, mat.diffuse.2.2⟩, ""⟩] ∧
      model.meshes = [⟨shape.name, 0, false, 0, 3 * N⟩] ∧
      model.dataUntextured.positions.length = 3 * N ∧
      model.dataTextured.positions = [] ∧ model.dataTextured.texcoords = [] ∧
      ∃ out d record, materialize dev model = .ok out ∧
        out.calls = [.coloured d] ∧ d.vertexCount = 3 * N ∧ d.colours.length = 9 * N ∧
        (∀ j, j < 3 * N → d.colours[3 * j]? = some mat.diffuse.1 ∧
          d.colours[3 * j + 1]? = some mat.diffuse.2.1 ∧
          d.colours[3 * j + 2]? = some mat.diffuse.2.2) ∧
        out.colouredMeshes = [record] ∧
        record.vertexCount = 3 * N % 2 ^ 32 ∧
        (3 * N < 2 ^ 32 → record.vertexCount = 3 * N) ∧
        out.texturedMeshes = [] := by
  obtain ⟨model, hload, hm, hmeshes, hsoup, htp, htt⟩ :=
    single_shape_loaded env aPath mat shape N hcode hmats hno hshapes hN hfaces hid hpos
  obtain ⟨out, d, hout, hcalls, hcount, hlen, hcolours, hcol, hrec, htex⟩ :=
    single_mesh_materialized dev model _ shape.name (3 * N) (by rw [hm]; rfl) hmeshes hsoup
      (by omega) hdev
  refine ⟨model, hload, hm, hmeshes, hsoup, htp, htt, out, d, colouredRecord d, hout, hcalls,
    hcount, by rw [hlen]; omega, hcolours, hcol, hrec, ?_, htex⟩
  intro hsmall
  rw [hrec, Nat.mod_eq_of_lt hsmall]

/-- The quad of two triangles: one untextured material, one mesh descriptor of six
vertices from the start of the soup, one coloured mesh of six vertices and a colour
array of eighteen floats. -/
theorem C18_single_shape_end_to_end_witness :
    ∃ model, load_simple_wavefront_obj (sampleEnv quadResult) "quad.obj" = .ok model ∧
      model.materials = [⟨"plain", ⟨⟨1⟩, ⟨2⟩, ⟨3⟩⟩, ""⟩] ∧
      model.meshes = [⟨"quad", 0, false, 0, 3 * 2⟩] ∧
      model.dataUntextured.positions.length = 3 * 2 ∧
      model.dataTextured.positions = [] ∧ model.dataTextured.texcoords = [] ∧
      ∃ out d record, materialize okDevice model = .ok out ∧
        out.calls = [.coloured d] ∧ d.vertexCount = 3 * 2 ∧ d.colours.length = 9 * 2 ∧
        (∀ j, j < 3 * 2 → d.colours[3 * j]? = some ⟨1⟩ ∧
          d.colours[3 * j + 1]? = some ⟨2⟩ ∧
          d.colours[3 * j + 2]? = some ⟨3⟩) ∧
        out.colouredMeshes = [record] ∧
        record.vertexCount = 3 * 2 % 2 ^ 32 ∧
        (3 * 2 < 2 ^ 32 → record.vertexCount = 3 * 2) ∧
        out.texturedMeshes = [] :=
  C18_single_shape_end_to_end (sampleEnv quadResult) "quad.obj" okDevice
    ⟨"plain", (⟨1⟩, ⟨2⟩, ⟨3⟩), ""⟩
    ⟨"quad", ⟨[⟨0, -1, -1⟩, ⟨1, -1, -1⟩, ⟨2, -1, -1⟩, ⟨0, -1, -1⟩, ⟨2, -1, -1⟩, ⟨3, -1, -1⟩],
      [0, 0]⟩⟩
    2 rfl rfl rfl rfl (by decide) rfl (by decide)
    (fun idx hidx => Option.isSome_iff_exists.mp
      ((by decide : ∀ idx ∈ (quadResult.shapes[0]).mesh.indices,
        (resolvePosition quadResult.attributes idx).isSome = true) idx hidx))
    rfl

/-! ## The loader does not look at colours -/

theorem map_ok {α β : Type} (g : α → β) (a : α) :
    Except.map g (Except.ok a : Except Fault α) = .ok (g a) := rfl

theorem map_error {α β : Type} (g : α → β) (e : Fault) :
    Except.map g (Except.error e : Except Fault α) = .error e := rfl

/-- A loop whose body commutes with `g` commutes with `g`. -/
theorem foldE_comm {σ α : Type} (g : σ → σ) (f : σ → α → Except Fault σ)
    (h : ∀ s a, f (g s) a = (f s a).map g) (s : σ) (xs : List α) :
    foldE f (g s) xs = (foldE f s xs).map g := by
  induction xs generalizing s with
  | nil => rfl
  | cons a as ih =>
    simp only [foldE, h]
    cases f s a with
    | error e => rfl
    | ok s' => simp only [map_ok]; exact ih s'
theorem extractVertex_attributes {r₁ r₂ : rapidobj.Result} (h : r₁.attributes = r₂.attributes)
    (shape : rapidobj.Shape) (matId : Nat) (textured : Bool) (i : Nat) (ret : SimpleModel) :
    extractVertex r₁ shape matId textured i ret = extractVertex r₂ shape matId textured i ret := by
  unfold extractVertex
  rw [h]

theorem extractMaterial_attributes {r₁ r₂ : rapidobj.Result} (h : r₁.attributes = r₂.attributes)
    (shape : rapidobj.Shape) (c : Nat) (ret : SimpleModel) (matId : Nat) :
    extractMaterial r₁ shape c ret matId = extractMaterial r₂ shape c ret matId := by
  unfold extractMaterial
  have : extractVertex r₁ shape = extractVertex r₂ shape := by
    funext matId textured i ret
    exact extractVertex_attributes h shape matId textured i ret
  simp only [this]

theorem processShape_attributes {env₁ env₂ : Env} {r₁ r₂ : rapidobj.Result}
    (hiter : env₁.iterate = env₂.iterate) (h : r₁.attributes = r₂.attributes)
    (st : LoaderState) (shape : rapidobj.Shape) :
    processShape env₁ r₁ st shape = processShape env₂ r₂ st shape := by
  unfold processShape
  have : extractMaterial r₁ shape = extractMaterial r₂ shape := by
    funext c ret matId
    exact extractMaterial_attributes h shape c ret matId
  simp only [this, hiter]

theorem oposEmplace_uncoloured (textured : Bool) (v : vec3) (ret : SimpleModel) :
    oposEmplace textured v (uncoloured ret) = uncoloured (oposEmplace textured v ret) := by
  cases textured <;> rfl

theorem extractVertex_uncoloured (r : rapidobj.Result) (shape : rapidobj.Shape) (matId : Nat)
    (textured : Bool) (i : Nat) (ret : SimpleModel) :
    extractVertex r shape matId textured i (uncoloured ret) =
      (extractVertex r shape matId textured i ret).map uncoloured := by
  unfold extractVertex
  simp only []
  cases h₁ : shape.mesh.material_ids[i / 3]? with
  | none => rfl
  | some faceMatInt =>
    simp only []
    by_cases hmat : toSizeT faceMatInt ≠ matId
    · rw [if_pos hmat, if_pos hmat]; rfl
    · rw [if_neg hmat, if_neg hmat]
      cases h₂ : shape.mesh.indices[i]? with
      | none => rfl
      | some idx =>
        simp only []
        cases h₃ : resolvePosition r.attributes idx with
        | none => rfl
        | some v =>
          simp only [oposEmplace_uncoloured]
          cases textured with
          | false => rfl
          | true =>
            simp only [if_true]
            cases h₄ : resolveTexcoord r.attributes idx with
            | none => rfl
            | some t => rfl

theorem forLoop_comm {σ : Type} (g : σ → σ) (body : Nat → σ → Except Fault σ)
    (h : ∀ i s, body i (g s) = (body i s).map g) (n : Nat) (s : σ) :
    forLoop n body (g s) = (forLoop n body s).map g :=
  foldE_comm g (fun s i => body i s) (fun s i => h i s) s (List.range n)

theorem opos_uncoloured (textured : Bool) (ret : SimpleModel) :
    opos textured (uncoloured ret) = opos textured ret := by
  cases textured <;> rfl

theorem extractMaterial_uncoloured (r : rapidobj.Result) (shape : rapidobj.Shape) (c : Nat)
    (ret : SimpleModel) (matId : Nat) :
    extractMaterial r shape c (uncoloured ret) matId =
      (extractMaterial r shape c ret matId).map uncoloured := by
  unfold extractMaterial
  have hm : (uncoloured ret).materials[matId]? = (ret.materials[matId]?).map uncolouredInfo := by
    simp [uncoloured]
  rw [hm]
  cases ret.materials[matId]? with
  | none => rfl
  | some material =>
    simp only [Option.map_some', opos_uncoloured]
    have h₁ : (uncolouredInfo material).diffuseTexturePath = material.diffuseTexturePath := rfl
    have h₂ : (uncolouredInfo material).materialName = material.materialName := rfl
    have h₃ : (uncoloured ret).dataTextured = ret.dataTextured := rfl
    rw [h₁, h₂, h₃]
    split
    · rw [forLoop_comm uncoloured _ (extractVertex_uncoloured r shape matId _)]
      cases forLoop shape.mesh.indices.length
          (extractVertex r shape matId (!empty material.diffuseTexturePath)) ret with
      | error e => rfl
      | ok ret' =>
        simp only [map_ok, opos_uncoloured]
        have h₄ : (uncoloured ret').dataTextured = ret'.dataTextured := rfl
        rw [h₄]
        split
        · rfl
        · rfl
    · rfl

theorem processShape_uncoloured (env : Env) (r : rapidobj.Result) (st : LoaderState)
    (shape : rapidobj.Shape) :
    processShape env r (uncolouredState st) shape =
      (processShape env r st shape).map uncolouredState := by
  unfold processShape
  have h₁ : (uncolouredState st).ret.materials.length = st.ret.materials.length := by
    simp [uncolouredState, uncoloured]
  have h₂ : (uncolouredState st).cleared = st.cleared := rfl
  have h₃ : (uncolouredState st).ret = uncoloured st.ret := rfl
  rw [h₁, h₂, h₃]
  cases scanMaterials shape st.ret.materials.length with
  | error e => rfl
  | ok emplaced =>
    simp only []
    rw [foldE_comm uncoloured _ (extractMaterial_uncoloured r shape _)]
    cases foldE (extractMaterial r shape (env.iterate st.cleared emplaced).length) st.ret
        (env.iterate st.cleared emplaced) with
    | error e => rfl
    | ok ret => rfl

theorem materialInfo_uncoloured (pfx : String) (mat : rapidobj.Material) :
    uncolouredInfo (materialInfo pfx mat) = uncolouredInfo (materialInfo pfx (uncolouredMaterial mat)) :=
  rfl

theorem initialState_uncoloured {env₁ env₂ : Env} {aPath : String}
    (h : (triangulated env₁ aPath).materials.map uncolouredMaterial =
      (triangulated env₂ aPath).materials.map uncolouredMaterial) :
    uncolouredState (initialState env₁ aPath) = uncolouredState (initialState env₂ aPath) := by
  have key : ∀ l : List rapidobj.Material,
      (l.map (materialInfo (pathPrefix aPath))).map uncolouredInfo =
        (l.map uncolouredMaterial).map
          (fun mat => uncolouredInfo (materialInfo (pathPrefix aPath) mat)) := by
    intro l
    simp only [List.map_map]
    apply List.map_congr_left
    intro mat _
    exact materialInfo_uncoloured _ mat
  simp only [uncolouredState, initialState, uncoloured, key, h]

/-- The loader run on two inputs that differ at most in colours. -/
theorem load_uncoloured {env₁ env₂ : Env} {aPath : String}
    (hiter : env₁.iterate = env₂.iterate)
    (herr : (env₁.ParseFile aPath).error = (env₂.ParseFile aPath).error)
    (hsame : SameButColour (triangulated env₁ aPath) (triangulated env₂ aPath)) :
    (load_simple_wavefront_obj env₁ aPath).map uncoloured =
      (load_simple_wavefront_obj env₂ aPath).map uncoloured := by
  obtain ⟨hattr, hshapes, -, hmats⟩ := hsame
  have hfun : processShape env₁ (triangulated env₁ aPath) =
      processShape env₂ (triangulated env₂ aPath) := by
    funext st shape
    exact processShape_attributes hiter hattr st shape
  have hload : ∀ env : Env, (load_simple_wavefront_obj env aPath).map uncoloured =
      if (env.ParseFile aPath).error.code ≠ 0 then
        .error (.loadError (String.mk (formatMessage "Unable to load OBJ file \x27%s\x27: %s".data
          [aPath, (env.ParseFile aPath).error.message])))
      else
        match foldE (processShape env (triangulated env aPath))
            (uncolouredState (initialState env aPath)) (triangulated env aPath).shapes with
        | .error e => .error e
        | .ok st => .ok st.ret := by
    intro env
    unfold load_simple_wavefront_obj
    split
    · rfl
    · rw [foldE_comm uncolouredState _ (processShape_uncoloured env _)]
      cases foldE (processShape env (triangulated env aPath)) (initialState env aPath)
          (triangulated env aPath).shapes with
      | error e => rfl
      | ok st => rfl
  rw [hload env₁, hload env₂, herr, hfun, hshapes, initialState_uncoloured hmats]

theorem load_recoloured :
    load_simple_wavefront_obj (sampleEnv recolouredResult) "assets/m.obj" = .ok recolouredModel := by
  rfl

theorem map_eq_ok {α β : Type} {g : α → β} {x : Except Fault α} {b : β}
    (h : x.map g = .ok b) : ∃ a, x = .ok a ∧ g a = b := by
  cases x with
  | error e => cases h
  | ok a => exact ⟨a, rfl, by cases h; rfl⟩

theorem map_eq_error {α β : Type} {g : α → β} {x : Except Fault α} {e : Fault}
    (h : x.map g = .error e) : x = .error e := by
  cases x with
  | error e' => cases h; rfl
  | ok a => cases h

theorem uncoloured_paths (model : SimpleModel) :
    (uncoloured model).materials.map (fun mi => mi.diffuseTexturePath) =
      model.materials.map (fun mi => mi.diffuseTexturePath) := by
  simp only [uncoloured, List.map_map]
  rfl

theorem uncoloured_names (model : SimpleModel) :
    (uncoloured model).materials.map (fun mi => mi.materialName) =
      model.materials.map (fun mi => mi.materialName) := by
  simp only [uncoloured, List.map_map]
  rfl


/-! ## Claims about the loader across inputs and descriptors -/

/-- C21 (classification is independent of colour).  When two parsed inputs read from the
same path differ at most in the diffuse colours of their materials, and the set is
visited in the same way, the loader returns a model for the one exactly when it does
for the other, and the two models have the same mesh descriptors (names, material
indices, textured flags, start indices, counts), the same soups, the same texture
paths and material names and the same source path: they differ at most in
`materials[i].diffuseColor`.  A fault of the one run is the fault of the other. -/
theorem C21_colour_independent (env₁ env₂ : Env) (aPath : String)
    (hiter : env₁.iterate = env₂.iterate)
    (herr : (env₁.ParseFile aPath).error = (env₂.ParseFile aPath).error)
    (hsame : SameButColour (triangulated env₁ aPath) (triangulated env₂ aPath)) :
    (∀ model₁, load_simple_wavefront_obj env₁ aPath = .ok model₁ →
      ∃ model₂, load_simple_wavefront_obj env₂ aPath = .ok model₂ ∧
        model₂.meshes = model₁.meshes ∧
        model₂.dataTextured = model₁.dataTextured ∧
        model₂.dataUntextured = model₁.dataUntextured ∧
        model₂.materials.map (fun mi => mi.diffuseTexturePath) =
          model₁.materials.map (fun mi => mi.diffuseTexturePath) ∧
        model₂.materials.map (fun mi => mi.materialName) =
          model₁.materials.map (fun mi => mi.materialName) ∧
        model₂.materials.length = model₁.materials.length ∧
        model₂.modelSourcePath = model₁.modelSourcePath ∧
        uncoloured model₂ = uncoloured model₁) ∧
    ∀ e, load_simple_wavefront_obj env₁ aPath = .error e →
      load_simple_wavefront_obj env₂ aPath = .error e := by
  have key := load_uncoloured hiter herr hsame
  constructor
  · intro model₁ h₁
    rw [h₁, map_ok] at key
    obtain ⟨model₂, h₂, hu⟩ := map_eq_ok key.symm
    refine ⟨model₂, h₂, ?_, ?_, ?_, ?_, ?_, ?_, ?_, hu⟩
    · exact congrArg (fun m => m.meshes) hu
    · exact congrArg (fun m => m.dataTextured) hu
    · exact congrArg (fun m => m.dataUntextured) hu
    · rw [← uncoloured_paths model₂, ← uncoloured_paths model₁, hu]
    · rw [← uncoloured_names model₂, ← uncoloured_names model₁, hu]
    · have := congrArg (fun m => m.materials.length) hu
      simpa [uncoloured] using this
    · exact congrArg (fun m => m.modelSourcePath) hu
  · intro e h₁
    rw [h₁, map_error] at key
    exact map_eq_error key.symm

/-- The runs on `sampleResult` and on `recolouredResult` return models with the same
descriptors. -/
theorem C21_colour_independent_witness :
    (sampleEnv sampleResult).iterate = (sampleEnv recolouredResult).iterate ∧
    ((sampleEnv sampleResult).ParseFile "assets/m.obj").error =
      ((sampleEnv recolouredResult).ParseFile "assets/m.obj").error ∧
    SameButColour (triangulated (sampleEnv sampleResult) "assets/m.obj")
      (triangulated (sampleEnv recolouredResult) "assets/m.obj") ∧
    sampleResult.materials ≠ recolouredResult.materials ∧
    ∃ model₂, load_simple_wavefront_obj (sampleEnv recolouredResult) "assets/m.obj" = .ok model₂ ∧
      model₂.meshes = sampleModel.meshes :=
  ⟨rfl, rfl, ⟨rfl, rfl, rfl, rfl⟩, by decide,
    (((C21_colour_independent (sampleEnv sampleResult) (sampleEnv recolouredResult) "assets/m.obj"
      rfl rfl ⟨rfl, rfl, rfl, rfl⟩).1 sampleModel rfl).imp fun _ h => ⟨h.1, h.2.1⟩)⟩
/-! ## The spans tile the soups -/

theorem totalCount_append (xs ys : List SimpleMeshInfo) :
    totalCount (xs ++ ys) = totalCount xs + totalCount ys := by
  simp [totalCount]

theorem Tiles_nil : Tiles [] 0 := by
  constructor
  · intro i m h; simp at h
  · rfl

theorem Tiles_append {ms : List SimpleMeshInfo} {n : Nat} {m : SimpleMeshInfo}
    (h : Tiles ms n) (hs : m.vertexStartIndex = n) : Tiles (ms ++ [m]) (n + m.vertexCount) := by
  obtain ⟨h₁, h₂⟩ := h
  constructor
  · intro i m' hi
    by_cases hlt : i < ms.length
    · rw [List.getElem?_append_left hlt] at hi
      rw [List.take_append_of_le_length (by omega)]
      exact h₁ i m' hi
    · have hlen : (ms ++ [m]).length = ms.length + 1 := by simp
      have hi' : i < (ms ++ [m]).length := (List.getElem?_eq_some_iff.mp hi).1
      have hieq : i = ms.length := by omega
      subst hieq
      rw [List.getElem?_append_right (Nat.le_refl _)] at hi
      simp only [Nat.sub_self, List.getElem?_cons_zero, Option.some.injEq] at hi
      subst hi
      rw [List.take_left' rfl, h₂, hs]
  · rw [totalCount_append, h₂]
    simp [totalCount]

theorem meshesOfKind_append (b : Bool) (xs ys : List SimpleMeshInfo) :
    meshesOfKind b (xs ++ ys) = meshesOfKind b xs ++ meshesOfKind b ys := by
  simp [meshesOfKind]

theorem meshesOfKind_same (m : SimpleMeshInfo) : meshesOfKind m.textured [m] = [m] := by
  simp [meshesOfKind]

theorem meshesOfKind_other {b : Bool} {m : SimpleMeshInfo} (h : m.textured ≠ b) :
    meshesOfKind b [m] = [] := by
  simp [meshesOfKind, h]

/-- A loop whose body keeps `P` keeps `P`. -/
theorem foldE_preserves {σ α : Type} {f : σ → α → Except Fault σ} {P : σ → Prop}
    (hf : ∀ s a s', f s a = .ok s' → P s → P s') {xs : List α} {s s' : σ}
    (h : foldE f s xs = .ok s') (hs : P s) : P s' := by
  induction xs generalizing s with
  | nil => cases h; exact hs
  | cons a as ih =>
    obtain ⟨t, h₁, h₂⟩ := foldE_cons_ok h
    exact ih h₂ (hf s a t h₁ hs)

/-- The soups of a model are tiled by the descriptors of their kind. -/
theorem extractMaterial_tiles {result : rapidobj.Result} {shape : rapidobj.Shape}
    {activeCount matId : Nat} {ret ret' : SimpleModel}
    (h : extractMaterial result shape activeCount ret matId = .ok ret')
    (ht : Tiles (meshesOfKind true ret.meshes) ret.dataTextured.positions.length ∧
      Tiles (meshesOfKind false ret.meshes) ret.dataUntextured.positions.length) :
    Tiles (meshesOfKind true ret'.meshes) ret'.dataTextured.positions.length ∧
      Tiles (meshesOfKind false ret'.meshes) ret'.dataUntextured.positions.length := by
  obtain ⟨material, vs, ts, -, -, -, rfl⟩ := extractMaterial_ok h
  obtain ⟨h₁, h₂⟩ := ht
  cases hb : (!empty material.diffuseTexturePath) with
  | true =>
    simp only [appended, if_true, meshesOfKind_append, List.length_append]
    constructor
    · have := Tiles_append (m := ⟨meshNameFor shape activeCount material, matId, true,
        (opos true ret).length, vs.length⟩) h₁ rfl
      simpa [meshesOfKind] using this
    · simpa [meshesOfKind] using h₂
  | false =>
    simp only [appended, Bool.false_eq_true, if_false, meshesOfKind_append, List.length_append]
    constructor
    · simpa [meshesOfKind] using h₁
    · have := Tiles_append (m := ⟨meshNameFor shape activeCount material, matId, false,
        (opos false ret).length, vs.length⟩) h₂ rfl
      simpa [meshesOfKind] using this

theorem processShape_fold {env : Env} {result : rapidobj.Result} {shape : rapidobj.Shape}
    {st st' : LoaderState} (h : processShape env result st shape = .ok st') :
    ∃ emplaced, scanMaterials shape st.ret.materials.length = .ok emplaced ∧
      foldE (extractMaterial result shape (env.iterate st.cleared emplaced).length) st.ret
        (env.iterate st.cleared emplaced) = .ok st'.ret := by
  unfold processShape at h
  cases hs : scanMaterials shape st.ret.materials.length with
  | error e => rw [hs] at h; cases h
  | ok emplaced =>
    rw [hs] at h
    simp only [] at h
    cases hf : foldE (extractMaterial result shape (env.iterate st.cleared emplaced).length) st.ret
        (env.iterate st.cleared emplaced) with
    | error e => rw [hf] at h; cases h
    | ok ret => rw [hf] at h; cases h; exact ⟨emplaced, rfl, hf⟩

theorem load_tiles {env : Env} {aPath : String} {model : SimpleModel}
    (h : load_simple_wavefront_obj env aPath = .ok model) :
    Tiles (meshesOfKind true model.meshes) model.dataTextured.positions.length ∧
      Tiles (meshesOfKind false model.meshes) model.dataUntextured.positions.length := by
  obtain ⟨-, st, hst, rfl⟩ := load_ok h
  unfold stateAfterShapes at hst
  refine foldE_preserves (P := fun st : LoaderState =>
    Tiles (meshesOfKind true st.ret.meshes) st.ret.dataTextured.positions.length ∧
      Tiles (meshesOfKind false st.ret.meshes) st.ret.dataUntextured.positions.length)
    ?_ hst ⟨Tiles_nil, Tiles_nil⟩
  intro s shape s' hs hP
  obtain ⟨emplaced, -, hf⟩ := processShape_fold hs
  exact foldE_preserves (P := fun ret : SimpleModel =>
    Tiles (meshesOfKind true ret.meshes) ret.dataTextured.positions.length ∧
      Tiles (meshesOfKind false ret.meshes) ret.dataUntextured.positions.length)
    (fun _ _ _ h => extractMaterial_tiles h) hf hP
theorem sum_indicator {L : List Nat} (hnd : L.Nodup) {y : Nat} (hy : y ∈ L) (o : Option Nat)
    (ho : o = some y) : (L.map fun x => if o = some x then 1 else 0).sum = 1 := by
  subst ho
  induction L with
  | nil => cases hy
  | cons a L ih =>
    rw [List.nodup_cons] at hnd
    rw [List.map_cons, List.sum_cons]
    by_cases hya : y = a
    · subst hya
      have hz : (L.map fun x => if some y = some x then 1 else 0).sum = 0 := by
        apply List.sum_eq_zero
        intro n hn
        obtain ⟨x, hx, rfl⟩ := List.mem_map.mp hn
        have : y ≠ x := fun e => hnd.1 (e ▸ hx)
        simp [this]
      rw [hz]; simp
    · have hy' : y ∈ L := by
        rcases List.mem_cons.mp hy with e | e
        · exact absurd e hya
        · exact e
      rw [ih hnd.2 hy']
      simp [hya]

/-- Every one of the first `n` face vertices is counted for exactly one material of a
list without repetition that holds the materials of all of them. -/
theorem sum_verticesUpTo (mesh : rapidobj.Mesh) {L : List Nat} (hnd : L.Nodup) (n : Nat)
    (hn : n ≤ mesh.indices.length)
    (hcov : ∀ i, i < n → ∃ x, x ∈ L ∧ materialAt mesh i = some x) :
    (L.map fun x => (verticesUpTo mesh x n).length).sum = n := by
  induction n with
  | zero =>
    apply List.sum_eq_zero
    intro k hk
    obtain ⟨x, -, rfl⟩ := List.mem_map.mp hk
    simp [verticesUpTo]
  | succ n ih =>
    have e : (L.map fun x => (verticesUpTo mesh x (n + 1)).length) =
        L.map fun x => (verticesUpTo mesh x n).length +
          (if materialAt mesh n = some x then 1 else 0) := by
      apply List.map_congr_left
      intro x _
      exact length_verticesUpTo_succ mesh x n (by omega)
    rw [e, List.sum_map_add, ih (by omega) (fun i hi => hcov i (by omega))]
    obtain ⟨y, hy, hmat⟩ := hcov n (by omega)
    rw [sum_indicator hnd hy _ hmat]

theorem totalCount_kinds (ms : List SimpleMeshInfo) :
    totalCount (meshesOfKind true ms) + totalCount (meshesOfKind false ms) = totalCount ms := by
  induction ms with
  | nil => rfl
  | cons m ms ih =>
    have e : m :: ms = [m] ++ ms := rfl
    rw [e, meshesOfKind_append, meshesOfKind_append, totalCount_append, totalCount_append,
      totalCount_append]
    cases hb : m.textured with
    | true =>
      have h₁ : meshesOfKind true [m] = [m] := by simp [meshesOfKind, hb]
      have h₂ : meshesOfKind false [m] = [] := by simp [meshesOfKind, hb]
      rw [h₁, h₂]
      simp only [totalCount, List.map_nil, List.sum_nil] at ih ⊢
      omega
    | false =>
      have h₁ : meshesOfKind true [m] = [] := by simp [meshesOfKind, hb]
      have h₂ : meshesOfKind false [m] = [m] := by simp [meshesOfKind, hb]
      rw [h₁, h₂]
      simp only [totalCount, List.map_nil, List.sum_nil] at ih ⊢
      omega

theorem totalCount_flatten (ls : List (List SimpleMeshInfo)) :
    totalCount ls.flatten = (ls.map totalCount).sum := by
  induction ls with
  | nil => rfl
  | cons l ls ih => rw [List.flatten_cons, totalCount_append, ih, List.map_cons, List.sum_cons]

/-- The descriptors of a shape count every face vertex of the shape once. -/
theorem totalCount_shape {env : Env} {aPath : String} {model : SimpleModel}
    (h : load_simple_wavefront_obj env aPath = .ok model) {k : Nat}
    (hk : k < (triangulated env aPath).shapes.length) :
    totalCount (meshesOfShape env aPath k) =
      ((triangulated env aPath).shapes[k]).mesh.indices.length := by
  obtain ⟨hnd, hmem, hd⟩ := shape_emits h hk
  have hscan := shape_scanned h hk
  have e : totalCount (meshesOfShape env aPath k) =
      (((meshesOfShape env aPath k).map fun m => m.materialIndex).map fun x =>
        (verticesUpTo ((triangulated env aPath).shapes[k]).mesh x
          ((triangulated env aPath).shapes[k]).mesh.indices.length).length).sum := by
    unfold totalCount
    rw [List.map_map]
    congr 1
    apply List.map_congr_left
    intro m hm
    exact (hd m hm).count
  rw [e]
  apply sum_verticesUpTo _ hnd _ (Nat.le_refl _)
  intro i hi
  obtain ⟨id, hid, -⟩ := hscan i hi
  have hmat : materialAt ((triangulated env aPath).shapes[k]).mesh i = some (toSizeT id) := by
    unfold materialAt; rw [hid]; rfl
  exact ⟨toSizeT id, (hmem _).mpr ⟨i, hi, hmat⟩, hmat⟩

theorem load_total {env : Env} {aPath : String} {model : SimpleModel}
    (h : load_simple_wavefront_obj env aPath = .ok model) :
    totalCount model.meshes =
      ((triangulated env aPath).shapes.map fun s => s.mesh.indices.length).sum := by
  rw [load_meshes h, totalCount_flatten, List.map_map]
  congr 1
  apply List.ext_getElem
  · simp
  · intro k h₁ h₂
    simp only [List.length_map, List.length_range] at h₁
    simp only [List.getElem_map, List.getElem_range, Function.comp]
    exact totalCount_shape h h₁

theorem totalCount_take_le (ms : List SimpleMeshInfo) {i j : Nat} (hij : i ≤ j) :
    totalCount (ms.take i) ≤ totalCount (ms.take j) := by
  have e : ms.take j = ms.take i ++ (ms.drop i).take (j - i) := by
    rw [← List.take_append_drop i (ms.take j)]
    congr 1
    · rw [List.take_take, Nat.min_eq_left hij]
    · rw [List.drop_take]
  rw [e, totalCount_append]
  omega

theorem totalCount_take_succ {ms : List SimpleMeshInfo} {i : Nat} {m : SimpleMeshInfo}
    (h : ms[i]? = some m) : totalCount (ms.take (i + 1)) = totalCount (ms.take i) + m.vertexCount := by
  have hi : i < ms.length := (List.getElem?_eq_some_iff.mp h).1
  have hm : ms[i] = m := (List.getElem?_eq_some_iff.mp h).2
  rw [List.take_succ, totalCount_append, h]
  simp [totalCount]

/-- Tiling spans do not overlap and leave no gap. -/
theorem Tiles.disjoint {ms : List SimpleMeshInfo} {n : Nat} (h : Tiles ms n) :
    (∀ (i j : Nat) (a b : SimpleMeshInfo), i < j → ms[i]? = some a → ms[j]? = some b →
      a.vertexStartIndex + a.vertexCount ≤ b.vertexStartIndex) ∧
    (∀ (i : Nat) (a b : SimpleMeshInfo), ms[i]? = some a → ms[i + 1]? = some b →
      b.vertexStartIndex = a.vertexStartIndex + a.vertexCount) ∧
    (∀ a : SimpleMeshInfo, ms[0]? = some a → a.vertexStartIndex = 0) ∧
    (∀ a : SimpleMeshInfo, ms.getLast? = some a → a.vertexStartIndex + a.vertexCount = n) ∧
    ∀ a : SimpleMeshInfo, a ∈ ms → a.vertexStartIndex + a.vertexCount ≤ n := by
  obtain ⟨h₁, h₂⟩ := h
  have hend : ∀ (i : Nat) (a : SimpleMeshInfo), ms[i]? = some a →
      a.vertexStartIndex + a.vertexCount = totalCount (ms.take (i + 1)) := by
    intro i a hi
    rw [totalCount_take_succ hi, h₁ i a hi]
  refine ⟨?_, ?_, ?_, ?_, ?_⟩
  · intro i j a b hij hi hj
    rw [hend i a hi, h₁ j b hj]
    exact totalCount_take_le ms hij
  · intro i a b hi hj
    rw [h₁ (i + 1) b hj, hend i a hi]
  · intro a ha
    rw [h₁ 0 a ha]; rfl
  · intro a ha
    rw [List.getLast?_eq_getElem?] at ha
    rw [hend _ a ha, ← h₂]
    have hlen : 0 < ms.length := by
      have := (List.getElem?_eq_some_iff.mp ha).1
      omega
    rw [List.take_of_length_le (by omega)]
  · intro a ha
    obtain ⟨i, hi⟩ := List.mem_iff_getElem?.mp ha
    rw [hend i a hi, ← h₂]
    have := totalCount_take_le ms (Nat.le_max_left (i + 1) ms.length)
    rw [List.take_of_length_le (Nat.le_max_right (i + 1) ms.length)] at this
    exact this
/-- With three face vertices to a face, the vertices of a material come in triples,
each the three face vertices of one face of that material. -/
theorem verticesUpTo_triple (mesh : rapidobj.Mesh) (matId F : Nat)
    (hF : 3 * F ≤ mesh.indices.length) (j : Nat)
    (hj : 3 * j + 2 < (verticesUpTo mesh matId (3 * F)).length) :
    ∃ f, f < F ∧ (mesh.material_ids[f]?).map toSizeT = some matId ∧
      (verticesUpTo mesh matId (3 * F))[3 * j]? = mesh.indices[3 * f]? ∧
      (verticesUpTo mesh matId (3 * F))[3 * j + 1]? = mesh.indices[3 * f + 1]? ∧
      (verticesUpTo mesh matId (3 * F))[3 * j + 2]? = mesh.indices[3 * f + 2]? := by
  induction F with
  | zero => simp [verticesUpTo] at hj
  | succ F ih =>
    have h0 := materialAt_face mesh F 0 (by omega)
    have h1 := materialAt_face mesh F 1 (by omega)
    have h2 := materialAt_face mesh F 2 (by omega)
    simp only [Nat.add_zero] at h0
    have g0 : mesh.indices[3 * F]? = some mesh.indices[3 * F] := List.getElem?_eq_getElem (by omega)
    have g1 : mesh.indices[3 * F + 1]? = some mesh.indices[3 * F + 1] :=
      List.getElem?_eq_getElem (by omega)
    have g2 : mesh.indices[3 * F + 2]? = some mesh.indices[3 * F + 2] :=
      List.getElem?_eq_getElem (by omega)
    have hsplit : verticesUpTo mesh matId (3 * (F + 1)) = verticesUpTo mesh matId (3 * F) ++
        (if (mesh.material_ids[F]?).map toSizeT = some matId then
          [mesh.indices[3 * F], mesh.indices[3 * F + 1], mesh.indices[3 * F + 2]] else []) := by
      have hl : verticesUpTo mesh matId (3 * (F + 1)) =
          verticesUpTo mesh matId (3 * F + 1 + 1 + 1) :=
        congrArg _ (show 3 * (F + 1) = 3 * F + 1 + 1 + 1 by ring)
      rw [hl, verticesUpTo_succ, verticesUpTo_succ, verticesUpTo_succ, h0, h1, h2]
      by_cases hm : (mesh.material_ids[F]?).map toSizeT = some matId
      · simp only [hm, if_true]
        rw [g0, g1, g2]
        simp
      · simp only [hm, if_false]
        simp
    have hlen := length_verticesUpTo_faces mesh matId F (by omega)
    rw [hsplit] at hj ⊢
    by_cases hin : 3 * j + 2 < (verticesUpTo mesh matId (3 * F)).length
    · obtain ⟨f, hf, hm, e0, e1, e2⟩ := ih (by omega) hin
      refine ⟨f, by omega, hm, ?_, ?_, ?_⟩
      · rw [List.getElem?_append_left (by omega)]; exact e0
      · rw [List.getElem?_append_left (by omega)]; exact e1
      · rw [List.getElem?_append_left (by omega)]; exact e2
    · by_cases hm : (mesh.material_ids[F]?).map toSizeT = some matId
      · rw [if_pos hm] at hj ⊢
        simp only [List.length_append, List.length_cons, List.length_nil] at hj
        have hjeq : 3 * j = (verticesUpTo mesh matId (3 * F)).length := by omega
        refine ⟨F, by omega, hm, ?_, ?_, ?_⟩
        · rw [List.getElem?_append_right (by omega), hjeq, g0]; simp
        · rw [List.getElem?_append_right (by omega), hjeq, g1]; simp
        · rw [List.getElem?_append_right (by omega), hjeq, g2]; simp
      · rw [if_neg hm] at hj
        simp only [List.append_nil] at hj
        exact absurd hj hin

theorem dvd_totalCount {ms : List SimpleMeshInfo} (h : ∀ m, m ∈ ms → 3 ∣ m.vertexCount) :
    3 ∣ totalCount ms := by
  unfold totalCount
  apply List.dvd_sum
  intro x hx
  obtain ⟨m, hm, rfl⟩ := List.mem_map.mp hx
  exact h m hm

theorem mem_meshesOfKind {ms : List SimpleMeshInfo} {m : SimpleMeshInfo} (h : m ∈ ms) :
    m ∈ meshesOfKind m.textured ms := by
  simp [meshesOfKind, h]

theorem mem_of_mem_meshesOfKind {b : Bool} {ms : List SimpleMeshInfo} {m : SimpleMeshInfo}
    (h : m ∈ meshesOfKind b ms) : m ∈ ms :=
  (List.mem_filter.mp h).1

/-- C22 (whole triangles only).  When the index count of every shape is three times a
number of faces, every mesh descriptor of a returned model has a `vertexCount` and a
`vertexStartIndex` that are multiples of 3, and each consecutive triple of its span
is one input face of its shape with its material: the three soup entries are the
resolved positions (and, in the textured soup, texcoords) of the three face vertices
of that face. -/
theorem C22_whole_triangles (env : Env) (aPath : String) (model : SimpleModel)
    (hload : load_simple_wavefront_obj env aPath = .ok model)
    (htri : ∀ shape, shape ∈ (triangulated env aPath).shapes →
      ∃ faces, shape.mesh.indices.length = 3 * faces) :
    (∀ m, m ∈ model.meshes → 3 ∣ m.vertexCount ∧ 3 ∣ m.vertexStartIndex) ∧
    ∀ k (hk : k < (triangulated env aPath).shapes.length) (m : SimpleMeshInfo),
      m ∈ meshesOfShape env aPath k → ∀ j, 3 * j + 2 < m.vertexCount →
      ∃ f a b c,
        (((triangulated env aPath).shapes[k]).mesh.material_ids[f]?).map toSizeT =
          some m.materialIndex ∧
        ((triangulated env aPath).shapes[k]).mesh.indices[3 * f]? = some a ∧
        ((triangulated env aPath).shapes[k]).mesh.indices[3 * f + 1]? = some b ∧
        ((triangulated env aPath).shapes[k]).mesh.indices[3 * f + 2]? = some c ∧
        (opos m.textured model)[m.vertexStartIndex + 3 * j]? =
          resolvePosition (triangulated env aPath).attributes a ∧
        (opos m.textured model)[m.vertexStartIndex + (3 * j + 1)]? =
          resolvePosition (triangulated env aPath).attributes b ∧
        (opos m.textured model)[m.vertexStartIndex + (3 * j + 2)]? =
          resolvePosition (triangulated env aPath).attributes c ∧
        (m.textured = true →
          model.dataTextured.texcoords[m.vertexStartIndex + 3 * j]? =
            resolveTexcoord (triangulated env aPath).attributes a ∧
          model.dataTextured.texcoords[m.vertexStartIndex + (3 * j + 1)]? =
            resolveTexcoord (triangulated env aPath).attributes b ∧
          model.dataTextured.texcoords[m.vertexStartIndex + (3 * j + 2)]? =
            resolveTexcoord (triangulated env aPath).attributes c) := by
  have hcount : ∀ m, m ∈ model.meshes → 3 ∣ m.vertexCount := by
    intro m hm
    obtain ⟨k, hk, hmk⟩ := (mem_meshes hload).mp hm
    obtain ⟨-, -, hd⟩ := shape_emits hload hk
    obtain ⟨F, hF⟩ := htri _ (List.getElem_mem hk)
    rw [(hd m hmk).count, verticesOf, hF, length_verticesUpTo_faces _ _ _ (by omega)]
    exact Dvd.intro _ rfl
  obtain ⟨ht, hu⟩ := load_tiles hload
  constructor
  · intro m hm
    refine ⟨hcount m hm, ?_⟩
    have hkind : Tiles (meshesOfKind m.textured model.meshes) (opos m.textured model).length := by
      cases hb : m.textured with
      | true => exact ht
      | false => exact hu
    obtain ⟨i, hi⟩ := List.mem_iff_getElem?.mp (mem_meshesOfKind hm)
    rw [hkind.1 i m hi]
    apply dvd_totalCount
    intro m' hm'
    exact hcount m' (mem_of_mem_meshesOfKind (List.mem_of_mem_take hm'))
  · intro k hk m hm j hj
    obtain ⟨-, -, hd⟩ := shape_emits hload hk
    have hdm := hd m hm
    obtain ⟨F, hF⟩ := htri _ (List.getElem_mem hk)
    have hlenV : m.vertexCount =
        (verticesUpTo ((triangulated env aPath).shapes[k]).mesh m.materialIndex (3 * F)).length := by
      rw [hdm.count, verticesOf, hF]
    obtain ⟨f, -, hmat, e0, e1, e2⟩ :=
      verticesUpTo_triple ((triangulated env aPath).shapes[k]).mesh m.materialIndex F (by omega) j
        (by omega)
    have hV : verticesOf ((triangulated env aPath).shapes[k]).mesh m.materialIndex =
        verticesUpTo ((triangulated env aPath).shapes[k]).mesh m.materialIndex (3 * F) := by
      rw [verticesOf, hF]
    obtain ⟨a, va, ha, hsa, hra⟩ :=
      resolved_getElem? hdm.positions hdm.bound hdm.count (show 3 * j < m.vertexCount by omega)
    obtain ⟨b, vb, hb, hsb, hrb⟩ :=
      resolved_getElem? hdm.positions hdm.bound hdm.count (show 3 * j + 1 < m.vertexCount by omega)
    obtain ⟨c, vc, hc, hsc, hrc⟩ :=
      resolved_getElem? hdm.positions hdm.bound hdm.count (show 3 * j + 2 < m.vertexCount by omega)
    rw [hV] at ha hb hc
    refine ⟨f, a, b, c, hmat, e0 ▸ ha, e1 ▸ hb, e2 ▸ hc, hsa.trans hra.symm, hsb.trans hrb.symm,
      hsc.trans hrc.symm, ?_⟩
    intro htex
    obtain ⟨a', ta, ha', hta, hrta⟩ := resolved_getElem? (hdm.texcoords htex) (hdm.texBound htex)
      hdm.count (show 3 * j < m.vertexCount by omega)
    obtain ⟨b', tb, hb', htb, hrtb⟩ := resolved_getElem? (hdm.texcoords htex) (hdm.texBound htex)
      hdm.count (show 3 * j + 1 < m.vertexCount by omega)
    obtain ⟨c', tc, hc', htc, hrtc⟩ := resolved_getElem? (hdm.texcoords htex) (hdm.texBound htex)
      hdm.count (show 3 * j + 2 < m.vertexCount by omega)
    rw [hV] at ha' hb' hc'
    have ea : a' = a := Option.some.inj (ha'.symm.trans ha)
    have eb : b' = b := Option.some.inj (hb'.symm.trans hb)
    have ec : c' = c := Option.some.inj (hc'.symm.trans hc)
    subst ea eb ec
    exact ⟨hta.trans hrta.symm, htb.trans hrtb.symm, htc.trans hrtc.symm⟩

/-- In the run on `sampleResult`, whose shape has nine face vertices for three faces,
the counts 6 and 3 and the starts 0 and 0 of the descriptors are multiples of 3. -/
theorem C22_whole_triangles_witness :
    load_simple_wavefront_obj (sampleEnv sampleResult) "assets/m.obj" = .ok sampleModel ∧
    (∀ shape, shape ∈ (triangulated (sampleEnv sampleResult) "assets/m.obj").shapes →
      ∃ faces, shape.mesh.indices.length = 3 * faces) ∧
    ∀ m, m ∈ sampleModel.meshes → 3 ∣ m.vertexCount ∧ 3 ∣ m.vertexStartIndex :=
  ⟨rfl, fun _ h => ⟨3, by cases List.mem_singleton.mp h; rfl⟩,
    (C22_whole_triangles (sampleEnv sampleResult) "assets/m.obj" sampleModel rfl
      (fun _ h => ⟨3, by cases List.mem_singleton.mp h; rfl⟩)).1⟩

/-- C24 (the spans tile the soups).  In a returned model, for the textured descriptors
in model order and, in the same way, for the untextured ones: each `vertexStartIndex`
is the sum of the `vertexCount`s of the descriptors of that kind before it, and the
sum of all their `vertexCount`s is the length of the positions of their soup.  Hence
two spans of one kind do not overlap, each starts where the one before it ends, the
first starts at 0 and the last ends at the end of the soup; and the two soups
together have as many entries as the shapes have face vertices. -/
theorem C24_spans_tile (env : Env) (aPath : String) (model : SimpleModel)
    (hload : load_simple_wavefront_obj env aPath = .ok model) :
    (∀ textured : Bool,
      (∀ (i : Nat) (m : SimpleMeshInfo), (meshesOfKind textured model.meshes)[i]? = some m →
        m.vertexStartIndex = totalCount ((meshesOfKind textured model.meshes).take i)) ∧
      totalCount (meshesOfKind textured model.meshes) = (opos textured model).length ∧
      (∀ (i j : Nat) (a b : SimpleMeshInfo), i < j →
        (meshesOfKind textured model.meshes)[i]? = some a →
        (meshesOfKind textured model.meshes)[j]? = some b →
        a.vertexStartIndex + a.vertexCount ≤ b.vertexStartIndex) ∧
      (∀ (i : Nat) (a b : SimpleMeshInfo), (meshesOfKind textured model.meshes)[i]? = some a →
        (meshesOfKind textured model.meshes)[i + 1]? = some b →
        b.vertexStartIndex = a.vertexStartIndex + a.vertexCount) ∧
      (∀ a : SimpleMeshInfo, (meshesOfKind textured model.meshes)[0]? = some a →
        a.vertexStartIndex = 0) ∧
      (∀ a : SimpleMeshInfo, (meshesOfKind textured model.meshes).getLast? = some a →
        a.vertexStartIndex + a.vertexCount = (opos textured model).length)) ∧
    model.dataTextured.positions.length + model.dataUntextured.positions.length =
      ((triangulated env aPath).shapes.map fun s => s.mesh.indices.length).sum := by
  obtain ⟨ht, hu⟩ := load_tiles hload
  constructor
  · intro textured
    have hkind : Tiles (meshesOfKind textured model.meshes) (opos textured model).length := by
      cases textured with
      | true => exact ht
      | false => exact hu
    obtain ⟨h₁, h₂, h₃, h₄, -⟩ := hkind.disjoint
    exact ⟨hkind.1, hkind.2, h₁, h₂, h₃, h₄⟩
  · rw [← ht.2, ← hu.2, totalCount_kinds, load_total hload]

/-- In the run on `pairResult` the two untextured descriptors span 0..3 and 3..6 of a
soup of 6 entries, the textured one spans 0..3 of a soup of 3, and the shapes have
3 + 6 face vertices. -/
theorem C24_spans_tile_witness :
    load_simple_wavefront_obj (stackEnv pairResult) "pair.obj" = .ok pairModel ∧
    meshesOfKind false pairModel.meshes =
      [⟨"first", 0, false, 0, 3⟩, ⟨"second::plain", 0, false, 3, 3⟩] ∧
    totalCount (meshesOfKind false pairModel.meshes) = (opos false pairModel).length ∧
    pairModel.dataTextured.positions.length + pairModel.dataUntextured.positions.length =
      ((triangulated (stackEnv pairResult) "pair.obj").shapes.map
        fun s => s.mesh.indices.length).sum :=
  ⟨rfl, by decide,
    ((C24_spans_tile (stackEnv pairResult) "pair.obj" pairModel rfl).1 false).2.1,
    (C24_spans_tile (stackEnv pairResult) "pair.obj" pairModel rfl).2⟩
/-! ## Load, then materialize -/

/-- An exception of `create_textured_mesh` on arrays that hold all the floats of the
count is a `lut::Error`. -/
theorem create_textured_mesh_error {dev : Device} {n : Nat} {aPositions aTexCoords : List float}
    {aVertCount : Nat} {e : Thrown}
    (hp : aVertCount * 3 ≤ aPositions.length) (ht : aVertCount * 2 ≤ aTexCoords.length)
    (h : create_textured_mesh dev n aPositions aTexCoords aVertCount = .error e) :
    ∃ message, e = .error message := by
  have h₁ : ¬ aPositions.length * 4 < aVertCount * 3 * 4 := by omega
  have h₂ : ¬ aTexCoords.length * 4 < aVertCount * 2 * 4 := by omega
  unfold create_textured_mesh at h
  simp only [lutError, h₁, h₂, if_false] at h
  repeat' split at h
  all_goals first | (cases h; exact ⟨_, rfl⟩) | cases h

/-- An exception of `create_coloured_mesh` on arrays that hold all the floats of the
count is a `lut::Error`. -/
theorem create_coloured_mesh_error {dev : Device} {n : Nat} {aPositions aColor : List float}
    {aVertCount : Nat} {e : Thrown}
    (hp : aVertCount * 3 ≤ aPositions.length) (hc : aVertCount * 3 ≤ aColor.length)
    (h : create_coloured_mesh dev n aPositions aColor aVertCount = .error e) :
    ∃ message, e = .error message := by
  have h₁ : ¬ aPositions.length * 4 < aVertCount * 3 * 4 := by omega
  have h₂ : ¬ aColor.length * 4 < aVertCount * 3 * 4 := by omega
  unfold create_coloured_mesh at h
  simp only [lutError, h₁, h₂, if_false] at h
  repeat' split at h
  all_goals first | (cases h; exact ⟨_, rfl⟩) | cases h

/-- The arrays of a call made by the loop hold all the floats of its count. -/
theorem callFor_lengths {meshes : SimpleModel} {mesh : SimpleMeshInfo} {call : BackendCall}
    (h : callFor meshes mesh = .ok call) :
    match call with
    | .textured d => d.vertexCount * 3 ≤ d.positions.length ∧ d.vertexCount * 2 ≤ d.texCoords.length
    | .coloured d => d.vertexCount * 3 ≤ d.positions.length ∧ d.vertexCount * 3 ≤ d.colours.length := by
  unfold callFor at h
  split at h
  · cases hg : gatherTextured meshes mesh with
    | error e => rw [hg] at h; cases h
    | ok d =>
      rw [hg] at h
      simp only [] at h
      cases hm : meshes.materials[mesh.materialIndex]? with
      | none => rw [hm] at h; cases h
      | some material =>
        rw [hm] at h
        cases h
        obtain ⟨h₁, h₂, h₃, h₄, h₅⟩ := gatherTextured_ok hg
        simp only []
        rw [h₁, h₂, length_flat3, length_flat2, h₃, h₄, h₅]
        omega
  · cases hg : gatherColoured meshes mesh with
    | error e => rw [hg] at h; cases h
    | ok d =>
      rw [hg] at h
      cases h
      obtain ⟨h₁, h₂, h₃, h₄⟩ := gatherColoured_ok hg
      simp only []
      rw [h₁, length_flat3, h₂, h₃]
      rcases h₄ with ⟨h0, -⟩ | ⟨material, -, hc⟩
      · omega
      · rw [hc, length_flat3, List.length_replicate]; omega

/-- A failure of the backend on a call made by the loop is a `lut::Error`. -/
theorem backendFailure_error {dev : Device} {meshes : SimpleModel} {mesh : SimpleMeshInfo}
    {call : BackendCall} {n : Nat} {e : Thrown} (h : callFor meshes mesh = .ok call)
    (hf : backendFailure dev n call = some e) : ∃ message, e = .error message := by
  have hl := callFor_lengths h
  cases call with
  | textured d =>
    simp only [backendFailure] at hf
    cases hc : create_textured_mesh dev n d.positions d.texCoords d.vertexCount with
    | ok r => rw [hc] at hf; cases hf
    | error e' =>
      rw [hc] at hf
      cases hf
      exact create_textured_mesh_error hl.1 hl.2 hc
  | coloured d =>
    simp only [backendFailure] at hf
    cases hc : create_coloured_mesh dev n d.positions d.colours d.vertexCount with
    | ok r => rw [hc] at hf; cases hf
    | error e' =>
      rw [hc] at hf
      cases hf
      exact create_coloured_mesh_error hl.1 hl.2 hc

/-- On a device whose answers are all successes, the backend fails on no call made by
the loop. -/
theorem backendFailure_none {dev : Device} {meshes : SimpleModel} {mesh : SimpleMeshInfo}
    {call : BackendCall} {n : Nat} (h : callFor meshes mesh = .ok call)
    (hdev : dev.upload n = successAnswers) : backendFailure dev n call = none := by
  have hl := callFor_lengths h
  cases call with
  | textured d =>
    simp only [backendFailure]
    rw [create_textured_mesh_returns hdev hl.1 hl.2]
  | coloured d =>
    simp only [backendFailure]
    rw [create_coloured_mesh_returns hdev hl.1 hl.2]

/-- The body of the loop reaches its backend call for a descriptor whose span lies in
its soup and whose material exists. -/
theorem callFor_returns {meshes : SimpleModel} {mesh : SimpleMeshInfo}
    (hp : mesh.vertexStartIndex + mesh.vertexCount ≤ (opos mesh.textured meshes).length)
    (ht : mesh.textured = true →
      mesh.vertexStartIndex + mesh.vertexCount ≤ meshes.dataTextured.texcoords.length)
    {material : SimpleMaterialInfo} (hm : meshes.materials[mesh.materialIndex]? = some material) :
    ∃ call, callFor meshes mesh = .ok call := by
  unfold callFor
  cases hb : mesh.textured with
  | true =>
    rw [hb] at hp
    obtain ⟨d, hd⟩ := @gatherTextured_returns meshes mesh hp (ht hb)
    simp only [if_true, hd, hm]
    exact ⟨_, rfl⟩
  | false =>
    rw [hb] at hp
    obtain ⟨d, hd⟩ := @gatherColoured_returns meshes mesh hp _ hm
    simp only [Bool.false_eq_true, if_false, hd]
    exact ⟨_, rfl⟩

/-- Every descriptor of a returned model has its span in its soup and its material
among the materials. -/
theorem load_wellformed {env : Env} {aPath : String} {model : SimpleModel}
    (h : load_simple_wavefront_obj env aPath = .ok model) {mesh : SimpleMeshInfo}
    (hm : mesh ∈ model.meshes) :
    mesh.vertexStartIndex + mesh.vertexCount ≤ (opos mesh.textured model).length ∧
    (mesh.textured = true →
      mesh.vertexStartIndex + mesh.vertexCount ≤ model.dataTextured.texcoords.length) ∧
    ∃ material, model.materials[mesh.materialIndex]? = some material := by
  obtain ⟨k, hk, hmk⟩ := (mem_meshes h).mp hm
  obtain ⟨-, -, hd⟩ := shape_emits h hk
  have hdm := hd mesh hmk
  obtain ⟨material, hmat, -⟩ := hdm.material
  exact ⟨hdm.bound, hdm.texBound, material, hmat⟩

/-- What can leave the loop over a model in which every descriptor reaches its backend
call is a failure of the backend, and it is a `lut::Error`. -/
theorem materializeRun_thrown {dev : Device} {meshes : SimpleModel}
    (hwf : ∀ mesh, mesh ∈ meshes.meshes → ∃ call, callFor meshes mesh = .ok call)
    {e : Thrown} (h : (materializeRun dev meshes).2 = some e) :
    ∃ k call message, (materializeRun dev meshes).1.calls[k]? = some call ∧
      backendFailure dev k call = some e ∧ e = .error message := by
  obtain ⟨cs, hcs, hmesh, hout⟩ := @materializeLoop_calls dev meshes
    meshes.meshes { colouredMeshes := [], meshMaterial := [], texturedMeshes := [], calls := [] }
  have hcs' : (materializeRun dev meshes).1.calls = cs := by
    unfold materializeRun; rw [hcs]; rfl
  have h' : (materializeLoop dev meshes meshes.meshes
      { colouredMeshes := [], meshMaterial := [], texturedMeshes := [], calls := [] }).2 = some e := h
  simp only [List.length_nil, Nat.zero_add] at hout
  rcases hout with ⟨hnone, -, -⟩ | ⟨e', m, he, hm, hcall, -⟩ | ⟨e', cs', c, he, rfl, hfc, -⟩
  · rw [hnone] at h'; cases h'
  · obtain ⟨call, hc⟩ := hwf m (List.mem_iff_getElem?.mpr ⟨_, hm⟩)
    rw [hc] at hcall; cases hcall
  · rw [he] at h'
    cases h'
    have hget : (cs' ++ [c])[cs'.length]? = some c := by
      rw [List.getElem?_append_right (Nat.le_refl _)]; simp
    obtain ⟨mesh, -, hcf⟩ := hmesh cs'.length c hget
    obtain ⟨message, hmsg⟩ := backendFailure_error hcf hfc
    exact ⟨cs'.length, c, message, by rw [hcs']; exact hget, hfc, hmsg⟩

theorem materialize_returns {dev : Device} {meshes : SimpleModel}
    (h : (materializeRun dev meshes).2 = none) :
    materialize dev meshes = .ok (materializeRun dev meshes).1 := by
  unfold materialize
  cases hr : materializeRun dev meshes with
  | mk run o =>
    rw [hr] at h
    simp only at h
    subst h
    rfl

/-! ## Claims about the safety of the reads -/

/-- C23 (load, then materialize, never reads out of range).  For every model that the
loader returns and every device: for each mesh descriptor the material lookup
`materials[mesh.materialIndex]` is in range, every bounds-checked read
`positions.at(i)` (and `texcoords.at(i)` for a textured mesh) with `i` in
`[vertexStartIndex, vertexStartIndex + vertexCount)` returns, and the body of the loop
reaches its backend call.  So an exception that leaves the materialization is the
`lut::Error` of a backend call that failed; when no backend call fails, and so on a
device on which every call succeeds, the materialization returns its collections. -/
theorem C23_load_then_materialize (env : Env) (aPath : String) (model : SimpleModel)
    (hload : load_simple_wavefront_obj env aPath = .ok model) (dev : Device) :
    (∀ mesh, mesh ∈ model.meshes →
      (∃ material, model.materials[mesh.materialIndex]? = some material) ∧
      (∀ i, mesh.vertexStartIndex ≤ i → i < mesh.vertexStartIndex + mesh.vertexCount →
        (∃ p, vectorAt (opos mesh.textured model) i = .ok p) ∧
        (mesh.textured = true → ∃ t, vectorAt model.dataTextured.texcoords i = .ok t)) ∧
      ∃ call, callFor model mesh = .ok call) ∧
    (∀ e, (materializeRun dev model).2 = some e →
      ∃ k call message, (materializeRun dev model).1.calls[k]? = some call ∧
        backendFailure dev k call = some e ∧ e = .error message) ∧
    ((∀ (k : Nat) (call : BackendCall), (materializeRun dev model).1.calls[k]? = some call →
        backendFailure dev k call = none) →
      ∃ out, materialize dev model = .ok out) ∧
    ((∀ n, dev.upload n = successAnswers) → ∃ out, materialize dev model = .ok out) := by
  have hwf : ∀ mesh, mesh ∈ model.meshes → ∃ call, callFor model mesh = .ok call := by
    intro mesh hm
    obtain ⟨hp, ht, material, hmat⟩ := load_wellformed hload hm
    exact callFor_returns hp ht hmat
  have hnone : (∀ (k : Nat) (call : BackendCall),
      (materializeRun dev model).1.calls[k]? = some call → backendFailure dev k call = none) →
      ∃ out, materialize dev model = .ok out := by
    intro hall
    cases ho : (materializeRun dev model).2 with
    | none => exact ⟨_, materialize_returns ho⟩
    | some e =>
      obtain ⟨k, call, -, hcall, hfail, -⟩ := materializeRun_thrown hwf ho
      rw [hall k call hcall] at hfail
      cases hfail
  refine ⟨?_, fun e he => materializeRun_thrown hwf he, hnone, ?_⟩
  · intro mesh hm
    obtain ⟨hp, ht, material, hmat⟩ := load_wellformed hload hm
    refine ⟨⟨material, hmat⟩, ?_, hwf mesh hm⟩
    intro i _ hi
    constructor
    · exact ⟨(opos mesh.textured model)[i], vectorAt_ok.mpr (List.getElem?_eq_getElem (by omega))⟩
    · intro htex
      have := ht htex
      exact ⟨model.dataTextured.texcoords[i], vectorAt_ok.mpr (List.getElem?_eq_getElem (by omega))⟩
  · intro hdev
    apply hnone
    intro k call hcall
    obtain ⟨mesh, -, hcf⟩ := call_of_mesh hcall
    exact backendFailure_none hcf (hdev k)

/-- In the run on `pairResult`, every descriptor of the model reaches its backend call,
and what leaves the materialization on a device that loses its second call is the
`lut::Error` of that call. -/
theorem C23_load_then_materialize_witness :
    load_simple_wavefront_obj (stackEnv pairResult) "pair.obj" = .ok pairModel ∧
    (materializeRun (lostDevice 1) pairModel).2 =
      some (.error "Submitting commands\nvkQueueSubmit() returned ERROR_DEVICE_LOST") ∧
    ∃ k call message, (materializeRun (lostDevice 1) pairModel).1.calls[k]? = some call ∧
      backendFailure (lostDevice 1) k call =
        some (.error "Submitting commands\nvkQueueSubmit() returned ERROR_DEVICE_LOST") ∧
      Thrown.error "Submitting commands\nvkQueueSubmit() returned ERROR_DEVICE_LOST" =
        .error message :=
  ⟨rfl, rfl,
    (C23_load_then_materialize (stackEnv pairResult) "pair.obj" pairModel rfl (lostDevice 1)).2.1
      _ rfl⟩
/-! ## The loader on inputs within range -/

theorem toInt_of_lt {n : Nat} (h : n < 2 ^ 31) : toInt n = n := by
  unfold toInt
  omega

theorem toSizeT_toNat {v : Int} (h₀ : 0 ≤ v) (h₁ : v < 2 ^ 31) : toSizeT v = v.toNat := by
  have := toSizeT_of_nonneg h₀ h₁
  omega

theorem readPool_returns {pool : List float} {index : Int} {stride k : Nat}
    (h₀ : 0 ≤ index * stride + k) (h₁ : index * stride + k < 2 ^ 31)
    (h₂ : index * stride + k < pool.length) : ∃ x, readPool pool index stride k = some x := by
  unfold readPool subscript
  simp only [h₀, h₁, and_self, if_true]
  have : (index * stride + k).toNat < pool.length := by omega
  exact ⟨pool[(index * stride + k).toNat], List.getElem?_eq_getElem this⟩

theorem resolvePosition_returns {attributes : rapidobj.Attributes} {idx : rapidobj.Index}
    (h₀ : 0 ≤ idx.position_index) (h₁ : 3 * idx.position_index + 2 < 2 ^ 31)
    (h₂ : 3 * idx.position_index + 2 < attributes.positions.length) :
    ∃ v, resolvePosition attributes idx = some v := by
  obtain ⟨x, hx⟩ := @readPool_returns attributes.positions idx.position_index 3 0
    (by push_cast; omega) (by push_cast; omega) (by push_cast; omega)
  obtain ⟨y, hy⟩ := @readPool_returns attributes.positions idx.position_index 3 1
    (by push_cast; omega) (by push_cast; omega) (by push_cast; omega)
  obtain ⟨z, hz⟩ := @readPool_returns attributes.positions idx.position_index 3 2
    (by push_cast; omega) (by push_cast; omega) (by push_cast; omega)
  exact ⟨⟨x, y, z⟩, by unfold resolvePosition; rw [hx, hy, hz]⟩

theorem resolveTexcoord_returns {attributes : rapidobj.Attributes} {idx : rapidobj.Index}
    (h₀ : 0 ≤ idx.texcoord_index) (h₁ : 2 * idx.texcoord_index + 1 < 2 ^ 31)
    (h₂ : 2 * idx.texcoord_index + 1 < attributes.texcoords.length) :
    ∃ t, resolveTexcoord attributes idx = some t := by
  obtain ⟨x, hx⟩ := @readPool_returns attributes.texcoords idx.texcoord_index 2 0
    (by push_cast; omega) (by push_cast; omega) (by push_cast; omega)
  obtain ⟨y, hy⟩ := @readPool_returns attributes.texcoords idx.texcoord_index 2 1
    (by push_cast; omega) (by push_cast; omega) (by push_cast; omega)
  exact ⟨⟨x, y⟩, by unfold resolveTexcoord; rw [hx, hy]⟩

/-- Indices within the pools whose `int` arithmetic fits are in range for the loader. -/
theorem inRange_of_within {result : rapidobj.Result} (hin : WithinPools result)
    (hint : WithinInt result) : InRange result := by
  have hid : ∀ shape, shape ∈ result.shapes → ∀ i, i < shape.mesh.indices.length →
      ∃ id, shape.mesh.material_ids[i / 3]? = some id ∧ 0 ≤ id ∧
        id < (result.materials.length : Int) := by
    intro shape hs i hi
    have hf := hin.faces shape hs
    have hlt : i / 3 < shape.mesh.material_ids.length := by omega
    refine ⟨shape.mesh.material_ids[i / 3], List.getElem?_eq_getElem hlt, ?_⟩
    exact hin.ids shape hs _ (List.getElem_mem hlt)
  have hm := hint.materials
  constructor
  · intro shape hs i hi
    obtain ⟨id, hget, h₀, h₁⟩ := hid shape hs i hi
    refine ⟨id, hget, ?_, ?_⟩
    · rw [toInt_of_lt hm]; exact h₁
    · rw [toSizeT_toNat h₀ (by omega)]; omega
  · intro shape hs idx hidx
    obtain ⟨h₀, h₁⟩ := hint.positions shape hs idx hidx
    exact resolvePosition_returns h₀ h₁ (hin.positions shape hs idx hidx)
  · intro shape hs i idx x mat hidx hmat hx hname
    have hi : i < shape.mesh.indices.length := (List.getElem?_eq_some_iff.mp hidx).1
    obtain ⟨id, hget, h₀, h₁⟩ := hid shape hs i hi
    have hxe : x = id.toNat := by
      unfold materialAt at hmat
      rw [hget] at hmat
      simp only [Option.map_some', Option.some.injEq] at hmat
      rw [← hmat, toSizeT_toNat h₀ (by omega)]
    subst hxe
    obtain ⟨t₀, t₁⟩ := hint.texcoords shape hs i hi id hget mat hx hname idx hidx
    exact resolveTexcoord_returns t₀ t₁ (hin.texcoords shape hs i hi id hget mat hx hname idx hidx)

/-- A shape whose scan ends in a fault ends the loader in that fault. -/
theorem load_of_scan_error {env : Env} {aPath : String} {shape : rapidobj.Shape} {e : Fault}
    (hcode : (env.ParseFile aPath).error.code = 0)
    (hshapes : (triangulated env aPath).shapes = [shape])
    (hscan : scanMaterials shape (triangulated env aPath).materials.length = .error e) :
    load_simple_wavefront_obj env aPath = .error e := by
  unfold load_simple_wavefront_obj
  rw [if_neg (by simpa using hcode), hshapes]
  have hlen : (initialState env aPath).ret.materials.length =
      (triangulated env aPath).materials.length := by
    simp [initialState]
  simp only [foldE, processShape, hlen, hscan]
theorem withinPools_sample : WithinPools sampleResult :=
  ⟨by decide, by decide, by decide, by decide⟩

theorem withinInt_sample : WithinInt sampleResult :=
  ⟨by decide, by decide, by decide⟩

theorem withinPools_negative : WithinPools negativeResult :=
  ⟨by decide, by decide, by decide, by decide⟩

theorem withinPools_far : WithinPools farResult := by
  refine ⟨by decide, by decide, ?_, by decide⟩
  intro shape hs idx hidx
  have hlen : farResult.attributes.positions.length = 2 ^ 31 + 8 := List.length_replicate _ _
  rw [hlen]
  have hs' : shape = ⟨"far", ⟨[⟨farIndex, -1, -1⟩, ⟨farIndex, -1, -1⟩, ⟨farIndex, -1, -1⟩], [0]⟩⟩ :=
    List.mem_singleton.mp hs
  subst hs'
  have hp : idx.position_index = farIndex := by
    simp only [List.mem_cons, List.mem_singleton, List.not_mem_nil, or_false, or_self] at hidx
    rw [hidx]
  rw [hp]
  decide

theorem withinPools_crowded : WithinPools crowdedResult := by
  have hlen : crowdedResult.materials.length = 2 ^ 31 := List.length_replicate _ _
  refine ⟨by decide, ?_, by decide, ?_⟩
  · intro shape hs id hid
    rw [hlen]
    have hs' : shape = oneFace := List.mem_singleton.mp hs
    subst hs'
    have hid' : id = 0 := List.mem_singleton.mp hid
    subst hid'
    decide
  · intro shape hs i hi id hid mat hmat hname
    have hs' : shape = oneFace := List.mem_singleton.mp hs
    subst hs'
    have hi' : i < 3 := hi
    have h3 : i / 3 = 0 := by omega
    rw [h3] at hid
    cases hid
    have hm : mat = ⟨"plain", (⟨1⟩, ⟨2⟩, ⟨3⟩), ""⟩ := by
      have hmem : mat ∈ crowdedResult.materials := List.mem_iff_getElem?.mpr ⟨_, hmat⟩
      exact List.eq_of_mem_replicate hmem
    subst hm
    exact absurd rfl hname

theorem load_crowded :
    load_simple_wavefront_obj (sampleEnv crowdedResult) "face.obj" = .error (.assertFailed 85) := by
  refine @load_of_scan_error (sampleEnv crowdedResult) "face.obj" oneFace _ rfl rfl ?_
  have hlen : (triangulated (sampleEnv crowdedResult) "face.obj").materials.length = 2 ^ 31 :=
    List.length_replicate _ _
  rw [hlen]
  rfl

theorem load_far :
    load_simple_wavefront_obj (sampleEnv farResult) "far.obj" = .error .outOfRange := by
  rfl

theorem load_negative :
    load_simple_wavefront_obj (sampleEnv negativeResult) "quad.obj" = .error .outOfRange := by
  rfl

/-- C25, refuted as stated.  Three parser results without error whose indices lie
within the pools and the material list, compared as numbers, and on which the loader
does not return: `farResult`, where `3 * p` for the position index `p = 715827883`
does not fit the `int` in which lines 130-132 compute it; `negativeResult`, where the
position index -1 has `3 * p + 2 = -1`, below the length of the pool; and
`crowdedResult`, where the number of materials `2 ^ 31` converts to a negative `int`
and the `assert` of line 85 fails for the material id 0. -/
theorem C25_counterexample :
    (farResult.error.code = 0 ∧ WithinPools farResult ∧
      load_simple_wavefront_obj (sampleEnv farResult) "far.obj" = .error .outOfRange) ∧
    (negativeResult.error.code = 0 ∧ WithinPools negativeResult ∧
      load_simple_wavefront_obj (sampleEnv negativeResult) "quad.obj" = .error .outOfRange) ∧
    (crowdedResult.error.code = 0 ∧ WithinPools crowdedResult ∧
      load_simple_wavefront_obj (sampleEnv crowdedResult) "face.obj" =
        .error (.assertFailed 85)) :=
  ⟨⟨rfl, withinPools_far, load_far⟩, ⟨rfl, withinPools_negative, load_negative⟩,
    ⟨rfl, withinPools_crowded, load_crowded⟩⟩

/-- C25, amended.  For every parsed input without error whose indices lie within the
pools and the material list (`WithinPools`: at least `ceil(indexCount / 3)` material
ids in every shape, `0 ≤ m < number of materials`, `3 * p + 2 < length(positions)`, and
`2 * t + 1 < length(texcoords)` for faces of textured materials) and whose `int`
arithmetic fits (`WithinInt`: fewer than `2 ^ 31` materials, `0 ≤ p`,
`3 * p + 2 < 2 ^ 31`, and `0 ≤ t`, `2 * t + 1 < 2 ^ 31` for faces of textured
materials), the loader returns a model: no read is out of range and none of the
assertions of lines 82, 85, 117 and 145 fails.  Nothing is asked of the texcoord
indices of faces whose material names no texture. -/
theorem C25_safe_within_range (env : Env) (aPath : String)
    (hcode : (env.ParseFile aPath).error.code = 0)
    (hin : WithinPools (triangulated env aPath)) (hint : WithinInt (triangulated env aPath)) :
    (∃ model, load_simple_wavefront_obj env aPath = .ok model) ∧
    ∀ e, load_simple_wavefront_obj env aPath ≠ .error e := by
  obtain ⟨model, hmodel⟩ := load_returns env aPath hcode (inRange_of_within hin hint)
  refine ⟨⟨model, hmodel⟩, ?_⟩
  intro e he
  rw [hmodel] at he
  cases he

/-- The run on `sampleResult` returns: its indices are within range, and the texcoord
index -1 of the three face vertices of its untextured face is not read. -/
theorem C25_safe_within_range_witness :
    (((sampleEnv sampleResult).ParseFile "assets/m.obj").error.code = 0 ∧
      WithinPools (triangulated (sampleEnv sampleResult) "assets/m.obj") ∧
      WithinInt (triangulated (sampleEnv sampleResult) "assets/m.obj")) ∧
    (⟨0, -1, -1⟩ : rapidobj.Index) ∈ (sampleResult.shapes[0]).mesh.indices ∧
    ∃ model, load_simple_wavefront_obj (sampleEnv sampleResult) "assets/m.obj" = .ok model :=
  ⟨⟨rfl, withinPools_sample, withinInt_sample⟩, by decide,
    (C25_safe_within_range (sampleEnv sampleResult) "assets/m.obj" rfl withinPools_sample
      withinInt_sample).1⟩

/-- C26, the check of line 85 is not sufficient.  On `unassignedResult`, whose face has
the material id -1 and whose material list has one entry, the scan of lines 78-87
ends well: for each of the three face vertices the assertion `-1 < int(1)` holds and
`std::size_t(-1) = 2 ^ 64 - 1` is put into `activeMaterials`.  The lookup
`ret.materials[matId]` of line 101 is then made with `matId = 2 ^ 64 - 1`, outside the
list, and the loader does not return a model. -/
theorem C26_unassigned_material :
    (∀ id, id ∈ (unassignedResult.shapes[0]).mesh.material_ids →
      id < toInt unassignedResult.materials.length) ∧
    scanMaterials (unassignedResult.shapes[0]) unassignedResult.materials.length =
      .ok [2 ^ 64 - 1, 2 ^ 64 - 1, 2 ^ 64 - 1] ∧
    (unassignedResult.materials.map (materialInfo ""))[toSizeT (-1)]? = none ∧
    extractMaterial unassignedResult (unassignedResult.shapes[0]) 1
      (initialState (sampleEnv unassignedResult) "loose.obj").ret (2 ^ 64 - 1) =
        .error .outOfRange ∧
    load_simple_wavefront_obj (sampleEnv unassignedResult) "loose.obj" = .error .outOfRange :=
  ⟨by decide, rfl, rfl, rfl, rfl⟩

/-! ## The user state -/

theorem mouseLook_inputMap (glm : Glm) (aState : UserState) :
    (mouseLook glm aState).inputMap = aState.inputMap := by
  unfold mouseLook
  split
  · split <;> rfl
  · rfl

theorem movement_inputMap (glm : Glm) {a b : UserState} (h : a.inputMap = b.inputMap)
    (aElapsedTime : float) (cam : mat4) :
    movement glm a aElapsedTime cam = movement glm b aElapsedTime cam := by
  unfold movement
  rw [h]

/-- The mouse look, case by case. -/
theorem mouseLook_cases (glm : Glm) (aState : UserState) :
    mouseLook glm aState =
      if aState.inputMap (slot .mousing (by decide)) = true then
        { aState with
          previousX := aState.mouseX, previousY := aState.mouseY, wasMousing := true
          camera2world := if aState.wasMousing = true then turned glm aState
            else aState.camera2world }
      else { aState with wasMousing := false } := by
  unfold mouseLook turned
  split
  · split <;> rfl
  · rfl


theorem setInput_sets (state : UserState) (i : Fin EInputState.max.toSizeT) (value : Bool) :
    SetsOnly state (state.setInput i value) i value :=
  ⟨by simp [UserState.setInput], fun j hj => by simp [UserState.setInput, hj]⟩

/-- The key callback, when the user pointer is set. -/
theorem key_press_eq (glfw : Glfw) (aWindow : GLFWwindow) (state : UserState)
    (aKey aScanCode aAction aModifierFlags : Int) (hstate : aWindow.userPointer = some state) :
    glfw_callback_key_press glfw aWindow aKey aScanCode aAction aModifierFlags =
      .ok { shouldClose :=
              if glfw.GLFW_KEY_ESCAPE = aKey ∧ glfw.GLFW_PRESS = aAction then true
              else aWindow.shouldClose
            userPointer := some
              (if aKey = glfw.GLFW_KEY_W then
                state.setInput (slot .forward (by decide)) (!decide (glfw.GLFW_RELEASE = aAction))
              else if aKey = glfw.GLFW_KEY_S then
                state.setInput (slot .backward (by decide)) (!decide (glfw.GLFW_RELEASE = aAction))
              else if aKey = glfw.GLFW_KEY_A then
                state.setInput (slot .strafeLeft (by decide)) (!decide (glfw.GLFW_RELEASE = aAction))
              else if aKey = glfw.GLFW_KEY_D then
                state.setInput (slot .strafeRight (by decide)) (!decide (glfw.GLFW_RELEASE = aAction))
              else if aKey = glfw.GLFW_KEY_E then
                state.setInput (slot .levitate (by decide)) (!decide (glfw.GLFW_RELEASE = aAction))
              else if aKey = glfw.GLFW_KEY_Q then
                state.setInput (slot .sink (by decide)) (!decide (glfw.GLFW_RELEASE = aAction))
              else if aKey = glfw.GLFW_KEY_LEFT_SHIFT ∨ aKey = glfw.GLFW_KEY_RIGHT_SHIFT then
                state.setInput (slot .fast (by decide)) (!decide (glfw.GLFW_RELEASE = aAction))
              else if aKey = glfw.GLFW_KEY_LEFT_CONTROL ∨ aKey = glfw.GLFW_KEY_RIGHT_CONTROL then
                state.setInput (slot .slow (by decide)) (!decide (glfw.GLFW_RELEASE = aAction))
              else state) } := by
  unfold glfw_callback_key_press
  by_cases hesc : glfw.GLFW_KEY_ESCAPE = aKey ∧ glfw.GLFW_PRESS = aAction
  · simp only [hesc, and_self, if_true, hstate]
  · simp only [hesc, if_false, hstate]

/-- The labels of the `switch` are different from one another, in both directions. -/
theorem labels_ne (glfw : Glfw) (a b : Int) (i j : Nat) (hij : i ≠ j)
    (ha : [glfw.GLFW_KEY_W, glfw.GLFW_KEY_S, glfw.GLFW_KEY_A, glfw.GLFW_KEY_D, glfw.GLFW_KEY_E,
      glfw.GLFW_KEY_Q, glfw.GLFW_KEY_LEFT_SHIFT, glfw.GLFW_KEY_RIGHT_SHIFT,
      glfw.GLFW_KEY_LEFT_CONTROL, glfw.GLFW_KEY_RIGHT_CONTROL][i]? = some a)
    (hb : [glfw.GLFW_KEY_W, glfw.GLFW_KEY_S, glfw.GLFW_KEY_A, glfw.GLFW_KEY_D, glfw.GLFW_KEY_E,
      glfw.GLFW_KEY_Q, glfw.GLFW_KEY_LEFT_SHIFT, glfw.GLFW_KEY_RIGHT_SHIFT,
      glfw.GLFW_KEY_LEFT_CONTROL, glfw.GLFW_KEY_RIGHT_CONTROL][j]? = some b) : a ≠ b := by
  intro hab
  subst hab
  have hi := (List.getElem?_eq_some_iff.mp ha)
  have hj := (List.getElem?_eq_some_iff.mp hb)
  obtain ⟨hi₁, hi₂⟩ := hi
  obtain ⟨hj₁, hj₂⟩ := hj
  exact hij ((List.Nodup.getElem_inj_iff glfw.labels_nodup).mp (hi₂.trans hj₂.symm))

theorem ite_keeps {c : Prop} [Decidable c] {a b : UserState} (P : UserState → Prop) (ha : P a)
    (hb : P b) : P (if c then a else b) := by
  split <;> assumption

/-- What no assignment of the key callback touches. -/
theorem setInput_frame (state : UserState) (i : Fin EInputState.max.toSizeT) (value : Bool)
    (hi : i ≠ slot .mousing (by decide)) :
    (state.setInput i value).inputMap (slot .mousing (by decide)) =
      state.inputMap (slot .mousing (by decide)) ∧
    (state.setInput i value).mouseX = state.mouseX ∧
    (state.setInput i value).mouseY = state.mouseY ∧
    (state.setInput i value).previousX = state.previousX ∧
    (state.setInput i value).previousY = state.previousY ∧
    (state.setInput i value).wasMousing = state.wasMousing ∧
    (state.setInput i value).camera2world = state.camera2world := by
  refine ⟨?_, rfl, rfl, rfl, rfl, rfl, rfl⟩
  simp only [UserState.setInput]
  rw [if_neg (fun h => hi h.symm)]

/-! ## Claims about the user state and the upload -/

/-- C27 (the mouse look of `update_user_state`).  After every call `wasMousing` is the
`mousing` flag of the input; with the flag on, `previousX` and `previousY` are the
current `mouseX` and `mouseY`, and with the flag off they are as before.  The camera
is the movement applied to the camera turned by the mouse when the flag is on and
`wasMousing` was already true, and the movement applied to the camera as it was in
every other case; so in the first update after the flag was switched on
(`wasMousing` still false) the camera after the call does not depend on the mouse
coordinates.  The input map and the mouse coordinates are left as they were. -/
theorem C27_mouse_look (glm : Glm) (aState : UserState) (aElapsedTime : float) :
    (update_user_state glm aState aElapsedTime).wasMousing =
      aState.inputMap (slot .mousing (by decide)) ∧
    (aState.inputMap (slot .mousing (by decide)) = true →
      (update_user_state glm aState aElapsedTime).previousX = aState.mouseX ∧
      (update_user_state glm aState aElapsedTime).previousY = aState.mouseY) ∧
    (aState.inputMap (slot .mousing (by decide)) = false →
      (update_user_state glm aState aElapsedTime).previousX = aState.previousX ∧
      (update_user_state glm aState aElapsedTime).previousY = aState.previousY) ∧
    (aState.inputMap (slot .mousing (by decide)) = true ∧ aState.wasMousing = true →
      (update_user_state glm aState aElapsedTime).camera2world =
        movement glm aState aElapsedTime (turned glm aState)) ∧
    (¬ (aState.inputMap (slot .mousing (by decide)) = true ∧ aState.wasMousing = true) →
      (update_user_state glm aState aElapsedTime).camera2world =
        movement glm aState aElapsedTime aState.camera2world) ∧
    (aState.wasMousing = false → ∀ x y px py : float,
      (update_user_state glm
        { aState with mouseX := x, mouseY := y, previousX := px, previousY := py }
        aElapsedTime).camera2world =
      (update_user_state glm aState aElapsedTime).camera2world) ∧
    (update_user_state glm aState aElapsedTime).inputMap = aState.inputMap ∧
    (update_user_state glm aState aElapsedTime).mouseX = aState.mouseX ∧
    (update_user_state glm aState aElapsedTime).mouseY = aState.mouseY := by
  have hmove : ∀ s : UserState, ∀ cam,
      movement glm (mouseLook glm s) aElapsedTime cam = movement glm s aElapsedTime cam :=
    fun s cam => movement_inputMap glm (mouseLook_inputMap glm s) aElapsedTime cam
  have hcam : ∀ s : UserState, (update_user_state glm s aElapsedTime).camera2world =
      movement glm s aElapsedTime (mouseLook glm s).camera2world := by
    intro s
    unfold update_user_state
    exact hmove s _
  have hrest : ∀ s : UserState,
      (update_user_state glm s aElapsedTime).wasMousing = (mouseLook glm s).wasMousing ∧
      (update_user_state glm s aElapsedTime).previousX = (mouseLook glm s).previousX ∧
      (update_user_state glm s aElapsedTime).previousY = (mouseLook glm s).previousY ∧
      (update_user_state glm s aElapsedTime).inputMap = (mouseLook glm s).inputMap ∧
      (update_user_state glm s aElapsedTime).mouseX = (mouseLook glm s).mouseX ∧
      (update_user_state glm s aElapsedTime).mouseY = (mouseLook glm s).mouseY :=
    fun s => ⟨rfl, rfl, rfl, rfl, rfl, rfl⟩
  obtain ⟨r₁, r₂, r₃, r₄, r₅, r₆⟩ := hrest aState
  rw [r₁, r₂, r₃, r₄, r₅, r₆, hcam aState]
  have hl := mouseLook_cases glm aState
  refine ⟨?_, ?_, ?_, ?_, ?_, ?_, mouseLook_inputMap glm aState, ?_, ?_⟩
  · rw [hl]; split
    · rename_i h; rw [h]
    · rename_i h; simp only [Bool.not_eq_true] at h; rw [h]
  · intro h; rw [hl, if_pos h]; exact ⟨rfl, rfl⟩
  · intro h; rw [hl, if_neg (by rw [h]; decide)]; exact ⟨rfl, rfl⟩
  · rintro ⟨h₁, h₂⟩; rw [hl, if_pos h₁]; simp only [h₂, if_true]
  · intro h
    rw [hl]
    by_cases h₁ : aState.inputMap (slot .mousing (by decide)) = true
    · have h₂ : ¬ aState.wasMousing = true := fun h₂ => h ⟨h₁, h₂⟩
      rw [if_pos h₁]; simp [h₂]
    · rw [if_neg h₁]
  · intro hw x y px py
    have hfirst : ∀ s : UserState, s.wasMousing = false →
        (mouseLook glm s).camera2world = s.camera2world := by
      intro s hs
      rw [mouseLook_cases glm s]
      split
      · simp [hs]
      · rfl
    rw [hcam, hfirst aState hw,
      hfirst { aState with mouseX := x, mouseY := y, previousX := px, previousY := py } hw]
    exact movement_inputMap glm rfl aElapsedTime _
  · rw [hl]; split <;> rfl
  · rw [hl]; split <;> rfl

/-- C28 (the key callback: effect and frame).  For every key event on a window whose user
pointer is set, `glfw_callback_key_press` returns, and: with the key W, S, A, D, E, Q,
a Shift key or a Control key it sets the entry `forward`, `backward`, `strafeLeft`,
`strafeRight`, `levitate`, `sink`, `fast` or `slow` of `inputMap` to whether the action
is not a release (true for a press or a repeat, false for a release) and changes no
other entry; with any other key the whole `inputMap` is as before; and the entry
`mousing`, the mouse coordinates, `previousX`, `previousY`, `wasMousing` and
`camera2world` are as before for every key. -/
theorem C28_key_callback (glfw : Glfw) (aWindow : GLFWwindow) (state : UserState)
    (aKey aScanCode aAction aModifierFlags : Int) (hstate : aWindow.userPointer = some state) :
    ∃ window after,
      glfw_callback_key_press glfw aWindow aKey aScanCode aAction aModifierFlags = .ok window ∧
      window.userPointer = some after ∧
      (aKey = glfw.GLFW_KEY_W →
        SetsOnly state after (slot .forward (by decide)) (decide (aAction ≠ glfw.GLFW_RELEASE))) ∧
      (aKey = glfw.GLFW_KEY_S →
        SetsOnly state after (slot .backward (by decide)) (decide (aAction ≠ glfw.GLFW_RELEASE))) ∧
      (aKey = glfw.GLFW_KEY_A →
        SetsOnly state after (slot .strafeLeft (by decide)) (decide (aAction ≠ glfw.GLFW_RELEASE))) ∧
      (aKey = glfw.GLFW_KEY_D →
        SetsOnly state after (slot .strafeRight (by decide)) (decide (aAction ≠ glfw.GLFW_RELEASE))) ∧
      (aKey = glfw.GLFW_KEY_E →
        SetsOnly state after (slot .levitate (by decide)) (decide (aAction ≠ glfw.GLFW_RELEASE))) ∧
      (aKey = glfw.GLFW_KEY_Q →
        SetsOnly state after (slot .sink (by decide)) (decide (aAction ≠ glfw.GLFW_RELEASE))) ∧
      (aKey = glfw.GLFW_KEY_LEFT_SHIFT ∨ aKey = glfw.GLFW_KEY_RIGHT_SHIFT →
        SetsOnly state after (slot .fast (by decide)) (decide (aAction ≠ glfw.GLFW_RELEASE))) ∧
      (aKey = glfw.GLFW_KEY_LEFT_CONTROL ∨ aKey = glfw.GLFW_KEY_RIGHT_CONTROL →
        SetsOnly state after (slot .slow (by decide)) (decide (aAction ≠ glfw.GLFW_RELEASE))) ∧
      (aAction = glfw.GLFW_PRESS ∨ aAction = glfw.GLFW_REPEAT →
        decide (aAction ≠ glfw.GLFW_RELEASE) = true) ∧
      (aAction = glfw.GLFW_RELEASE → decide (aAction ≠ glfw.GLFW_RELEASE) = false) ∧
      (Unmapped glfw aKey → after.inputMap = state.inputMap) ∧
      after.inputMap (slot .mousing (by decide)) = state.inputMap (slot .mousing (by decide)) ∧
      after.mouseX = state.mouseX ∧ after.mouseY = state.mouseY ∧
      after.previousX = state.previousX ∧ after.previousY = state.previousY ∧
      after.wasMousing = state.wasMousing ∧ after.camera2world = state.camera2world := by
  have hv : (!decide (glfw.GLFW_RELEASE = aAction)) = decide (aAction ≠ glfw.GLFW_RELEASE) := by
    by_cases h : glfw.GLFW_RELEASE = aAction
    · simp [h]
    · have h' : aAction ≠ glfw.GLFW_RELEASE := fun e => h e.symm
      simp [h, h']
  refine ⟨_, _, key_press_eq glfw aWindow state aKey aScanCode aAction aModifierFlags hstate, rfl,
    ?_⟩
  rw [hv]
  refine ⟨?_, ?_, ?_, ?_, ?_, ?_, ?_, ?_, ?_, ?_, ?_, ?_⟩
  · intro hk
    subst hk
    simp only [(labels_ne glfw _ _ 0 1 (by decide) rfl rfl :
        glfw.GLFW_KEY_W ≠ glfw.GLFW_KEY_S),
      (labels_ne glfw _ _ 0 2 (by decide) rfl rfl :
        glfw.GLFW_KEY_W ≠ glfw.GLFW_KEY_A),
      (labels_ne glfw _ _ 0 3 (by decide) rfl rfl :
        glfw.GLFW_KEY_W ≠ glfw.GLFW_KEY_D),
      (labels_ne glfw _ _ 0 4 (by decide) rfl rfl :
        glfw.GLFW_KEY_W ≠ glfw.GLFW_KEY_E),
      (labels_ne glfw _ _ 0 5 (by decide) rfl rfl :
        glfw.GLFW_KEY_W ≠ glfw.GLFW_KEY_Q),
      (labels_ne glfw _ _ 0 6 (by decide) rfl rfl :
        glfw.GLFW_KEY_W ≠ glfw.GLFW_KEY_LEFT_SHIFT),
      (labels_ne glfw _ _ 0 7 (by decide) rfl rfl :
        glfw.GLFW_KEY_W ≠ glfw.GLFW_KEY_RIGHT_SHIFT),
      (labels_ne glfw _ _ 0 8 (by decide) rfl rfl :
        glfw.GLFW_KEY_W ≠ glfw.GLFW_KEY_LEFT_CONTROL),
      (labels_ne glfw _ _ 0 9 (by decide) rfl rfl :
        glfw.GLFW_KEY_W ≠ glfw.GLFW_KEY_RIGHT_CONTROL),
      ne_eq, not_false_eq_true, if_false, if_true, false_or, or_false, or_true, true_or]
    exact setInput_sets _ _ _
  · intro hk
    subst hk
    simp only [(labels_ne glfw _ _ 1 0 (by decide) rfl rfl :
        glfw.GLFW_KEY_S ≠ glfw.GLFW_KEY_W),
      (labels_ne glfw _ _ 1 2 (by decide) rfl rfl :
        glfw.GLFW_KEY_S ≠ glfw.GLFW_KEY_A),
      (labels_ne glfw _ _ 1 3 (by decide) rfl rfl :
        glfw.GLFW_KEY_S ≠ glfw.GLFW_KEY_D),
      (labels_ne glfw _ _ 1 4 (by decide) rfl rfl :
        glfw.GLFW_KEY_S ≠ glfw.GLFW_KEY_E),
      (labels_ne glfw _ _ 1 5 (by decide) rfl rfl :
        glfw.GLFW_KEY_S ≠ glfw.GLFW_KEY_Q),
      (labels_ne glfw _ _ 1 6 (by decide) rfl rfl :
        glfw.GLFW_KEY_S ≠ glfw.GLFW_KEY_LEFT_SHIFT),
      (labels_ne glfw _ _ 1 7 (by decide) rfl rfl :
        glfw.GLFW_KEY_S ≠ glfw.GLFW_KEY_RIGHT_SHIFT),
      (labels_ne glfw _ _ 1 8 (by decide) rfl rfl :
        glfw.GLFW_KEY_S ≠ glfw.GLFW_KEY_LEFT_CONTROL),
      (labels_ne glfw _ _ 1 9 (by decide) rfl rfl :
        glfw.GLFW_KEY_S ≠ glfw.GLFW_KEY_RIGHT_CONTROL),
      ne_eq, not_false_eq_true, if_false, if_true, false_or, or_false, or_true, true_or]
    exact setInput_sets _ _ _
  · intro hk
    subst hk
    simp only [(labels_ne glfw _ _ 2 0 (by decide) rfl rfl :
        glfw.GLFW_KEY_A ≠ glfw.GLFW_KEY_W),
      (labels_ne glfw _ _ 2 1 (by decide) rfl rfl :
        glfw.GLFW_KEY_A ≠ glfw.GLFW_KEY_S),
      (labels_ne glfw _ _ 2 3 (by decide) rfl rfl :
        glfw.GLFW_KEY_A ≠ glfw.GLFW_KEY_D),
      (labels_ne glfw _ _ 2 4 (by decide) rfl rfl :
        glfw.GLFW_KEY_A ≠ glfw.GLFW_KEY_E),
      (labels_ne glfw _ _ 2 5 (by decide) rfl rfl :
        glfw.GLFW_KEY_A ≠ glfw.GLFW_KEY_Q),
      (labels_ne glfw _ _ 2 6 (by decide) rfl rfl :
        glfw.GLFW_KEY_A ≠ glfw.GLFW_KEY_LEFT_SHIFT),
      (labels_ne glfw _ _ 2 7 (by decide) rfl rfl :
        glfw.GLFW_KEY_A ≠ glfw.GLFW_KEY_RIGHT_SHIFT),
      (labels_ne glfw _ _ 2 8 (by decide) rfl rfl :
        glfw.GLFW_KEY_A ≠ glfw.GLFW_KEY_LEFT_CONTROL),
      (labels_ne glfw _ _ 2 9 (by decide) rfl rfl :
        glfw.GLFW_KEY_A ≠ glfw.GLFW_KEY_RIGHT_CONTROL),
      ne_eq, not_false_eq_true, if_false, if_true, false_or, or_false, or_true, true_or]
    exact setInput_sets _ _ _
  · intro hk
    subst hk
    simp only [(labels_ne glfw _ _ 3 0 (by decide) rfl rfl :
        glfw.GLFW_KEY_D ≠ glfw.GLFW_KEY_W),
      (labels_ne glfw _ _ 3 1 (by decide) rfl rfl :
        glfw.GLFW_KEY_D ≠ glfw.GLFW_KEY_S),
      (labels_ne glfw _ _ 3 2 (by decide) rfl rfl :
        glfw.GLFW_KEY_D ≠ glfw.GLFW_KEY_A),
      (labels_ne glfw _ _ 3 4 (by decide) rfl rfl :
        glfw.GLFW_KEY_D ≠ glfw.GLFW_KEY_E),
      (labels_ne glfw _ _ 3 5 (by decide) rfl rfl :
        glfw.GLFW_KEY_D ≠ glfw.GLFW_KEY_Q),
      (labels_ne glfw _ _ 3 6 (by decide) rfl rfl :
        glfw.GLFW_KEY_D ≠ glfw.GLFW_KEY_LEFT_SHIFT),
      (labels_ne glfw _ _ 3 7 (by decide) rfl rfl :
        glfw.GLFW_KEY_D ≠ glfw.GLFW_KEY_RIGHT_SHIFT),
      (labels_ne glfw _ _ 3 8 (by decide) rfl rfl :
        glfw.GLFW_KEY_D ≠ glfw.GLFW_KEY_LEFT_CONTROL),
      (labels_ne glfw _ _ 3 9 (by decide) rfl rfl :
        glfw.GLFW_KEY_D ≠ glfw.GLFW_KEY_RIGHT_CONTROL),
      ne_eq, not_false_eq_true, if_false, if_true, false_or, or_false, or_true, true_or]
    exact setInput_sets _ _ _
  · intro hk
    subst hk
    simp only [(labels_ne glfw _ _ 4 0 (by decide) rfl rfl :
        glfw.GLFW_KEY_E ≠ glfw.GLFW_KEY_W),
      (labels_ne glfw _ _ 4 1 (by decide) rfl rfl :
        glfw.GLFW_KEY_E ≠ glfw.GLFW_KEY_S),
      (labels_ne glfw _ _ 4 2 (by decide) rfl rfl :
        glfw.GLFW_KEY_E ≠ glfw.GLFW_KEY_A),
      (labels_ne glfw _ _ 4 3 (by decide) rfl rfl :
        glfw.GLFW_KEY_E ≠ glfw.GLFW_KEY_D),
      (labels_ne glfw _ _ 4 5 (by decide) rfl rfl :
        glfw.GLFW_KEY_E ≠ glfw.GLFW_KEY_Q),
      (labels_ne glfw _ _ 4 6 (by decide) rfl rfl :
        glfw.GLFW_KEY_E ≠ glfw.GLFW_KEY_LEFT_SHIFT),
      (labels_ne glfw _ _ 4 7 (by decide) rfl rfl :
        glfw.GLFW_KEY_E ≠ glfw.GLFW_KEY_RIGHT_SHIFT),
      (labels_ne glfw _ _ 4 8 (by decide) rfl rfl :
        glfw.GLFW_KEY_E ≠ glfw.GLFW_KEY_LEFT_CONTROL),
      (labels_ne glfw _ _ 4 9 (by decide) rfl rfl :
        glfw.GLFW_KEY_E ≠ glfw.GLFW_KEY_RIGHT_CONTROL),
      ne_eq, not_false_eq_true, if_false, if_true, false_or, or_false, or_true, true_or]
    exact setInput_sets _ _ _
  · intro hk
    subst hk
    simp only [(labels_ne glfw _ _ 5 0 (by decide) rfl rfl :
        glfw.GLFW_KEY_Q ≠ glfw.GLFW_KEY_W),
      (labels_ne glfw _ _ 5 1 (by decide) rfl rfl :
        glfw.GLFW_KEY_Q ≠ glfw.GLFW_KEY_S),
      (labels_ne glfw _ _ 5 2 (by decide) rfl rfl :
        glfw.GLFW_KEY_Q ≠ glfw.GLFW_KEY_A),
      (labels_ne glfw _ _ 5 3 (by decide) rfl rfl :
        glfw.GLFW_KEY_Q ≠ glfw.GLFW_KEY_D),
      (labels_ne glfw _ _ 5 4 (by decide) rfl rfl :
        glfw.GLFW_KEY_Q ≠ glfw.GLFW_KEY_E),
      (labels_ne glfw _ _ 5 6 (by decide) rfl rfl :
        glfw.GLFW_KEY_Q ≠ glfw.GLFW_KEY_LEFT_SHIFT),
      (labels_ne glfw _ _ 5 7 (by decide) rfl rfl :
        glfw.GLFW_KEY_Q ≠ glfw.GLFW_KEY_RIGHT_SHIFT),
      (labels_ne glfw _ _ 5 8 (by decide) rfl rfl :
        glfw.GLFW_KEY_Q ≠ glfw.GLFW_KEY_LEFT_CONTROL),
      (labels_ne glfw _ _ 5 9 (by decide) rfl rfl :
        glfw.GLFW_KEY_Q ≠ glfw.GLFW_KEY_RIGHT_CONTROL),
      ne_eq, not_false_eq_true, if_false, if_true, false_or, or_false, or_true, true_or]
    exact setInput_sets _ _ _
  · rintro (hk | hk)
    · subst hk
      simp only [(labels_ne glfw _ _ 6 0 (by decide) rfl rfl :
        glfw.GLFW_KEY_LEFT_SHIFT ≠ glfw.GLFW_KEY_W),
        (labels_ne glfw _ _ 6 1 (by decide) rfl rfl :
        glfw.GLFW_KEY_LEFT_SHIFT ≠ glfw.GLFW_KEY_S),
        (labels_ne glfw _ _ 6 2 (by decide) rfl rfl :
        glfw.GLFW_KEY_LEFT_SHIFT ≠ glfw.GLFW_KEY_A),
        (labels_ne glfw _ _ 6 3 (by decide) rfl rfl :
        glfw.GLFW_KEY_LEFT_SHIFT ≠ glfw.GLFW_KEY_D),
        (labels_ne glfw _ _ 6 4 (by decide) rfl rfl :
        glfw.GLFW_KEY_LEFT_SHIFT ≠ glfw.GLFW_KEY_E),
        (labels_ne glfw _ _ 6 5 (by decide) rfl rfl :
        glfw.GLFW_KEY_LEFT_SHIFT ≠ glfw.GLFW_KEY_Q),
        (labels_ne glfw _ _ 6 7 (by decide) rfl rfl :
        glfw.GLFW_KEY_LEFT_SHIFT ≠ glfw.GLFW_KEY_RIGHT_SHIFT),
        (labels_ne glfw _ _ 6 8 (by decide) rfl rfl :
        glfw.GLFW_KEY_LEFT_SHIFT ≠ glfw.GLFW_KEY_LEFT_CONTROL),
        (labels_ne glfw _ _ 6 9 (by decide) rfl rfl :
        glfw.GLFW_KEY_LEFT_SHIFT ≠ glfw.GLFW_KEY_RIGHT_CONTROL),
        ne_eq, not_false_eq_true, if_false, if_true, false_or, or_false, or_true, true_or]
      exact setInput_sets _ _ _
    · subst hk
      simp only [(labels_ne glfw _ _ 7 0 (by decide) rfl rfl :
        glfw.GLFW_KEY_RIGHT_SHIFT ≠ glfw.GLFW_KEY_W),
        (labels_ne glfw _ _ 7 1 (by decide) rfl rfl :
        glfw.GLFW_KEY_RIGHT_SHIFT ≠ glfw.GLFW_KEY_S),
        (labels_ne glfw _ _ 7 2 (by decide) rfl rfl :
        glfw.GLFW_KEY_RIGHT_SHIFT ≠ glfw.GLFW_KEY_A),
        (labels_ne glfw _ _ 7 3 (by decide) rfl rfl :
        glfw.GLFW_KEY_RIGHT_SHIFT ≠ glfw.GLFW_KEY_D),
        (labels_ne glfw _ _ 7 4 (by decide) rfl rfl :
        glfw.GLFW_KEY_RIGHT_SHIFT ≠ glfw.GLFW_KEY_E),
        (labels_ne glfw _ _ 7 5 (by decide) rfl rfl :
        glfw.GLFW_KEY_RIGHT_SHIFT ≠ glfw.GLFW_KEY_Q),
        (labels_ne glfw _ _ 7 6 (by decide) rfl rfl :
        glfw.GLFW_KEY_RIGHT_SHIFT ≠ glfw.GLFW_KEY_LEFT_SHIFT),
        (labels_ne glfw _ _ 7 8 (by decide) rfl rfl :
        glfw.GLFW_KEY_RIGHT_SHIFT ≠ glfw.GLFW_KEY_LEFT_CONTROL),
        (labels_ne glfw _ _ 7 9 (by decide) rfl rfl :
        glfw.GLFW_KEY_RIGHT_SHIFT ≠ glfw.GLFW_KEY_RIGHT_CONTROL),
        ne_eq, not_false_eq_true, if_false, if_true, false_or, or_false, or_true, true_or]
      exact setInput_sets _ _ _
  · rintro (hk | hk)
    · subst hk
      simp only [(labels_ne glfw _ _ 8 0 (by decide) rfl rfl :
        glfw.GLFW_KEY_LEFT_CONTROL ≠ glfw.GLFW_KEY_W),
        (labels_ne glfw _ _ 8 1 (by decide) rfl rfl :
        glfw.GLFW_KEY_LEFT_CONTROL ≠ glfw.GLFW_KEY_S),
        (labels_ne glfw _ _ 8 2 (by decide) rfl rfl :
        glfw.GLFW_KEY_LEFT_CONTROL ≠ glfw.GLFW_KEY_A),
        (labels_ne glfw _ _ 8 3 (by decide) rfl rfl :
        glfw.GLFW_KEY_LEFT_CONTROL ≠ glfw.GLFW_KEY_D),
        (labels_ne glfw _ _ 8 4 (by decide) rfl rfl :
        glfw.GLFW_KEY_LEFT_CONTROL ≠ glfw.GLFW_KEY_E),
        (labels_ne glfw _ _ 8 5 (by decide) rfl rfl :
        glfw.GLFW_KEY_LEFT_CONTROL ≠ glfw.GLFW_KEY_Q),
        (labels_ne glfw _ _ 8 6 (by decide) rfl rfl :
        glfw.GLFW_KEY_LEFT_CONTROL ≠ glfw.GLFW_KEY_LEFT_SHIFT),
        (labels_ne glfw _ _ 8 7 (by decide) rfl rfl :
        glfw.GLFW_KEY_LEFT_CONTROL ≠ glfw.GLFW_KEY_RIGHT_SHIFT),
        (labels_ne glfw _ _ 8 9 (by decide) rfl rfl :
        glfw.GLFW_KEY_LEFT_CONTROL ≠ glfw.GLFW_KEY_RIGHT_CONTROL),
        ne_eq, not_false_eq_true, if_false, if_true, false_or, or_false, or_true, true_or]
      exact setInput_sets _ _ _
    · subst hk
      simp only [(labels_ne glfw _ _ 9 0 (by decide) rfl rfl :
        glfw.GLFW_KEY_RIGHT_CONTROL ≠ glfw.GLFW_KEY_W),
        (labels_ne glfw _ _ 9 1 (by decide) rfl rfl :
        glfw.GLFW_KEY_RIGHT_CONTROL ≠ glfw.GLFW_KEY_S),
        (labels_ne glfw _ _ 9 2 (by decide) rfl rfl :
        glfw.GLFW_KEY_RIGHT_CONTROL ≠ glfw.GLFW_KEY_A),
        (labels_ne glfw _ _ 9 3 (by decide) rfl rfl :
        glfw.GLFW_KEY_RIGHT_CONTROL ≠ glfw.GLFW_KEY_D),
        (labels_ne glfw _ _ 9 4 (by decide) rfl rfl :
        glfw.GLFW_KEY_RIGHT_CONTROL ≠ glfw.GLFW_KEY_E),
        (labels_ne glfw _ _ 9 5 (by decide) rfl rfl :
        glfw.GLFW_KEY_RIGHT_CONTROL ≠ glfw.GLFW_KEY_Q),
        (labels_ne glfw _ _ 9 6 (by decide) rfl rfl :
        glfw.GLFW_KEY_RIGHT_CONTROL ≠ glfw.GLFW_KEY_LEFT_SHIFT),
        (labels_ne glfw _ _ 9 7 (by decide) rfl rfl :
        glfw.GLFW_KEY_RIGHT_CONTROL ≠ glfw.GLFW_KEY_RIGHT_SHIFT),
        (labels_ne glfw _ _ 9 8 (by decide) rfl rfl :
        glfw.GLFW_KEY_RIGHT_CONTROL ≠ glfw.GLFW_KEY_LEFT_CONTROL),
        ne_eq, not_false_eq_true, if_false, if_true, false_or, or_false, or_true, true_or]
      exact setInput_sets _ _ _
  · rintro (h | h)
    · rw [h]; exact decide_eq_true glfw.press_ne_release
    · rw [h]; exact decide_eq_true glfw.repeat_ne_release
  · intro h
    rw [h]; simp
  · intro hun
    simp only [Unmapped, List.mem_cons, List.mem_singleton, List.not_mem_nil, or_false,
      not_or] at hun
    obtain ⟨h0, h1, h2, h3, h4, h5, h6, h7, h8, h9⟩ := hun
    simp only [h0, h1, h2, h3, h4, h5, h6, h7, h8, h9, if_false, or_self]
  · have key : ∀ P : UserState → Prop,
        (∀ i v, i ≠ slot .mousing (by decide) → P (state.setInput i v)) → P state →
        P (if aKey = glfw.GLFW_KEY_W then
            state.setInput (slot .forward (by decide)) (decide (aAction ≠ glfw.GLFW_RELEASE))
          else if aKey = glfw.GLFW_KEY_S then
            state.setInput (slot .backward (by decide)) (decide (aAction ≠ glfw.GLFW_RELEASE))
          else if aKey = glfw.GLFW_KEY_A then
            state.setInput (slot .strafeLeft (by decide)) (decide (aAction ≠ glfw.GLFW_RELEASE))
          else if aKey = glfw.GLFW_KEY_D then
            state.setInput (slot .strafeRight (by decide)) (decide (aAction ≠ glfw.GLFW_RELEASE))
          else if aKey = glfw.GLFW_KEY_E then
            state.setInput (slot .levitate (by decide)) (decide (aAction ≠ glfw.GLFW_RELEASE))
          else if aKey = glfw.GLFW_KEY_Q then
            state.setInput (slot .sink (by decide)) (decide (aAction ≠ glfw.GLFW_RELEASE))
          else if aKey = glfw.GLFW_KEY_LEFT_SHIFT ∨ aKey = glfw.GLFW_KEY_RIGHT_SHIFT then
            state.setInput (slot .fast (by decide)) (decide (aAction ≠ glfw.GLFW_RELEASE))
          else if aKey = glfw.GLFW_KEY_LEFT_CONTROL ∨ aKey = glfw.GLFW_KEY_RIGHT_CONTROL then
            state.setInput (slot .slow (by decide)) (decide (aAction ≠ glfw.GLFW_RELEASE))
          else state) := by
      intro P hl hs
      exact ite_keeps P (hl _ _ (by decide)) (ite_keeps P (hl _ _ (by decide))
        (ite_keeps P (hl _ _ (by decide)) (ite_keeps P (hl _ _ (by decide))
        (ite_keeps P (hl _ _ (by decide)) (ite_keeps P (hl _ _ (by decide))
        (ite_keeps P (hl _ _ (by decide)) (ite_keeps P (hl _ _ (by decide)) hs)))))))
    exact key (fun s : UserState =>
        s.inputMap (slot .mousing (by decide)) = state.inputMap (slot .mousing (by decide)) ∧
        s.mouseX = state.mouseX ∧ s.mouseY = state.mouseY ∧
        s.previousX = state.previousX ∧ s.previousY = state.previousY ∧
        s.wasMousing = state.wasMousing ∧ s.camera2world = state.camera2world)
      (fun i v hi => setInput_frame state i v hi) ⟨rfl, rfl, rfl, rfl, rfl, rfl, rfl⟩

/-- On the fresh window, pressing W (key 87, action 1 in GLFW 3) sets `forward`. -/
theorem C28_key_callback_witness :
    freshWindow.userPointer = some freshState ∧
    ∃ window after, glfw_callback_key_press glfw3 freshWindow 87 17 1 0 = .ok window ∧
      window.userPointer = some after ∧ after.inputMap (slot .forward (by decide)) = true :=
  ⟨rfl, (C28_key_callback glfw3 freshWindow freshState 87 17 1 0 rfl).imp fun _ h =>
    h.imp fun _ h' => ⟨h'.1, h'.2.1, (h'.2.2.1 rfl).1⟩⟩

/-- C29 (upload sizes and count truncation).  For every vertex count `N` with which
`create_textured_mesh` or `create_coloured_mesh` returns a record: the position buffer
was created with `N * 12` bytes, the texcoord buffer with `N * 8` bytes and the colour
buffer with `N * 12` bytes, and the `vertexCount` of the record is `N mod 2 ^ 32`, which
is `N` when `N < 2 ^ 32`.  In the loop `N` is the `vertexCount` of the mesh descriptor.
The functions return on a device whose calls all succeed when the arrays hold the
`3 * N` and `2 * N` (or `3 * N`) floats that are copied. -/
theorem C29_upload_sizes (dev : Device) (n : Nat) (aPositions aSecond : List float) (N : Nat) :
    (∀ r, create_textured_mesh dev n aPositions aSecond N = .ok r →
      r.positions.size = N * 12 ∧ r.texcoords.size = N * 8 ∧ r.vertexCount = N % 2 ^ 32 ∧
      (N < 2 ^ 32 → r.vertexCount = N)) ∧
    (∀ r, create_coloured_mesh dev n aPositions aSecond N = .ok r →
      r.positions.size = N * 12 ∧ r.colors.size = N * 12 ∧ r.vertexCount = N % 2 ^ 32 ∧
      (N < 2 ^ 32 → r.vertexCount = N)) ∧
    (dev.upload n = successAnswers → N * 3 ≤ aPositions.length → N * 2 ≤ aSecond.length →
      ∃ r, create_textured_mesh dev n aPositions aSecond N = .ok r) ∧
    (dev.upload n = successAnswers → N * 3 ≤ aPositions.length → N * 3 ≤ aSecond.length →
      ∃ r, create_coloured_mesh dev n aPositions aSecond N = .ok r) ∧
    ∀ (meshes : SimpleModel) (mesh : SimpleMeshInfo) (call : BackendCall),
      callFor meshes mesh = .ok call → call.vertexCount = mesh.vertexCount := by
  refine ⟨?_, ?_, ?_, ?_, ?_⟩
  · intro r h
    have hr := @create_textured_mesh_ok dev n ⟨aPositions, aSecond, N⟩ r h
    subst hr
    refine ⟨?_, ?_, rfl, fun hN => Nat.mod_eq_of_lt hN⟩
    · show N * 3 * 4 = N * 12; omega
    · show N * 2 * 4 = N * 8; omega
  · intro r h
    have hr := @create_coloured_mesh_ok dev n ⟨aPositions, aSecond, N⟩ r h
    subst hr
    refine ⟨?_, ?_, rfl, fun hN => Nat.mod_eq_of_lt hN⟩
    · show N * 3 * 4 = N * 12; omega
    · show N * 3 * 4 = N * 12; omega
  · intro hdev hp hs
    exact ⟨_, @create_textured_mesh_returns dev n ⟨aPositions, aSecond, N⟩ hdev hp hs⟩
  · intro hdev hp hs
    exact ⟨_, @create_coloured_mesh_returns dev n ⟨aPositions, aSecond, N⟩ hdev hp hs⟩
  · intro meshes mesh call h
    unfold callFor at h
    split at h
    · cases hg : gatherTextured meshes mesh with
      | error e => rw [hg] at h; cases h
      | ok d =>
        rw [hg] at h
        simp only [] at h
        cases hm : meshes.materials[mesh.materialIndex]? with
        | none => rw [hm] at h; cases h
        | some material =>
          rw [hm] at h
          cases h
          exact (gatherTextured_ok hg).2.2.2.2
    · cases hg : gatherColoured meshes mesh with
      | error e => rw [hg] at h; cases h
      | ok d =>
        rw [hg] at h
        cases h
        exact (gatherColoured_ok hg).2.2.1

end BasicVulkan
